import Mathlib

/-!
Verification of the descent tensor-graph compiler core (graph builder,
autograd accumulation, optimizer passes, cluster builder, and the backend
buffer heap) against its specification.  The data model and the operations
are shallowly embedded from the Rust sources (src/src/array.rs,
src/src/graph.rs, src/src/heap.rs); parts of the crate-internal `common`
module that the sources use but that is not part of the sources here
(the view algebra, the op classification helpers, the `only()` iterator
helper and `new_node`) are modelled from the specification and kept
abstract where the verified properties do not depend on their internals.
-/

namespace Descent

/-- Shape: ordered sequence of dimension sizes (spec section 3). -/
abbrev Shape := List Nat

/-- Element count of a shape: product of its dimensions. -/
def Shape.element_count (s : Shape) : Nat := s.prod

/-- Unary element-wise operators, from the Op tagged union (spec section 3). -/
inductive UnaryOp
  | Neg | Exp | Log | Sqrt | Sin | Cos | Mov | FloatToUint | UintToFloat
  deriving DecidableEq, Repr

/-- Binary element-wise operators, from the Op tagged union (spec section 3). -/
inductive BinaryOp
  | Add | Sub | Mul | Div | Pow | UAdd | UMul | URem | UBitXor
  deriving DecidableEq, Repr

/-- Comparison modes of CompareAndSelect (spec section 3). -/
inductive CompareMode
  | Eq | Gt
  deriving DecidableEq, Repr

/-- Reduction operators (spec section 3). -/
inductive ReduceOp
  | Max | Sum
  deriving DecidableEq, Repr

/-- Output layouts of batched matrix multiplication (spec section 3). -/
inductive MatMulOutputMode
  | Batches | Rows
  deriving DecidableEq, Repr

/-- Built-in value generators (spec section 3). -/
inductive BuiltInOp
  | Coord
  | Rand (uid : Nat)
  deriving DecidableEq, Repr

/-- Literal payloads.  The f32 payload (ordered_float NotNan in the source)
is idealised as an exact rational; the claims under verification only
compare literals structurally. -/
inductive Lit
  | F32 (value : ℚ)
  | U32 (value : Nat)
  deriving DecidableEq

/-- Modelled from the spec: the Op tagged union of the missing common
module (spec section 3), with exactly the variants used by
src/src/graph.rs and src/src/array.rs. -/
inductive Op
  | Input (parameter_id : Nat)
  | Output (parameter_id : Nat)
  | Literal (value : Lit)
  | BuiltIn (op : BuiltInOp)
  | Unary (op : UnaryOp)
  | Binary (op : BinaryOp)
  | CompareAndSelect (compare_mode : CompareMode)
  | Reduce (reduce_op : ReduceOp) (axis : Nat)
  | MatMul (output_mode : MatMulOutputMode)
  | Gather (axis : Nat)
  | ScatterAdd (axis : Nat)
  | Unpad (axis : Nat) (pad : Nat)
  | WindowsToImage (stride : Nat × Nat)
  deriving DecidableEq

/-- Modelled from the spec: Op::output_parameter_id of the missing common
module; Some exactly on Output nodes (used by move elimination to protect
outputs). -/
def Op.output_parameter_id : Op → Option Nat
  | .Output p => some p
  | _ => none

/-- Modelled from the spec: Op::is_gather_arg of the missing common module.
For Gather the values argument (arg 0) is the raw-buffer side (graph.rs
feeds args[0] of the per-element Gather kernel op from a kernel input);
for ScatterAdd the index argument is arg 2 (spec section 3). -/
def Op.is_gather_arg : Op → Nat → Bool
  | .Gather _, a => a == 0
  | .ScatterAdd _, a => a == 2
  | _, _ => false

/-- Op-graph node payload: colour tag, result shape, op, and optional
cluster assignment (OpNode in the source). -/
structure OpNode where
  colour : Nat
  shape : Shape
  op : Op
  cluster_id : Option Nat
  deriving DecidableEq

/-- Op-graph edge payload: argument slot and the view applied to the
source (OpEdge in the source); the view type V is kept abstract. -/
structure OpEdge (V : Type) where
  arg : Nat
  view : V
  deriving DecidableEq

/-- A directed edge of the op graph together with its endpoints
(petgraph stores endpoints with the edge). -/
structure EdgeRec (V : Type) where
  src : Nat
  dst : Nat
  weight : OpEdge V
  deriving DecidableEq

/-- The op graph: a stable directed graph with integer node and edge ids
(petgraph StableDiGraph in the source).  Ids are never reused; entries of
removed ids simply disappear from the association lists. -/
structure OpGraph (V : Type) where
  nodes : List (Nat × OpNode)
  edges : List (Nat × EdgeRec V)
  next_node_id : Nat
  next_edge_id : Nat
  deriving DecidableEq

/-- Modelled from the spec: the interface of the missing common module
used by the optimizer passes — the view algebra operations of spec
section 4.1 and the op classification helpers of spec sections 3 and 4.4.
All verified statements are universally quantified over this interface
unless a claim pins a particular operation down. -/
structure CommonOps (V : Type) where
  identity_view : Shape → V
  broadcast : Shape → Shape → V
  through : V → V → Bool → V
  can_view_through : V → V → Bool → Bool
  try_from_reshape : Shape → Shape → Option V
  output_shape : V → Shape
  is_contiguous : V → Bool
  edge_is_per_element : Nat → V → Op → Bool
  is_per_element : Op → Bool
  can_reshape : Op → Bool

/-- Modelled from the spec: a concrete instance of the common-module
interface that tracks only the output shape of each view (spec section 3:
every edge view carries the consumer's expected input shape).  Per-element
ops are the four element-wise op kinds; Input, Output, Literal and BuiltIn
remain unclustered (spec section 4.4). -/
def CommonOps.model : CommonOps Shape where
  identity_view s := s
  broadcast _ dst := dst
  through _ w _ := w
  can_view_through _ _ _ := true
  try_from_reshape _ _ := none
  output_shape v := v
  is_contiguous _ := true
  edge_is_per_element _ _ _ := true
  is_per_element op :=
    match op with
    | .Unary _ => true
    | .Binary _ => true
    | .CompareAndSelect _ => true
    | .Gather _ => true
    | _ => false
  can_reshape op :=
    match op with
    | .Unary _ => true
    | .Binary _ => true
    | .CompareAndSelect _ => true
    | .Literal _ => true
    | .BuiltIn _ => true
    | _ => false

/-- Lookup in an association list with natural-number keys. -/
def alist_get {β : Type} (l : List (Nat × β)) (k : Nat) : Option β :=
  (l.find? (fun p => p.1 == k)).map (fun p => p.2)

/-- Insert-or-replace in an association list (SparseSecondaryMap::insert
keeps one entry per key). -/
def alist_insert {β : Type} (l : List (Nat × β)) (k : Nat) (v : β) :
    List (Nat × β) :=
  if (l.find? (fun p => p.1 == k)).isSome then
    l.map (fun p => if p.1 == k then (k, v) else p)
  else
    l ++ [(k, v)]

namespace OpGraph

variable {V : Type}

/-- Node payload of a node id, when present. -/
def node (g : OpGraph V) (id : Nat) : Option OpNode :=
  alist_get g.nodes id

/-- Replace the payload of a node id (no-op when absent). -/
def upd_node (g : OpGraph V) (id : Nat) (f : OpNode → OpNode) : OpGraph V :=
  { g with nodes := g.nodes.map (fun p => if p.1 == id then (p.1, f p.2) else p) }

/-- StableDiGraph::add_node: mint a fresh id and append the node. -/
def add_node (g : OpGraph V) (nd : OpNode) : OpGraph V × Nat :=
  ({ g with
      nodes := g.nodes ++ [(g.next_node_id, nd)],
      next_node_id := g.next_node_id + 1 },
   g.next_node_id)

/-- StableDiGraph::add_edge: mint a fresh id and append the edge. -/
def add_edge (g : OpGraph V) (src dst : Nat) (w : OpEdge V) : OpGraph V × Nat :=
  ({ g with
      edges := g.edges ++ [(g.next_edge_id, ⟨src, dst, w⟩)],
      next_edge_id := g.next_edge_id + 1 },
   g.next_edge_id)

/-- StableDiGraph::remove_edge. -/
def remove_edge (g : OpGraph V) (eid : Nat) : OpGraph V :=
  { g with edges := g.edges.filter (fun p => p.1 != eid) }

/-- StableDiGraph::remove_node: removes the node and all incident edges. -/
def remove_node (g : OpGraph V) (id : Nat) : OpGraph V :=
  { g with
      nodes := g.nodes.filter (fun p => p.1 != id),
      edges := g.edges.filter (fun p => p.2.src != id && p.2.dst != id) }

/-- edges_directed(id, Incoming): all edges whose destination is id. -/
def edges_in (g : OpGraph V) (id : Nat) : List (Nat × EdgeRec V) :=
  g.edges.filter (fun p => p.2.dst == id)

/-- edges_directed(id, Outgoing): all edges whose source is id. -/
def edges_out (g : OpGraph V) (id : Nat) : List (Nat × EdgeRec V) :=
  g.edges.filter (fun p => p.2.src == id)

/-- neighbors_directed(id, Incoming), as the list of edge sources. -/
def in_neighbors (g : OpGraph V) (id : Nat) : List Nat :=
  (g.edges_in id).map (fun p => p.2.src)

/-- retain_nodes: keep exactly the nodes whose id satisfies the predicate,
dropping edges incident to removed nodes. -/
def retain_nodes (g : OpGraph V) (keep : Nat → Bool) : OpGraph V :=
  { g with
      nodes := g.nodes.filter (fun p => keep p.1),
      edges := g.edges.filter (fun p => keep p.2.src && keep p.2.dst) }

/-- Well-formedness of the embedded stable graph: ids below the fresh-id
counters, no duplicate ids, and edge endpoints present. -/
def Wf (g : OpGraph V) : Prop :=
  (∀ p ∈ g.nodes, p.1 < g.next_node_id) ∧
  (∀ p ∈ g.edges, p.1 < g.next_edge_id) ∧
  (g.nodes.map Prod.fst).Nodup ∧
  (g.edges.map Prod.fst).Nodup ∧
  (∀ p ∈ g.edges, (g.node p.2.src).isSome ∧ (g.node p.2.dst).isSome)

instance (g : OpGraph V) : Decidable g.Wf := by
  unfold Wf
  infer_instance

/-- Modelled from the spec: OpGraph::new_node of the missing common module
(the older generation of the builder, src/src/builder.rs, retains its
body): add the node, then one edge per argument carrying arg index i and
the identity view of the argument's shape (spec section 3 invariant on
edge views).  Fails when an argument id is absent. -/
def new_node (co : CommonOps V) (g : OpGraph V) (colour : Nat) (shape : Shape)
    (op : Op) (args : List Nat) : Option (OpGraph V × Nat) :=
  let (g1, id) := g.add_node { colour, shape, op, cluster_id := none }
  let rec go (g : OpGraph V) : List (Nat × Nat) → Option (OpGraph V)
    | [] => some g
    | (i, a) :: rest => do
        let nd ← g.node a
        go (g.add_edge a id { arg := i, view := co.identity_view nd.shape }).1 rest
  (go g1 args.enum).map (fun g2 => (g2, id))

end OpGraph

/-- Builder-side record of the value/grad node pair minted for a
parameter (GraphInput in src/src/array.rs). -/
structure GraphInput where
  value_node_id : Nat
  grad_node_id : Option Nat
  deriving DecidableEq

/-- The builder scope state (ScopeState in src/src/array.rs): the op
graph, colour and rand counters, the parameter table, and the
parameter-to-node read/write tables. -/
structure ScopeState (V : Type) where
  ops : OpGraph V
  next_colour : Nat
  next_rand_uid : Nat
  parameters : List (Nat × Shape)
  inputs : List (Nat × GraphInput)
  outputs : List (Nat × Nat)
  deriving DecidableEq

/-- Array::accumulate (src/src/array.rs lines 617-650).  Asserts that the
destination is a Mov node of the source's shape; then either connects the
source directly (no incoming edge) or replaces the existing incoming edge
by a fresh Binary(Add) of the previous source and the new source; in both
cases the destination's single incoming edge carries the identity view.
Assertion failures and missing nodes yield none (panic). -/
def accumulate {V : Type} (co : CommonOps V) (s : ScopeState V)
    (self_id src_id : Nat) : Option (ScopeState V) := do
  let self_nd ← s.ops.node self_id
  let src_nd ← s.ops.node src_id
  guard (self_nd.op = Op.Unary UnaryOp.Mov)
  guard (self_nd.shape = src_nd.shape)
  let (g1, sid) ←
    match s.ops.edges_in self_id with
    | [] => some (s.ops, src_id)
    | (prev_edge_id, e) :: _ =>
        (s.ops.remove_edge prev_edge_id).new_node co s.next_colour src_nd.shape
          (Op.Binary BinaryOp.Add) [e.src, src_id]
  let g2 := (g1.add_edge sid self_id
    { arg := 0, view := co.identity_view src_nd.shape }).1
  pure { s with ops := g2 }

/-- Scope::literal (src/src/array.rs lines 1274-1286), including the
Array::with_empty_grad step it performs: mints a Literal(F32) node of
shape [1] and a fresh empty Mov gradient sink of the same shape; returns
the value and grad node ids. -/
def Scope.literal {V : Type} (co : CommonOps V) (s : ScopeState V) (value : ℚ) :
    Option (ScopeState V × Nat × Nat) := do
  let (g1, vid) ← s.ops.new_node co s.next_colour [1] (Op.Literal (Lit.F32 value)) []
  let (g2, gid) ← g1.new_node co s.next_colour [1] (Op.Unary UnaryOp.Mov) []
  pure ({ s with ops := g2 }, vid, gid)

/-- Array::view (src/src/array.rs lines 106-122): mints a Mov node of the
view's output shape with no arguments (new_node with an empty argument
list is add_node), then adds the edge from self carrying the view. -/
def Array.view {V : Type} (co : CommonOps V) (s : ScopeState V) (self_id : Nat)
    (view : V) : ScopeState V × Nat :=
  let (g1, nid) := s.ops.add_node
    ⟨s.next_colour, co.output_shape view, Op.Unary UnaryOp.Mov, none⟩
  ({ s with ops := (g1.add_edge self_id nid ⟨0, view⟩).1 }, nid)

/-- Array::broadcast (src/src/array.rs lines 124-126): a view node
carrying View::broadcast(self.shape, dst). -/
def Array.broadcast {V : Type} (co : CommonOps V) (s : ScopeState V) (self_id : Nat)
    (dst : Shape) : Option (ScopeState V × Nat) := do
  let nd ← s.ops.node self_id
  pure (Array.view co s self_id (co.broadcast nd.shape dst))

/-- Array::set_loss_grad_root (src/src/array.rs lines 652-672): reads the
gradient shape, builds the literal 1/minibatch_size (minibatch size =
dim 0 of the gradient shape) broadcast to the gradient shape, asserts
that the sink is a Mov node with no incoming edge, and seeds it through
an identity-view edge.  Assertion failures yield none (panic). -/
def set_loss_grad_root {V : Type} (co : CommonOps V) (s : ScopeState V)
    (self_id : Nat) : Option (ScopeState V) := do
  let self_nd ← s.ops.node self_id
  let grad_shape := self_nd.shape
  let mini_batch_size ← grad_shape.head?
  let (s1, lit_vid, _lit_gid) ← Scope.literal co s (1 / (mini_batch_size : ℚ))
  let (s2, scale_id) ← Array.broadcast co s1 lit_vid grad_shape
  let nd2 ← s2.ops.node self_id
  guard (nd2.op = Op.Unary UnaryOp.Mov)
  guard ((s2.ops.edges_in self_id).length = 0)
  pure { s2 with ops :=
    (s2.ops.add_edge scale_id self_id ⟨0, co.identity_view grad_shape⟩).1 }

/-- DualArray::set_loss (src/src/array.rs lines 1123-1126): seeds the
dual's loss-grad node and returns the value node. -/
def DualArray.set_loss {V : Type} (co : CommonOps V) (s : ScopeState V)
    (value_id loss_grad_id : Nat) : Option (ScopeState V × Nat) := do
  let s' ← set_loss_grad_root co s loss_grad_id
  pure (s', value_id)

/-- Whether an op is an Output node (matches!(op, Op::Output { .. })). -/
def Op.is_output : Op → Bool
  | .Output _ => true
  | _ => false

/-- The edge relation of the op graph: there is an edge from a to b. -/
def OpGraph.edge_rel {V : Type} (g : OpGraph V) (a b : Nat) : Prop :=
  ∃ p ∈ g.edges, p.2.src = a ∧ p.2.dst = b

/-- The backward marking sweep of dead-code elimination
(src/src/graph.rs lines 180-186): walk the given node list (the
topological order reversed) and, for every already-live node, mark all of
its incoming neighbours live. -/
def dce_mark {V : Type} (g : OpGraph V) : List Nat → List Nat → List Nat
  | live, [] => live
  | live, n :: rest =>
      dce_mark g (if n ∈ live then live ++ g.in_neighbors n else live) rest

/-- Graph::eliminate_dead_code (src/src/graph.rs lines 173-188): seed the
live set with all Output nodes, propagate backwards along the reversed
topological order, then retain exactly the live nodes. -/
def eliminate_dead_code {V : Type} (g : OpGraph V) (ord : List Nat) : OpGraph V :=
  let init := (g.nodes.filter (fun p => p.2.op.is_output)).map Prod.fst
  let live := dce_mark g init ord.reverse
  g.retain_nodes (fun id => decide (id ∈ live))

/-- ord is a topological order of the graph: it lists every node id
exactly once and every edge goes forward in it (petgraph Topo output when
it covers the whole graph, as rebuild_ordering asserts). -/
def isTopoOrder {V : Type} (g : OpGraph V) (ord : List Nat) : Prop :=
  ord.Nodup ∧
  (∀ x ∈ ord, (g.node x).isSome) ∧
  (∀ q ∈ g.nodes, q.1 ∈ ord) ∧
  (∀ p ∈ g.edges, ord.indexOf p.2.src < ord.indexOf p.2.dst)

instance {V : Type} (g : OpGraph V) (ord : List Nat) : Decidable (isTopoOrder g ord) := by
  unfold isTopoOrder
  infer_instance

/-- x is an Output node or a transitive predecessor of one. -/
def reaches_output {V : Type} (g : OpGraph V) (x : Nat) : Prop :=
  ∃ o nd, Relation.ReflTransGen g.edge_rel x o ∧ g.node o = some nd ∧
    nd.op.is_output = true

/-- Replace the payload of an edge id in place, keeping its endpoints
(mutation of self.ops[in_edge_id].view in the source). -/
def OpGraph.upd_edge {V : Type} (g : OpGraph V) (eid : Nat) (f : OpEdge V → OpEdge V) :
    OpGraph V :=
  { g with edges := g.edges.map (fun p =>
      if p.1 == eid then (p.1, ⟨p.2.src, p.2.dst, f p.2.weight⟩) else p) }

/-- One iteration of Graph::eliminate_moves (src/src/graph.rs lines
279-330) at a node.  Non-Mov nodes are skipped.  For a Mov node the
incoming-edge iterator's only() helper — modelled from the spec, missing
common module — yields the edge when there is exactly one, yields nothing
when there are none (the eprintln branch: the node is left alone), and is
fatal when there are several (spec section 7, invariant-violated).  With
exactly one incoming edge the edge's view is composed with the
try_from_reshape match if any; then, when every outgoing edge's target is
not an Output and can absorb the view (can_view_through under the
source's reshapeability), the outgoing edges are rewired from the source
through the composed view and the Mov node is removed, else the node is
kept with the updated view.  The per-rewire assert in_edge.arg == 0 is
the guard.  none is panic. -/
def eliminate_moves_step {V : Type} (co : CommonOps V) (g : OpGraph V) (n : Nat) :
    Option (OpGraph V) := do
  let nd ← g.node n
  if nd.op = Op.Unary UnaryOp.Mov then
    match g.edges_in n with
    | [] => some g
    | [(in_edge_id, e)] => do
        let view1 := match co.try_from_reshape (co.output_shape e.weight.view) nd.shape with
          | some view_match => co.through e.weight.view view_match false
          | none => e.weight.view
        let g1 := g.upd_edge in_edge_id (fun w => { w with view := view1 })
        let src_nd ← g1.node e.src
        let can_resh := co.can_reshape src_nd.op
        let can_elim ← (g1.edges_out n).allM (fun q => do
          let dnd ← g1.node q.2.dst
          pure ((dnd.op.output_parameter_id).isNone &&
            co.can_view_through view1 q.2.weight.view can_resh))
        if can_elim then do
          guard ((g1.edges_out n).length = 0 ∨ e.weight.arg = 0)
          let g2 := (g1.edges_out n).foldl (fun h q =>
            (h.add_edge e.src q.2.dst
              ⟨q.2.weight.arg, co.through view1 q.2.weight.view can_resh⟩).1) g1
          some (g2.remove_node n)
        else
          some g1
    | _ :: _ :: _ => none
  else
    some g

/-- Graph::eliminate_moves (src/src/graph.rs lines 278-331): the step at
every node of the (stale) topological order in turn; a panic anywhere
aborts the pass. -/
def eliminate_moves {V : Type} (co : CommonOps V) (g : OpGraph V) (ord : List Nat) :
    Option (OpGraph V) :=
  ord.foldlM (eliminate_moves_step co) g

/-- Every edge of the graph goes forward with respect to ord (the part of
the topological-order invariant that optimizer steps preserve even after
node removals). -/
def EdgesForward {V : Type} (g : OpGraph V) (ord : List Nat) : Prop :=
  ∀ p ∈ g.edges, ord.indexOf p.2.src < ord.indexOf p.2.dst

/-- Scope::input (src/src/array.rs lines 1336-1361): look the parameter
up in the builder's parameter-to-node table; on a miss mint an Input node
and a fresh Mov gradient sink and record them.  checked_id's parameter
membership check is the parameters-table lookup. -/
def Scope.input {V : Type} (co : CommonOps V) (s : ScopeState V)
    (parameter_id : Nat) : Option (ScopeState V × GraphInput) := do
  let shape ← alist_get s.parameters parameter_id
  match alist_get s.inputs parameter_id with
  | some gi => pure (s, gi)
  | none => do
      let (g1, vid) ← s.ops.new_node co s.next_colour shape (Op.Input parameter_id) []
      let (g2, gid) ← g1.new_node co s.next_colour shape (Op.Unary UnaryOp.Mov) []
      let gi : GraphInput := ⟨vid, some gid⟩
      pure ({ s with
                ops := g2
                inputs := alist_insert s.inputs parameter_id gi }, gi)

/-- Scope::parameter (src/src/array.rs lines 1363-1370): a dual array
from the parameter's value node and grad sink (unwrap panics when the
grad slot was cleared by a write). -/
def Scope.parameter {V : Type} (co : CommonOps V) (s : ScopeState V)
    (parameter_id : Nat) : Option (ScopeState V × Nat × Nat) := do
  let (s', gi) ← Scope.input co s parameter_id
  let gid ← gi.grad_node_id
  pure (s', gi.value_node_id, gid)

/-- Scope::parameter_value (src/src/array.rs lines 1372-1378). -/
def Scope.parameter_value {V : Type} (co : CommonOps V) (s : ScopeState V)
    (parameter_id : Nat) : Option (ScopeState V × Nat) := do
  let (s', gi) ← Scope.input co s parameter_id
  pure (s', gi.value_node_id)

/-- Scope::write_parameter_value (src/src/array.rs lines 1380-1409):
assert the declared parameter shape, emit an Output node fed by rhs,
replace (and remove) any previous Output node for the parameter, and
point the read table at rhs so later reads see the newest value. -/
def Scope.write_parameter_value {V : Type} (co : CommonOps V) (s : ScopeState V)
    (parameter_id rhs_id : Nat) : Option (ScopeState V) := do
  let pshape ← alist_get s.parameters parameter_id
  let rhs_nd ← s.ops.node rhs_id
  guard (pshape = rhs_nd.shape)
  let (g1, out_id) ← s.ops.new_node co s.next_colour rhs_nd.shape
    (Op.Output parameter_id) [rhs_id]
  let g2 := match alist_get s.outputs parameter_id with
    | some old_id => g1.remove_node old_id
    | none => g1
  pure { s with
          ops := g2
          outputs := alist_insert s.outputs parameter_id out_id
          inputs := alist_insert s.inputs parameter_id ⟨rhs_id, none⟩ }

/-- Scope::update_parameter_value (src/src/array.rs lines 1411-1419):
read the parameter, apply the client closure, write the result back and
return it. -/
def Scope.update_parameter_value {V : Type} (co : CommonOps V) (s : ScopeState V)
    (parameter_id : Nat)
    (f : ScopeState V → Nat → Option (ScopeState V × Nat)) :
    Option (ScopeState V × Nat) := do
  let (s1, a) ← Scope.parameter_value co s parameter_id
  let (s2, r) ← f s1 a
  let s3 ← Scope.write_parameter_value co s2 parameter_id r
  pure (s3, r)

/-- A small concrete builder state used to witness the accumulate
theorems: node 0 is an Input, node 1 an empty Mov gradient sink, both of
shape [2]. -/
def exG1 : OpGraph Shape :=
  { nodes := [(0, ⟨0, [2], Op.Input 0, none⟩), (1, ⟨0, [2], Op.Unary UnaryOp.Mov, none⟩)],
    edges := [], next_node_id := 2, next_edge_id := 0 }

/-- Concrete scope state wrapping exG1. -/
def exS1 : ScopeState Shape :=
  { ops := exG1, next_colour := 0, next_rand_uid := 0, parameters := [],
    inputs := [], outputs := [] }

/-- Concrete graph to witness dead-code elimination: Input 0 → Neg 1 →
Output 2, plus a dead Literal node 3. -/
def exG2 : OpGraph Shape :=
  { nodes := [(0, ⟨0, [2], Op.Input 0, none⟩),
              (1, ⟨0, [2], Op.Unary UnaryOp.Neg, none⟩),
              (2, ⟨0, [2], Op.Output 0, none⟩),
              (3, ⟨0, [1], Op.Literal (Lit.F32 1), none⟩)],
    edges := [(0, ⟨0, 1, ⟨0, [2]⟩⟩), (1, ⟨1, 2, ⟨0, [2]⟩⟩)],
    next_node_id := 4, next_edge_id := 2 }

/-- A topological order of exG2. -/
def exOrd2 : List Nat := [0, 1, 3, 2]

/-- Concrete graph to witness move elimination: Input 0 → Mov 1 → Neg 2. -/
def exG3 : OpGraph Shape :=
  { nodes := [(0, ⟨0, [2], Op.Input 0, none⟩),
              (1, ⟨0, [2], Op.Unary UnaryOp.Mov, none⟩),
              (2, ⟨0, [2], Op.Unary UnaryOp.Neg, none⟩)],
    edges := [(0, ⟨0, 1, ⟨0, [2]⟩⟩), (1, ⟨1, 2, ⟨0, [2]⟩⟩)],
    next_node_id := 3, next_edge_id := 2 }

/-- Concrete graph with an invariant violation: the Mov node 2 has two
incoming edges (from Inputs 0 and 1), used to witness that move
elimination aborts. -/
def exG4 : OpGraph Shape :=
  { nodes := [(0, ⟨0, [1], Op.Input 0, none⟩),
              (1, ⟨0, [1], Op.Input 1, none⟩),
              (2, ⟨0, [1], Op.Unary UnaryOp.Mov, none⟩)],
    edges := [(0, ⟨0, 2, ⟨0, [1]⟩⟩), (1, ⟨1, 2, ⟨1, [1]⟩⟩)],
    next_node_id := 3, next_edge_id := 2 }

/-- Concrete scope state with a declared parameter 0 of shape [2], used
to witness the parameter-write theorem. -/
def exS2 : ScopeState Shape :=
  { ops := exG1, next_colour := 0, next_rand_uid := 0, parameters := [(0, [2])],
    inputs := [], outputs := [] }

/-- Modelled from the spec: the widest op arity — CompareAndSelect takes
four arguments (spec section 3) — so the argument-slot arrays of the
missing common module hold MAX_OP_ARGS = 4 slots. -/
def MAX_OP_ARGS : Nat := 4

/-- get_arg_edge_ids (src/src/graph.rs lines 19-29): collect the incoming
edge ids of a node into argument slots and return them in argument order
up to the maximum used slot.  none is panic: an argument index out of
bounds, two incoming edges sharing a slot (the assert), or a gap below
the maximum used slot (the unwrap). -/
def get_arg_edge_ids {V : Type} (g : OpGraph V) (n : Nat) : Option (List Nat) := do
  let st ← (g.edges_in n).foldlM (fun (st : List (Nat × Nat) × Nat) p =>
      if p.2.weight.arg < MAX_OP_ARGS then
        if (alist_get st.1 p.2.weight.arg).isNone then
          some (alist_insert st.1 p.2.weight.arg p.1, max st.2 (p.2.weight.arg + 1))
        else
          none
      else
        none)
    ([], 0)
  (List.range st.2).mapM (fun a => alist_get st.1 a)

/-- The skip literal of Graph::simplify_arithmetic (src/src/graph.rs lines
246-252): the identity literal of the four simplifiable binary ops. -/
def skip_lit : Op → Option Lit
  | Op.Binary BinaryOp.Mul => some (Lit.F32 1)
  | Op.Binary BinaryOp.Add => some (Lit.F32 0)
  | Op.Binary BinaryOp.UMul => some (Lit.U32 1)
  | Op.Binary BinaryOp.UAdd => some (Lit.U32 0)
  | _ => none

/-- The find in Graph::simplify_arithmetic (src/src/graph.rs lines
255-258): the first argument edge whose source node is the given literal.
none is panic (edge or endpoint lookup failing), some none is not found. -/
def find_skip_edge {V : Type} (g : OpGraph V) (lit : Lit) :
    List Nat → Option (Option Nat)
  | [] => some none
  | eid :: rest => do
      let er ← alist_get g.edges eid
      let src_nd ← g.node er.src
      if src_nd.op = Op.Literal lit then
        pure (some eid)
      else
        find_skip_edge g lit rest

/-- One iteration of Graph::simplify_arithmetic (src/src/graph.rs lines
245-271) at a node: when the node is a Mul/Add/UMul/UAdd and one of its
argument edges comes from the matching identity literal, that edge is
removed and the node is converted to Unary(Mov) with every remaining
argument edge reassigned to argument 0.  Returns the graph and whether a
Mov was introduced; none is panic. -/
def simplify_arithmetic_step {V : Type} (g : OpGraph V) (n : Nat) :
    Option (OpGraph V × Bool) := do
  let nd ← g.node n
  match skip_lit nd.op with
  | none => some (g, false)
  | some lit => do
      let arg_edge_ids ← get_arg_edge_ids g n
      let skip_edge ← find_skip_edge g lit arg_edge_ids
      match skip_edge with
      | none => some (g, false)
      | some skip_id =>
          some (arg_edge_ids.foldl (fun h eid =>
            if eid = skip_id then
              h.remove_edge eid
            else
              (h.upd_node n (fun x => { x with op := Op.Unary UnaryOp.Mov })).upd_edge
                eid (fun w => { w with arg := 0 })) g, true)

/-- The node loop of Graph::simplify_arithmetic: thread the graph and the
mov_added flag through the (stale) topological order. -/
def simplify_arithmetic_fold {V : Type} (g : OpGraph V) (ord : List Nat) :
    Option (OpGraph V × Bool) :=
  ord.foldlM (fun st nid => do
      let r ← simplify_arithmetic_step st.1 nid
      pure (r.1, st.2 || r.2)) (g, false)

/-- Graph::simplify_arithmetic (src/src/graph.rs lines 244-276): the node
loop followed by a re-run of move elimination when any Mov was added. -/
def simplify_arithmetic {V : Type} (co : CommonOps V) (g : OpGraph V)
    (ord : List Nat) : Option (OpGraph V) := do
  let st ← simplify_arithmetic_fold g ord
  if st.2 then eliminate_moves co st.1 ord else pure st.1

/-- Concrete graph computing Neg(x * 1.0): Input 0, Literal 1.0, Mul, Neg. -/
def exG5 : OpGraph Shape :=
  { nodes := [(0, ⟨0, [2], Op.Input 0, none⟩),
              (1, ⟨0, [1], Op.Literal (Lit.F32 1), none⟩),
              (2, ⟨0, [2], Op.Binary BinaryOp.Mul, none⟩),
              (3, ⟨0, [2], Op.Unary UnaryOp.Neg, none⟩)],
    edges := [(0, ⟨0, 2, ⟨0, [2]⟩⟩), (1, ⟨1, 2, ⟨1, [2]⟩⟩), (2, ⟨2, 3, ⟨0, [2]⟩⟩)],
    next_node_id := 4, next_edge_id := 3 }

/-- The arithmetic simplification of exG5: the Mul has collapsed and the
Neg consumer reads the Input directly (x * 1.0 == x); the dangling
literal awaits dead-code elimination. -/
def exG5opt : OpGraph Shape :=
  { nodes := [(0, ⟨0, [2], Op.Input 0, none⟩),
              (1, ⟨0, [1], Op.Literal (Lit.F32 1), none⟩),
              (3, ⟨0, [2], Op.Unary UnaryOp.Neg, none⟩)],
    edges := [(3, ⟨0, 3, ⟨0, [2]⟩⟩)],
    next_node_id := 4, next_edge_id := 4 }

/-- Concrete graph computing Neg(x + 0.0): Input 0, Literal 0.0, Add, Neg. -/
def exG6 : OpGraph Shape :=
  { nodes := [(0, ⟨0, [2], Op.Input 0, none⟩),
              (1, ⟨0, [1], Op.Literal (Lit.F32 0), none⟩),
              (2, ⟨0, [2], Op.Binary BinaryOp.Add, none⟩),
              (3, ⟨0, [2], Op.Unary UnaryOp.Neg, none⟩)],
    edges := [(0, ⟨0, 2, ⟨0, [2]⟩⟩), (1, ⟨1, 2, ⟨1, [2]⟩⟩), (2, ⟨2, 3, ⟨0, [2]⟩⟩)],
    next_node_id := 4, next_edge_id := 3 }

/-- The arithmetic simplification of exG6: the Add has collapsed and the
Neg consumer reads the Input directly (x + 0.0 == x). -/
def exG6opt : OpGraph Shape :=
  { nodes := [(0, ⟨0, [2], Op.Input 0, none⟩),
              (1, ⟨0, [1], Op.Literal (Lit.F32 0), none⟩),
              (3, ⟨0, [2], Op.Unary UnaryOp.Neg, none⟩)],
    edges := [(3, ⟨0, 3, ⟨0, [2]⟩⟩)],
    next_node_id := 4, next_edge_id := 4 }

/-- neighbors_directed(id, Outgoing), as the list of edge targets. -/
def OpGraph.out_neighbors {V : Type} (g : OpGraph V) (id : Nat) : List Nat :=
  (g.edges_out id).map (fun p => p.2.dst)

/-- ArgSource (src/src/graph.rs lines 31-36) without the Hash incidentals:
the source node, whether the destination treats the argument as a gather
argument, and the edge view. -/
structure ArgSource (V : Type) where
  node_id : Nat
  is_gather : Bool
  view : V
  deriving DecidableEq

/-- get_arg_sources (src/src/graph.rs lines 38-54). none is panic (from
get_arg_edge_ids or an endpoint lookup). -/
def get_arg_sources {V : Type} (g : OpGraph V) (n : Nat) :
    Option (List (ArgSource V)) := do
  let ids ← get_arg_edge_ids g n
  ids.mapM (fun eid => do
    let er ← alist_get g.edges eid
    let dnd ← g.node er.dst
    pure ⟨er.src, dnd.op.is_gather_arg er.weight.arg, er.weight.view⟩)

/-- The ops the cluster builder leaves unassigned (spec section 4.4):
Input, Output, Literal and BuiltIn remain unclustered. -/
def Op.unclustered : Op → Bool
  | .Input _ => true
  | .Output _ => true
  | .Literal _ => true
  | .BuiltIn _ => true
  | _ => false

/-- Any of the given nodes currently carries the given cluster id
(neighbors_directed(..).any of Graph::build_clusters); lookups are
panics when the node is gone. -/
def neighbors_cluster_any {V : Type} (g : OpGraph V) (cid : Nat) :
    List Nat → Option Bool
  | [] => some false
  | x :: rest => do
      let nd ← g.node x
      if nd.cluster_id = some cid then pure true else neighbors_cluster_any g cid rest

/-- The marker sweep shared by Graph::any_successor and
Graph::any_predecessor (src/src/graph.rs lines 333-371): walk the order,
mark every node with a marked neighbour on the chosen side, and test the
predicate on each newly marked node, stopping at the first hit. -/
def visit_scan {V : Type} (g : OpGraph V) (dir_in : Bool) (f : Nat → Option Bool) :
    List Nat → List Nat → Option Bool
  | _, [] => some false
  | markers, nid :: rest =>
      if (if dir_in then g.in_neighbors nid else g.out_neighbors nid).any
          (fun x => markers.contains x) then do
        let b ← f nid
        if b then pure true else visit_scan g dir_in f (nid :: markers) rest
      else
        visit_scan g dir_in f markers rest

/-- Graph::any_successor (src/src/graph.rs lines 353-371): the order is
walked forwards, marks flow through incoming neighbours. -/
def any_successor {V : Type} (g : OpGraph V) (ord : List Nat) (roots : List Nat)
    (f : Nat → Option Bool) : Option Bool :=
  visit_scan g true f roots ord

/-- Graph::any_predecessor (src/src/graph.rs lines 333-351): the order is
walked backwards, marks flow through outgoing neighbours. -/
def any_predecessor {V : Type} (g : OpGraph V) (ord : List Nat) (roots : List Nat)
    (f : Nat → Option Bool) : Option Bool :=
  visit_scan g false f roots ord.reverse

/-- The any_successor predicate of the fusion check: an unclustered node
one of whose outgoing neighbours is in the cluster (re-entry from below). -/
def cluster_reenter_succ {V : Type} (g : OpGraph V) (cid : Nat) (nid : Nat) :
    Option Bool := do
  let nd ← g.node nid
  if nd.cluster_id = none then
    neighbors_cluster_any g cid (g.out_neighbors nid)
  else
    pure false

/-- The any_predecessor predicate of the fusion check: an unclustered node
one of whose incoming neighbours is in the cluster (re-entry from above). -/
def cluster_reenter_pred {V : Type} (g : OpGraph V) (cid : Nat) (nid : Nat) :
    Option Bool := do
  let nd ← g.node nid
  if nd.cluster_id = none then
    neighbors_cluster_any g cid (g.in_neighbors nid)
  else
    pure false

/-- The incoming half of the kernel-neighbour scan of Graph::build_clusters
(src/src/graph.rs lines 408-431): walk the candidate's incoming edges;
edges from cluster members must have a per-element view for the
candidate's op; returns (has kernel neighbour, all such edges per-element)
and stops at the first failing edge. -/
def scan_edges_in {V : Type} (co : CommonOps V) (g : OpGraph V) (cid : Nat)
    (ond : OpNode) : List (Nat × EdgeRec V) → Option (Bool × Bool)
  | [] => some (false, true)
  | p :: rest => do
      let srcnd ← g.node p.2.src
      if srcnd.cluster_id = some cid then
        if co.edge_is_per_element p.2.weight.arg p.2.weight.view ond.op then do
          let r ← scan_edges_in co g cid ond rest
          pure (true, r.2)
        else
          pure (true, false)
      else
        scan_edges_in co g cid ond rest

/-- The outgoing half of the kernel-neighbour scan: edges to cluster
members, per-element for the target's op. -/
def scan_edges_out {V : Type} (co : CommonOps V) (g : OpGraph V) (cid : Nat) :
    List (Nat × EdgeRec V) → Option (Bool × Bool)
  | [] => some (false, true)
  | p :: rest => do
      let dstnd ← g.node p.2.dst
      if dstnd.cluster_id = some cid then
        if co.edge_is_per_element p.2.weight.arg p.2.weight.view dstnd.op then do
          let r ← scan_edges_out co g cid rest
          pure (true, r.2)
        else
          pure (true, false)
      else
        scan_edges_out co g cid rest

/-- The full fusion admission test of Graph::build_clusters (src/src/graph.rs
lines 398-459) for one candidate node: unclustered, per-element, matching
element count, at least one per-element kernel neighbour, and neither the
successor nor the predecessor sweep re-enters the cluster. -/
def try_include {V : Type} (co : CommonOps V) (g : OpGraph V) (ord : List Nat)
    (cid ec other : Nat) : Option Bool := do
  let ond ← g.node other
  if ond.cluster_id = none ∧ co.is_per_element ond.op = true ∧
      ond.shape.element_count = ec then do
    let rin ← scan_edges_in co g cid ond (g.edges_in other)
    if rin.2 then do
      let rout ← scan_edges_out co g cid (g.edges_out other)
      if rout.2 then
        if rin.1 || rout.1 then do
          let s ← any_successor g ord [other] (cluster_reenter_succ g cid)
          if s then pure false
          else do
            let p ← any_predecessor g ord [other] (cluster_reenter_pred g cid)
            if p then pure false else pure true
        else
          pure false
      else
        pure false
    else
      pure false
  else
    pure false

/-- The 'inner loop of Graph::build_clusters: the first node of the order
passing the admission test, if any. -/
def find_candidate {V : Type} (co : CommonOps V) (g : OpGraph V) (ord : List Nat)
    (cid ec : Nat) : List Nat → Option (Option Nat)
  | [] => some none
  | other :: rest => do
      let b ← try_include co g ord cid ec other
      if b then pure (some other) else find_candidate co g ord cid ec rest

/-- The 'outer loop of Graph::build_clusters: absorb admitted nodes one at
a time, restarting the search after each admission.  The fuel only bounds
the number of restarts (each admission clusters one more node, so the
source loop terminates; callers pass one more than the node count, and
running out is modelled as failure). -/
def gather_loop {V : Type} (co : CommonOps V) (ord : List Nat) (cid ec : Nat) :
    Nat → OpGraph V → Option (OpGraph V)
  | 0, _ => none
  | fuel + 1, g => do
      let c ← find_candidate co g ord cid ec ord
      match c with
      | none => some g
      | some other =>
          gather_loop co ord cid ec fuel
            (g.upd_node other (fun nd => { nd with cluster_id := some cid }))

/-- The cluster-builder state: the op graph plus the cluster arena
(insertion-ordered keys and the next fresh key; the kernel payloads are
not modelled — the claim under verification does not mention them). -/
structure ClusterState (V : Type) where
  g : OpGraph V
  clusters : List Nat
  next_cluster : Nat
  deriving DecidableEq

/-- Phase 1 of Graph::build_clusters (src/src/graph.rs lines 376-467):
every unclustered per-element node seeds a fresh cluster and greedily
absorbs admissible nodes. -/
def build_clusters_phase1 {V : Type} (co : CommonOps V) (ord : List Nat) :
    List Nat → ClusterState V → Option (ClusterState V)
  | [], st => some st
  | first :: rest, st => do
      let nd ← st.g.node first
      if nd.cluster_id.isSome then
        build_clusters_phase1 co ord rest st
      else
        if co.is_per_element nd.op then do
          let cid := st.next_cluster
          let g1 := st.g.upd_node first (fun x => { x with cluster_id := some cid })
          let g2 ← gather_loop co ord cid nd.shape.element_count (g1.nodes.length + 1) g1
          build_clusters_phase1 co ord rest ⟨g2, st.clusters ++ [cid], cid + 1⟩
        else
          build_clusters_phase1 co ord rest st

/-- Assign the next fresh cluster id to a node and record it in the
cluster arena (self.clusters.insert + cluster_id write of phase 3). -/
def ClusterState.assign {V : Type} (st : ClusterState V) (nid : Nat) : ClusterState V :=
  ⟨st.g.upd_node nid (fun x => { x with cluster_id := some st.next_cluster }),
   st.clusters ++ [st.next_cluster], st.next_cluster + 1⟩

/-- Phase 3 of Graph::build_clusters (src/src/graph.rs lines 571-663):
every remaining unclustered Reduce, MatMul, Unpad, WindowsToImage or
ScatterAdd becomes its own single-node cluster (with argument-arity
asserts, and the contiguous-or-literal assert on ScatterAdd's
accumulator); Input, Output, Literal and BuiltIn stay unclustered; any
other unclustered op is unreachable!() — none is panic.  The kernel
payloads (phase 2, lines 469-569) mutate no cluster assignment and are
not modelled. -/
def build_clusters_phase3 {V : Type} (co : CommonOps V) :
    List Nat → ClusterState V → Option (ClusterState V)
  | [], st => some st
  | nid :: rest, st => do
      let nd ← st.g.node nid
      if nd.cluster_id.isSome then
        build_clusters_phase3 co rest st
      else
        match nd.op with
        | Op.Reduce _ _ => do
            let srcs ← get_arg_sources st.g nid
            match srcs with
            | [_] => build_clusters_phase3 co rest (st.assign nid)
            | _ => none
        | Op.MatMul _ => do
            let srcs ← get_arg_sources st.g nid
            match srcs with
            | [_, _] => build_clusters_phase3 co rest (st.assign nid)
            | _ => none
        | Op.Unpad _ _ => do
            let srcs ← get_arg_sources st.g nid
            match srcs with
            | [_] => build_clusters_phase3 co rest (st.assign nid)
            | _ => none
        | Op.WindowsToImage _ => do
            let srcs ← get_arg_sources st.g nid
            match srcs with
            | [_] => build_clusters_phase3 co rest (st.assign nid)
            | _ => none
        | Op.ScatterAdd _ => do
            let srcs ← get_arg_sources st.g nid
            match srcs with
            | [acc, _, _] => do
                let ok ← if co.is_contiguous acc.view then pure true
                  else do
                    let accnd ← st.g.node acc.node_id
                    pure (match accnd.op with
                      | Op.Literal _ => true
                      | _ => false)
                if ok then build_clusters_phase3 co rest (st.assign nid)
                else none
            | _ => none
        | Op.Input _ => build_clusters_phase3 co rest st
        | Op.Output _ => build_clusters_phase3 co rest st
        | Op.Literal _ => build_clusters_phase3 co rest st
        | Op.BuiltIn _ => build_clusters_phase3 co rest st
        | _ => none

/-- The cross-cluster edge list of Graph::build_clusters (src/src/graph.rs
lines 672-686): one entry per op edge whose endpoints lie in two
different clusters, in edge order.  none is panic (endpoint lookup). -/
def cluster_edges {V : Type} (g : OpGraph V) : Option (List (Nat × Nat)) :=
  g.edges.foldlM (fun acc p => do
    let snd ← g.node p.2.src
    let dnd ← g.node p.2.dst
    pure (match snd.cluster_id, dnd.cluster_id with
      | some a, some b => if a ≠ b then acc ++ [(a, b)] else acc
      | _, _ => acc)) []

/-- Modelled from the spec: petgraph's Topo visitor over the cluster graph
(spec section 4.4, cluster ordering) — repeatedly emit a node all of whose
unemitted predecessors are gone; nodes on cycles are never emitted, which
the caller's length assert turns into a panic. -/
def toposort_fuel : Nat → List Nat → List (Nat × Nat) → List Nat
  | 0, _, _ => []
  | fuel + 1, remaining, edges =>
      match remaining.find? (fun n =>
          !(edges.any (fun e => e.2 == n && decide (e.1 ∈ remaining)))) with
      | none => []
      | some n => n :: toposort_fuel fuel (remaining.erase n) edges

/-- Modelled from the spec: the full topological emission (fuel one per
node suffices since every emission removes a node). -/
def toposort (nodes : List Nat) (edges : List (Nat × Nat)) : List Nat :=
  toposort_fuel nodes.length nodes edges

/-- Graph::build_clusters (src/src/graph.rs lines 374-688): per-element
fusion, single-node kernels, then the cluster ordering with its
completeness assert.  Returns the clustered graph, the cluster arena keys
and clusters_sorted. -/
def build_clusters {V : Type} (co : CommonOps V) (g : OpGraph V) (ord : List Nat) :
    Option (OpGraph V × List Nat × List Nat) := do
  let st1 ← build_clusters_phase1 co ord ord ⟨g, [], 0⟩
  let st3 ← build_clusters_phase3 co ord st1
  let ce ← cluster_edges st3.g
  let sorted := toposort st3.clusters ce
  guard (sorted.length = st3.clusters.length)
  pure (st3.g, st3.clusters, sorted)

/-- The cluster-graph edge relation of the claim: clusters a and b are
connected when some op edge joins a node of cluster a to a node of the
different cluster b. -/
def clusterRel {V : Type} (g : OpGraph V) (a b : Nat) : Prop :=
  ∃ p ∈ g.edges, ∃ snd dnd, g.node p.2.src = some snd ∧ g.node p.2.dst = some dnd ∧
    snd.cluster_id = some a ∧ dnd.cluster_id = some b ∧ a ≠ b

/-- A node payload with the cluster assignment erased (for stating that
the cluster builder touches nothing else). -/
def OpNode.strip (nd : OpNode) : OpNode := { nd with cluster_id := none }

/-- Two graphs have the same nodes up to cluster assignments. -/
def StripSame {V : Type} (h g : OpGraph V) : Prop :=
  ∀ x, (h.node x).map OpNode.strip = (g.node x).map OpNode.strip

/-- Cluster assignments only grow from g to h. -/
def ClusterMono {V : Type} (g h : OpGraph V) : Prop :=
  ∀ x nd c, g.node x = some nd → nd.cluster_id = some c →
    ∃ nd2, h.node x = some nd2 ∧ nd2.cluster_id = some c

/-- The cluster arena only grows, with fresh keys below the new counter. -/
def ArenaExtends {V : Type} (st st2 : ClusterState V) : Prop :=
  st.next_cluster ≤ st2.next_cluster ∧
  ∃ ext, st2.clusters = st.clusters ++ ext ∧ ext.Nodup ∧
    ∀ c ∈ ext, st.next_cluster ≤ c ∧ c < st2.next_cluster

/-- Arena well-formedness: distinct keys, all below the counter. -/
def ClusterArenaWf {V : Type} (st : ClusterState V) : Prop :=
  st.clusters.Nodup ∧ ∀ c ∈ st.clusters, c < st.next_cluster

/-- Every cluster assignment in the graph names a key of the arena. -/
def ClustersTrack {V : Type} (st : ClusterState V) : Prop :=
  ∀ x nd c, st.g.node x = some nd → nd.cluster_id = some c → c ∈ st.clusters

/-- Concrete graph to witness the cluster builder: Input 0 → Neg 1 →
Reduce 2 → Output 3. -/
def exG7 : OpGraph Shape :=
  { nodes := [(0, ⟨0, [2], Op.Input 0, none⟩),
              (1, ⟨0, [2], Op.Unary UnaryOp.Neg, none⟩),
              (2, ⟨0, [1], Op.Reduce ReduceOp.Sum 0, none⟩),
              (3, ⟨0, [1], Op.Output 0, none⟩)],
    edges := [(0, ⟨0, 1, ⟨0, [2]⟩⟩), (1, ⟨1, 2, ⟨0, [2]⟩⟩), (2, ⟨2, 3, ⟨0, [1]⟩⟩)],
    next_node_id := 4, next_edge_id := 3 }

/-- The cluster assignment the builder computes on exG7: the Neg joins the
per-element cluster 0, the Reduce becomes the single-node cluster 1. -/
def exG7c : OpGraph Shape :=
  { nodes := [(0, ⟨0, [2], Op.Input 0, none⟩),
              (1, ⟨0, [2], Op.Unary UnaryOp.Neg, some 0⟩),
              (2, ⟨0, [1], Op.Reduce ReduceOp.Sum 0, some 1⟩),
              (3, ⟨0, [1], Op.Output 0, none⟩)],
    edges := [(0, ⟨0, 1, ⟨0, [2]⟩⟩), (1, ⟨1, 2, ⟨0, [2]⟩⟩), (2, ⟨2, 3, ⟨0, [1]⟩⟩)],
    next_node_id := 4, next_edge_id := 3 }

/-- A byte range of the backend heap (src/src/heap.rs lines 29-32); the
source's begin/end fields are named lo/hi because end is reserved. -/
structure Range where
  lo : Nat
  hi : Nat
  deriving DecidableEq

/-- Range::size (src/src/heap.rs lines 35-37). -/
def Range.size (r : Range) : Nat := r.hi - r.lo

/-- Range::append (src/src/heap.rs lines 48-51): the assert_eq is the
contiguity check; none is panic. -/
def Range.append (r other : Range) : Option Range :=
  if r.hi = other.lo then some { r with hi := other.hi } else none

/-- A doubly-linked-ring node (src/src/heap.rs lines 9-12). -/
structure BlockListNode where
  prev_id : Nat
  next_id : Nat
  deriving DecidableEq

/-- A heap block (src/src/heap.rs lines 57-62): its arena, its range, its
node in the per-arena address-ordered ring, and its node in the size-class
free ring when free. -/
structure Block (A : Type) where
  arena : A
  range : Range
  arena_node : BlockListNode
  free_node : Option BlockListNode
  deriving DecidableEq

/-- Block::can_append (src/src/heap.rs lines 75-78): same arena and
contiguous ranges. -/
def Block.can_append {A : Type} [DecidableEq A] (b other : Block A) : Bool :=
  decide (b.arena = other.arena) && decide (b.range.hi = other.range.lo)

/-- The backend buffer heap (src/src/heap.rs lines 82-86): slotmap of
blocks (keys modelled as counter-minted naturals) and one optional ring
head per size class. -/
structure Heap (A : Type) where
  blocks : List (Nat × Block A)
  next_block_id : Nat
  free_lists : List (Option Nat)
  deriving DecidableEq

/-- Slotmap lookup. -/
def Heap.getBlock {A : Type} (h : Heap A) (id : Nat) : Option (Block A) :=
  alist_get h.blocks id

/-- In-place block mutation. -/
def Heap.upd {A : Type} (h : Heap A) (id : Nat) (f : Block A → Block A) : Heap A :=
  { h with blocks := h.blocks.map (fun p => if p.1 == id then (p.1, f p.2) else p) }

/-- SlotMap::remove. -/
def Heap.removeBlock {A : Type} (h : Heap A) (id : Nat) : Heap A :=
  { h with blocks := h.blocks.filter (fun p => p.1 != id) }

/-- Write one free-list head. -/
def Heap.setFreeList {A : Type} (h : Heap A) (idx : Nat) (v : Option Nat) : Heap A :=
  { h with free_lists := h.free_lists.set idx v }

/-- The bit length of a natural number, by halving (fuel-structured so
that it computes by kernel reduction; the first argument only bounds the
recursion depth and any fuel of at least the bit length gives the same
value). -/
def bit_length_fuel : Nat → Nat → Nat
  | 0, _ => 0
  | fuel + 1, n => if n = 0 then 0 else bit_length_fuel fuel (n / 2) + 1

/-- Heap::free_list_index (src/src/heap.rs lines 88-90): the bit length of
the size (64 minus its leading zeros in the source). -/
def free_list_index (size : Nat) : Nat :=
  bit_length_fuel size size

/-- Heap::register_free_block (src/src/heap.rs lines 149-169): put a block
at the head of its size class, linking it before the old head.  The borrow
triple built by free_link (lines 110-147) is inlined at its two write
sites; in the three-distinct-node case free_link hands out the old head's
NEXT pointer as the link's next_prev_id (heap.rs line 141), and that write
target is preserved as-is.  none is panic (the free_node asserts, the
free-list indexing, and free_link's unwrap). -/
def register_free_block {A : Type} (h : Heap A) (alloc_id : Nat) : Option (Heap A) := do
  let blk ← h.getBlock alloc_id
  guard blk.free_node.isNone
  let idx := free_list_index blk.range.size
  let entry ← h.free_lists.get? idx
  match entry with
  | none =>
      some ((h.upd alloc_id (fun b =>
        { b with free_node := some ⟨alloc_id, alloc_id⟩ })).setFreeList idx (some alloc_id))
  | some next_id => do
      let nxt ← h.getBlock next_id
      let nxtnode ← nxt.free_node
      let prev_id := nxtnode.prev_id
      guard (prev_id ≠ alloc_id ∧ alloc_id ≠ next_id)
      if prev_id = next_id then do
        let prv ← h.getBlock prev_id
        guard prv.free_node.isSome
        let h1 := h.upd prev_id (fun b =>
          { b with free_node := b.free_node.map (fun _ => ⟨alloc_id, alloc_id⟩) })
        let h2 := h1.upd alloc_id (fun b =>
          { b with free_node := some ⟨prev_id, next_id⟩ })
        some (h2.setFreeList idx (some alloc_id))
      else do
        let prv ← h.getBlock prev_id
        guard prv.free_node.isSome
        guard nxt.free_node.isSome
        let h1 := h.upd prev_id (fun b =>
          { b with free_node := b.free_node.map (fun n => { n with next_id := alloc_id }) })
        let h2 := h1.upd alloc_id (fun b =>
          { b with free_node := some ⟨prev_id, next_id⟩ })
        let h3 := h2.upd next_id (fun b =>
          { b with free_node := b.free_node.map (fun n => { n with next_id := alloc_id }) })
        some (h3.setFreeList idx (some alloc_id))

/-- Heap::unregister_free_block (src/src/heap.rs lines 171-194): unlink a
block from its size class; the head becomes the old successor, or empty
when the block was alone (free_link returning no link, with its two
equality asserts).  The same free_link write targets as in registration
are preserved, including the next-pointer quirk of the three-distinct
case.  none is panic. -/
def unregister_free_block {A : Type} (h : Heap A) (free_id : Nat) : Option (Heap A) := do
  let blk ← h.getBlock free_id
  let node ← blk.free_node
  let idx := free_list_index blk.range.size
  guard (idx < h.free_lists.length)
  if node.prev_id = free_id ∨ free_id = node.next_id then do
    guard (free_id = node.prev_id ∧ free_id = node.next_id)
    some ((h.upd free_id (fun b => { b with free_node := none })).setFreeList idx none)
  else
    if node.prev_id = node.next_id then do
      let prv ← h.getBlock node.prev_id
      guard prv.free_node.isSome
      let h1 := h.upd node.prev_id (fun b =>
        { b with free_node := b.free_node.map (fun _ => ⟨node.prev_id, node.next_id⟩) })
      let h2 := h1.upd free_id (fun b => { b with free_node := none })
      some (h2.setFreeList idx (some node.next_id))
    else do
      let prv ← h.getBlock node.prev_id
      let nxt ← h.getBlock node.next_id
      guard prv.free_node.isSome
      guard nxt.free_node.isSome
      let h1 := h.upd node.prev_id (fun b =>
        { b with free_node := b.free_node.map (fun n => { n with next_id := node.next_id }) })
      let h2 := h1.upd node.next_id (fun b =>
        { b with free_node := b.free_node.map (fun n => { n with next_id := node.prev_id }) })
      let h3 := h2.upd free_id (fun b => { b with free_node := none })
      some (h3.setFreeList idx (some node.next_id))

/-- Heap::append_block (src/src/heap.rs lines 239-249): grow the first
block by the second's range (Range::append asserts contiguity), splice the
second out of the arena ring (arena_link, lines 195-219, inlined at its
write sites) and delete it.  none is panic. -/
def append_block {A : Type} (h : Heap A) (orig_id append_id : Nat) : Option (Heap A) := do
  guard (orig_id ≠ append_id)
  let ba ← h.getBlock orig_id
  let bc ← h.getBlock append_id
  let r ← ba.range.append bc.range
  let h1 := h.upd orig_id (fun b => { b with range := r })
  let next_id := bc.arena_node.next_id
  let h2 ← if orig_id = next_id then
      some (h1.upd orig_id (fun b =>
        { b with arena_node := ⟨orig_id, next_id⟩ }))
    else do
      let bnx ← h1.getBlock next_id
      guard (append_id ≠ next_id)
      let g1 := h1.upd orig_id (fun b =>
        { b with arena_node := { b.arena_node with next_id := next_id } })
      some (g1.upd next_id (fun b =>
        { b with arena_node := { b.arena_node with prev_id := orig_id } }))
  some (h2.removeBlock append_id)

/-- Heap::free (src/src/heap.rs lines 316-339): freeing an allocated block
coalesces it with the next arena block when that one is free and
contiguous, then with the previous arena block likewise, and registers the
resulting block on the free list of its final size.  none is panic. -/
def Heap.free {A : Type} [DecidableEq A] (h : Heap A) (block_id : Nat) :
    Option (Heap A) := do
  let blk ← h.getBlock block_id
  guard blk.free_node.isNone
  let next_id := blk.arena_node.next_id
  let nxt ← h.getBlock next_id
  let h1 ← if nxt.free_node.isSome && blk.can_append nxt then do
      let g1 ← unregister_free_block h next_id
      append_block g1 block_id next_id
    else
      some h
  let blk2 ← h1.getBlock block_id
  let prev_id := blk2.arena_node.prev_id
  let prv ← h1.getBlock prev_id
  if prv.free_node.isSome && prv.can_append blk2 then do
    let h2 ← unregister_free_block h1 prev_id
    let h3 ← append_block h2 prev_id block_id
    register_free_block h3 prev_id
  else
    register_free_block h1 block_id

/-- Block-literal helper for the heap witnesses: range, arena-ring node
and optional free-ring node, all in arena 0. -/
def mkBlock (r : Nat × Nat) (an : Nat × Nat) (fn : Option (Nat × Nat)) : Block Nat :=
  ⟨0, ⟨r.1, r.2⟩, ⟨an.1, an.2⟩, fn.map (fun p => ⟨p.1, p.2⟩)⟩

/-- Ten empty size classes (as left by extend_with on a 1000-byte arena). -/
def exFreeLists10 : List (Option Nat) :=
  [none, none, none, none, none, none, none, none, none, none]

/-- One arena [0,300) in three contiguous blocks 0,1,2; both neighbours of
the allocated middle block are free (each 100 bytes, sharing size class 7). -/
def exH_A : Heap Nat :=
  ⟨[(0, mkBlock (0, 100) (2, 1) (some (2, 2))), (1, mkBlock (100, 200) (0, 2) none),
    (2, mkBlock (200, 300) (1, 0) (some (0, 0)))], 3, exFreeLists10.set 7 (some 0)⟩

/-- Freeing block 1 of exH_A coalesces all three blocks into block 0
covering [0,300), registered alone in size class 9; no free block remains
adjacent to another. -/
def exH_A2 : Heap Nat :=
  ⟨[(0, mkBlock (0, 300) (0, 0) (some (0, 0)))], 3, exFreeLists10.set 9 (some 0)⟩

/-- As exH_A but only the next neighbour (block 2) is free. -/
def exH_B : Heap Nat :=
  ⟨[(0, mkBlock (0, 100) (2, 1) none), (1, mkBlock (100, 200) (0, 2) none),
    (2, mkBlock (200, 300) (1, 0) (some (2, 2)))], 3, exFreeLists10.set 7 (some 2)⟩

/-- Freeing block 1 of exH_B merges it with block 2 into [100,300),
registered in size class 8; the allocated block 0 is untouched. -/
def exH_B2 : Heap Nat :=
  ⟨[(0, mkBlock (0, 100) (1, 1) none), (1, mkBlock (100, 300) (0, 0) (some (1, 1)))],
   3, exFreeLists10.set 8 (some 1)⟩

/-- As exH_A but only the previous neighbour (block 0) is free. -/
def exH_C : Heap Nat :=
  ⟨[(0, mkBlock (0, 100) (2, 1) (some (0, 0))), (1, mkBlock (100, 200) (0, 2) none),
    (2, mkBlock (200, 300) (1, 0) none)], 3, exFreeLists10.set 7 (some 0)⟩

/-- Freeing block 1 of exH_C merges it into block 0 covering [0,200),
registered in size class 8; the allocated block 2 is untouched. -/
def exH_C2 : Heap Nat :=
  ⟨[(0, mkBlock (0, 200) (2, 2) (some (0, 0))), (2, mkBlock (200, 300) (0, 0) none)],
   3, exFreeLists10.set 8 (some 0)⟩

/-- As exH_A but neither neighbour is free. -/
def exH_D : Heap Nat :=
  ⟨[(0, mkBlock (0, 100) (2, 1) none), (1, mkBlock (100, 200) (0, 2) none),
    (2, mkBlock (200, 300) (1, 0) none)], 3, exFreeLists10⟩

/-- Freeing block 1 of exH_D merges nothing: the block is simply
registered in its own size class 7. -/
def exH_D2 : Heap Nat :=
  ⟨[(0, mkBlock (0, 100) (2, 1) none), (1, mkBlock (100, 200) (0, 2) (some (1, 1))),
    (2, mkBlock (200, 300) (1, 0) none)], 3, exFreeLists10.set 7 (some 1)⟩

/-- Blocks at one id in two heaps agree up to the contents of their
free-ring pointers: same presence, arena, range and arena-ring node, and
the same free/allocated status.  This is the footprint that the free-ring
relinking writes of registration and unregistration leave on every other
block. -/
def FreeRingAgree {A : Type} : Option (Block A) → Option (Block A) → Prop
  | none, none => True
  | some b1, some b2 => b1.arena = b2.arena ∧ b1.range = b2.range ∧
      b1.arena_node = b2.arena_node ∧ b1.free_node.isSome = b2.free_node.isSome
  | _, _ => False

/-- Blocks at one id in two heaps agree up to arena-ring pointers: same
presence, arena, range and free-ring node, the same arena-ring successor,
and a predecessor either unchanged or redirected to the absorbing block
aid.  This is the footprint of Heap::append_block on bystander blocks. -/
def AppAgree {A : Type} (aid : Nat) : Option (Block A) → Option (Block A) → Prop
  | none, none => True
  | some b1, some b2 => b1.arena = b2.arena ∧ b1.range = b2.range ∧
      b1.free_node = b2.free_node ∧
      b1.arena_node.next_id = b2.arena_node.next_id ∧
      (b1.arena_node.prev_id = b2.arena_node.prev_id ∨ b1.arena_node.prev_id = aid)
  | _, _ => False

/-- Blocks at one id in two heaps agree on everything Heap::free's merge
conditions read: same presence, arena, range and free/allocated status. -/
def WeakAgree {A : Type} : Option (Block A) → Option (Block A) → Prop
  | none, none => True
  | some b1, some b2 => b1.arena = b2.arena ∧ b1.range = b2.range ∧
      b1.free_node.isSome = b2.free_node.isSome
  | _, _ => False

/-- A heap in a consistent state: slotmap keys are unique, every block
covers a nonempty range, the per-arena address rings are coherent (the
block a next pointer names points back with its prev pointer, and
conversely), and no two free blocks of one arena are contiguous - the
invariant Heap::free is claimed to restore. -/
def HeapConsistent {A : Type} [DecidableEq A] (h : Heap A) : Prop :=
  (h.blocks.map Prod.fst).Nodup ∧
  (∀ q ∈ h.blocks, q.2.range.lo < q.2.range.hi) ∧
  (∀ q ∈ h.blocks, ∀ q2 ∈ h.blocks, q2.1 = q.2.arena_node.next_id →
    q2.2.arena_node.prev_id = q.1) ∧
  (∀ q ∈ h.blocks, ∀ q2 ∈ h.blocks, q2.1 = q.2.arena_node.prev_id →
    q2.2.arena_node.next_id = q.1) ∧
  (∀ q ∈ h.blocks, ∀ q2 ∈ h.blocks, q.2.free_node.isSome = true →
    q2.2.free_node.isSome = true → q.2.can_append q2.2 = false)

instance heapConsistentDec {A : Type} [DecidableEq A] (h : Heap A) :
    Decidable (HeapConsistent h) := by
  unfold HeapConsistent
  infer_instance

/-- One arena [0,400) in four blocks; the allocated middle block 1 has
allocated neighbours, and a fourth free block 3 of the same 100-byte size
class already heads free list 7, so freeing block 1 takes the ring-insert
branch of registration. -/
def exH_E : Heap Nat :=
  ⟨[(0, mkBlock (0, 100) (3, 1) none), (1, mkBlock (100, 200) (0, 2) none),
    (2, mkBlock (200, 300) (1, 3) none), (3, mkBlock (300, 400) (2, 0) (some (3, 3)))],
   4, exFreeLists10.set 7 (some 3)⟩

/-- Freeing block 1 of exH_E merges nothing and registers block 1 at the
head of size class 7, linked into the free ring with the old head 3. -/
def exH_E2 : Heap Nat :=
  ⟨[(0, mkBlock (0, 100) (3, 1) none), (1, mkBlock (100, 200) (0, 2) (some (3, 3))),
    (2, mkBlock (200, 300) (1, 3) none), (3, mkBlock (300, 400) (2, 0) (some (1, 1)))],
   4, (exFreeLists10.set 7 (some 3)).set 7 (some 1)⟩


section GraphLemmas

variable {V : Type}

theorem OpGraph.node_add_edge (g : OpGraph V) (a b : Nat) (w : OpEdge V) (x : Nat) :
    ((g.add_edge a b w).1).node x = g.node x := rfl

theorem OpGraph.edges_in_add_edge (g : OpGraph V) (a b : Nat) (w : OpEdge V) (x : Nat) :
    ((g.add_edge a b w).1).edges_in x =
      g.edges_in x ++ (if b = x then [(g.next_edge_id, ⟨a, b, w⟩)] else []) := by
  unfold OpGraph.edges_in OpGraph.add_edge
  simp only [List.filter_append]
  congr 1
  by_cases h : b = x <;> simp [h]

theorem OpGraph.edges_in_remove_edge (g : OpGraph V) (eid x : Nat) :
    (g.remove_edge eid).edges_in x = (g.edges_in x).filter (fun p => p.1 != eid) := by
  unfold OpGraph.edges_in OpGraph.remove_edge
  simp only []
  rw [List.filter_comm]

theorem OpGraph.node_remove_edge (g : OpGraph V) (eid : Nat) (x : Nat) :
    (g.remove_edge eid).node x = g.node x := rfl

theorem OpGraph.node_add_node (g : OpGraph V) (nd : OpNode) (x : Nat)
    (hkeys : ∀ p ∈ g.nodes, p.1 < g.next_node_id) :
    ((g.add_node nd).1).node x =
      if x = g.next_node_id then some nd else g.node x := by
  unfold OpGraph.node OpGraph.add_node alist_get
  simp only [List.find?_append]
  by_cases h : x = g.next_node_id
  · subst h
    have hnone : g.nodes.find? (fun p => p.1 == g.next_node_id) = none := by
      rw [List.find?_eq_none]
      intro p hp
      have := hkeys p hp
      simp only [beq_iff_eq]
      omega
    simp [hnone, List.find?]
  · have hne : (g.next_node_id == x) = false := beq_eq_false_iff_ne.mpr (Ne.symm h)
    rcases hfind : g.nodes.find? (fun p => p.1 == x) with _ | p
    · simp [hfind, List.find?, hne, h]
    · simp [hfind, h]

theorem OpGraph.edges_in_add_node (g : OpGraph V) (nd : OpNode) (x : Nat) :
    ((g.add_node nd).1).edges_in x = g.edges_in x := rfl

theorem OpGraph.mem_of_mem_edges_in (g : OpGraph V) (x : Nat) {p : Nat × EdgeRec V}
    (h : p ∈ g.edges_in x) : p ∈ g.edges :=
  List.mem_of_mem_filter h

theorem OpGraph.dst_of_mem_edges_in (g : OpGraph V) (x : Nat) {p : Nat × EdgeRec V}
    (h : p ∈ g.edges_in x) : p.2.dst = x := by
  have := List.of_mem_filter h
  simpa using this

theorem OpGraph.mem_nodes_of_node {V : Type} (g : OpGraph V) {x : Nat} {nd : OpNode}
    (h : g.node x = some nd) : (x, nd) ∈ g.nodes := by
  unfold OpGraph.node alist_get at h
  rcases hfind : g.nodes.find? (fun p => p.1 == x) with _ | q
  · simp [hfind] at h
  · have hq : q ∈ g.nodes := List.mem_of_find?_eq_some hfind
    have hqx : q.1 = x := by
      have := List.find?_some hfind
      simpa using this
    have hq2 : q.2 = nd := by simp [hfind] at h; exact h
    have : q = (x, nd) := Prod.ext hqx hq2
    exact this ▸ hq

theorem OpGraph.node_eq_of_mem_nodes {V : Type} (g : OpGraph V)
    (hnup : (g.nodes.map Prod.fst).Nodup) {x : Nat} {nd : OpNode}
    (h : (x, nd) ∈ g.nodes) : g.node x = some nd := by
  unfold OpGraph.node alist_get
  rcases hfind : g.nodes.find? (fun p => p.1 == x) with _ | q
  · rw [List.find?_eq_none] at hfind
    have := hfind _ h
    simp at this
  · have hq : q ∈ g.nodes := List.mem_of_find?_eq_some hfind
    have hqx : q.1 = x := by simpa using List.find?_some hfind
    have heq : (x, nd) = q :=
      List.inj_on_of_nodup_map hnup h hq (by simp [hqx])
    rw [hfind, ← heq]
    rfl

theorem OpGraph.add_node_snd {V : Type} (g : OpGraph V) (nd : OpNode) :
    (g.add_node nd).2 = g.next_node_id := rfl

theorem OpGraph.node_add_node_lt {V : Type} (g : OpGraph V) (nd : OpNode) (x : Nat)
    (hkeys : ∀ p ∈ g.nodes, p.1 < g.next_node_id) (hlt : x < g.next_node_id) :
    ((g.add_node nd).1).node x = g.node x := by
  rw [OpGraph.node_add_node _ _ _ hkeys, if_neg (by omega)]

theorem OpGraph.add_node_nodes {V : Type} (g : OpGraph V) (nd : OpNode) :
    ((g.add_node nd).1).nodes = g.nodes ++ [(g.next_node_id, nd)] := rfl

theorem OpGraph.add_node_next {V : Type} (g : OpGraph V) (nd : OpNode) :
    ((g.add_node nd).1).next_node_id = g.next_node_id + 1 := rfl

theorem OpGraph.add_edge_nodes {V : Type} (g : OpGraph V) (a b : Nat) (w : OpEdge V) :
    ((g.add_edge a b w).1).nodes = g.nodes := rfl

theorem OpGraph.add_edge_edges {V : Type} (g : OpGraph V) (a b : Nat) (w : OpEdge V) :
    ((g.add_edge a b w).1).edges = g.edges ++ [(g.next_edge_id, ⟨a, b, w⟩)] := rfl

theorem OpGraph.add_edge_next {V : Type} (g : OpGraph V) (a b : Nat) (w : OpEdge V) :
    ((g.add_edge a b w).1).next_node_id = g.next_node_id := rfl

theorem OpGraph.new_node_nil {V : Type} (co : CommonOps V) (g : OpGraph V)
    (c : Nat) (sh : Shape) (op : Op) :
    g.new_node co c sh op [] =
      some ((g.add_node ⟨c, sh, op, none⟩).1, g.next_node_id) := rfl

theorem alist_get_map_insert {β : Type} (l : List (Nat × β)) (k : Nat) (v : β)
    (h : (l.find? (fun p => p.1 == k)).isSome) :
    alist_get (l.map (fun p => if p.1 == k then (k, v) else p)) k = some v := by
  induction l with
  | nil => simp at h
  | cons hd tl ih =>
    by_cases hk : hd.1 = k
    · have hbeq : (hd.1 == k) = true := by simpa using hk
      unfold alist_get
      rw [List.map_cons, if_pos hbeq, List.find?_cons]
      simp
    · have hne2 : (hd.1 == k) = false := beq_eq_false_iff_ne.mpr hk
      rw [List.find?_cons, hne2] at h
      have := ih h
      unfold alist_get at this ⊢
      rw [List.map_cons, if_neg (by simp [hne2]), List.find?_cons]
      simp only [hne2]
      exact this

theorem alist_get_insert {β : Type} (l : List (Nat × β)) (k : Nat) (v : β) :
    alist_get (alist_insert l k v) k = some v := by
  unfold alist_insert
  split
  next h => exact alist_get_map_insert l k v h
  next h =>
    unfold alist_get
    rw [List.find?_append]
    have hnone : l.find? (fun p => p.1 == k) = none := by
      cases hx : l.find? (fun p => p.1 == k)
      · rfl
      · rw [hx] at h
        simp at h
    rw [hnone]
    simp [List.find?]

theorem alist_get_filter_ne {β : Type} (l : List (Nat × β)) (rid x : Nat)
    (hne : x ≠ rid) :
    alist_get (l.filter (fun p => p.1 != rid)) x = alist_get l x := by
  induction l with
  | nil => rfl
  | cons hd tl ih =>
    by_cases hr : hd.1 = rid
    · have h1 : (hd.1 != rid) = false := by simp [hr]
      have h2 : (hd.1 == x) = false := by
        simp only [beq_eq_false_iff_ne]
        rw [hr]
        exact fun he => hne he.symm
      unfold alist_get at ih ⊢
      rw [List.filter_cons, h1, List.find?_cons]
      simp only [h2, if_false, Bool.false_eq_true]
      exact ih
    · have h1 : (hd.1 != rid) = true := by simpa using hr
      unfold alist_get at ih ⊢
      rw [List.filter_cons, h1]
      simp only [if_true]
      by_cases hx : hd.1 = x
      · have h2 : (hd.1 == x) = true := by simpa using hx
        rw [List.find?_cons, List.find?_cons]
        simp only [h2]
      · have h2 : (hd.1 == x) = false := beq_eq_false_iff_ne.mpr hx
        rw [List.find?_cons, List.find?_cons]
        simp only [h2]
        exact ih

theorem OpGraph.node_remove_node {V : Type} (g : OpGraph V) (rid x : Nat)
    (hne : x ≠ rid) : (g.remove_node rid).node x = g.node x :=
  alist_get_filter_ne g.nodes rid x hne

theorem OpGraph.edges_in_remove_node {V : Type} (g : OpGraph V) (rid x : Nat) :
    (g.remove_node rid).edges_in x =
      (g.edges_in x).filter (fun p => p.2.src != rid && p.2.dst != rid) := by
  unfold OpGraph.edges_in OpGraph.remove_node
  simp only []
  rw [List.filter_comm]

theorem OpGraph.new_node_one {V : Type} (co : CommonOps V) (g : OpGraph V)
    (c : Nat) (sh : Shape) (op : Op) (a : Nat) (na : OpNode)
    (hkeys : ∀ p ∈ g.nodes, p.1 < g.next_node_id)
    (ha : g.node a = some na) :
    g.new_node co c sh op [a] =
      some (((g.add_node ⟨c, sh, op, none⟩).1.add_edge a g.next_node_id
        ⟨0, co.identity_view na.shape⟩).1, g.next_node_id) := by
  have hlta : a < g.next_node_id := hkeys _ (g.mem_nodes_of_node ha)
  unfold OpGraph.new_node
  simp only [List.enum, List.enumFrom, OpGraph.add_node_snd, Nat.zero_add]
  rw [OpGraph.new_node.go, OpGraph.node_add_node_lt _ _ _ hkeys hlta, ha]
  simp only [Option.bind_some, Option.some_bind, bind, Option.bind]
  rw [OpGraph.new_node.go]
  rfl

theorem OpGraph.new_node_two {V : Type} (co : CommonOps V) (g : OpGraph V)
    (c : Nat) (sh : Shape) (op : Op) (a b : Nat) (na nb : OpNode)
    (hkeys : ∀ p ∈ g.nodes, p.1 < g.next_node_id)
    (ha : g.node a = some na) (hb : g.node b = some nb) :
    g.new_node co c sh op [a, b] =
      some ((((g.add_node ⟨c, sh, op, none⟩).1.add_edge a g.next_node_id
        ⟨0, co.identity_view na.shape⟩).1.add_edge b g.next_node_id
        ⟨1, co.identity_view nb.shape⟩).1, g.next_node_id) := by
  have hlta : a < g.next_node_id := hkeys _ (g.mem_nodes_of_node ha)
  have hltb : b < g.next_node_id := hkeys _ (g.mem_nodes_of_node hb)
  unfold OpGraph.new_node
  simp only [List.enum, List.enumFrom, OpGraph.add_node_snd, Nat.zero_add]
  rw [OpGraph.new_node.go, OpGraph.node_add_node_lt _ _ _ hkeys hlta, ha]
  simp only [Option.bind_some, Option.some_bind, bind, Option.bind]
  rw [OpGraph.new_node.go]
  rw [show (((g.add_node ⟨c, sh, op, none⟩).1.add_edge a g.next_node_id
        ⟨0, co.identity_view na.shape⟩).1).node b =
      ((g.add_node ⟨c, sh, op, none⟩).1).node b from rfl]
  rw [OpGraph.node_add_node_lt _ _ _ hkeys hltb, hb]
  simp only [Option.bind_some, Option.some_bind, bind, Option.bind]
  rw [OpGraph.new_node.go]
  rfl

end GraphLemmas

/-- Claim C1: for a gradient-sink node (a Unary(Mov) node) and a call
accumulate(src): if the sink has no incoming edge the call adds a single
edge from src's node carrying the identity view; if it already has an
incoming edge from some node p, the call removes that edge, creates a
Binary(Add) node whose arguments 0 and 1 are p and src's node, and makes
that Add node the unique incoming source of the sink via an identity-view
edge.  In both cases the sink ends with exactly one incoming edge. -/
theorem c1_accumulate {V : Type} (co : CommonOps V) (s : ScopeState V)
    (gId srcId : Nat) (gnd srcnd : OpNode)
    (hg : s.ops.node gId = some gnd)
    (hs : s.ops.node srcId = some srcnd)
    (hop : gnd.op = Op.Unary UnaryOp.Mov)
    (hsh : gnd.shape = srcnd.shape)
    (hwf : s.ops.Wf)
    (hle : (s.ops.edges_in gId).length ≤ 1) :
    ∃ s', accumulate co s gId srcId = some s' ∧
      (s'.ops.edges_in gId).length = 1 ∧
      (s.ops.edges_in gId = [] →
        s'.ops.nodes = s.ops.nodes ∧
        s'.ops.edges = s.ops.edges ++
          [(s.ops.next_edge_id, ⟨srcId, gId, ⟨0, co.identity_view srcnd.shape⟩⟩)]) ∧
      (∀ pe : Nat × EdgeRec V, s.ops.edges_in gId = [pe] →
        ∃ aid pnd,
          s.ops.node pe.2.src = some pnd ∧
          s'.ops.nodes = s.ops.nodes ++
            [(aid, ⟨s.next_colour, srcnd.shape, Op.Binary BinaryOp.Add, none⟩)] ∧
          (∀ q ∈ s'.ops.edges, q.1 ≠ pe.1) ∧
          (s'.ops.edges_in aid).map (fun q => (q.2.src, q.2.weight)) =
            [(pe.2.src, ⟨0, co.identity_view pnd.shape⟩),
             (srcId, ⟨1, co.identity_view srcnd.shape⟩)] ∧
          (s'.ops.edges_in gId).map (fun q => (q.2.src, q.2.weight)) =
            [(aid, ⟨0, co.identity_view srcnd.shape⟩)]) := by
  obtain ⟨hkn, hke, hnup, heup, hep⟩ := hwf
  have hmemg := s.ops.mem_nodes_of_node hg
  have hglt : gId < s.ops.next_node_id := hkn _ hmemg
  rcases hlist : s.ops.edges_in gId with _ | ⟨pe, _ | ⟨p2, r⟩⟩
  · -- no incoming edge: connect src directly
    refine ⟨{ s with ops :=
        (s.ops.add_edge srcId gId ⟨0, co.identity_view srcnd.shape⟩).1 }, ?_, ?_, ?_, ?_⟩
    · unfold accumulate
      rw [hg, hs]
      simp [guard, hop, hsh, hlist]
    · rw [OpGraph.edges_in_add_edge, hlist]
      simp
    · intro _
      exact ⟨rfl, rfl⟩
    · intro pe hpe
      simp at hpe
  · -- one incoming edge: replace it by an Add of the two sources
    have hpe_in : pe ∈ s.ops.edges_in gId := by rw [hlist]; exact List.mem_singleton_self pe
    have hpe_mem : pe ∈ s.ops.edges := s.ops.mem_of_mem_edges_in gId hpe_in
    obtain ⟨hsrcSome, -⟩ := hep pe hpe_mem
    obtain ⟨pnd, hpnd⟩ := Option.isSome_iff_exists.mp hsrcSome
    have hpmem := s.ops.mem_nodes_of_node hpnd
    have hplt : pe.2.src < s.ops.next_node_id := hkn _ hpmem
    have hmems := s.ops.mem_nodes_of_node hs
    have hslt : srcId < s.ops.next_node_id := hkn _ hmems
    have hpe1lt : pe.1 < s.ops.next_edge_id := hke _ hpe_mem
    set g0 := s.ops.remove_edge pe.1 with hg0def
    have hg0nodes : g0.nodes = s.ops.nodes := rfl
    have hg0N : g0.next_node_id = s.ops.next_node_id := rfl
    have hg0keys : ∀ p ∈ g0.nodes, p.1 < g0.next_node_id := hkn
    have hg0a : g0.node pe.2.src = some pnd := hpnd
    have hg0b : g0.node srcId = some srcnd := hs
    have hnn := OpGraph.new_node_two co g0 s.next_colour srcnd.shape
      (Op.Binary BinaryOp.Add) pe.2.src srcId pnd srcnd hg0keys hg0a hg0b
    set gC := (((g0.add_node ⟨s.next_colour, srcnd.shape, Op.Binary BinaryOp.Add, none⟩).1.add_edge
        pe.2.src g0.next_node_id ⟨0, co.identity_view pnd.shape⟩).1.add_edge
        srcId g0.next_node_id ⟨1, co.identity_view srcnd.shape⟩).1 with hgCdef
    refine ⟨{ s with ops :=
        (gC.add_edge g0.next_node_id gId ⟨0, co.identity_view srcnd.shape⟩).1 }, ?_, ?_, ?_, ?_⟩
    · unfold accumulate
      rw [hg, hs]
      simp [guard, hop, hsh, hlist, ← hg0def, hnn, ← hgCdef]
    · rw [OpGraph.edges_in_add_edge]
      have hemp : gC.edges_in gId = [] := by
        rw [hgCdef]
        rw [OpGraph.edges_in_add_edge, OpGraph.edges_in_add_edge]
        have h1 : ((g0.add_node ⟨s.next_colour, srcnd.shape, Op.Binary BinaryOp.Add,
            none⟩).1).edges_in gId = g0.edges_in gId := rfl
        rw [h1, hg0def, OpGraph.edges_in_remove_edge, hlist]
        have : gId ≠ g0.next_node_id := by rw [hg0N]; omega
        simp [Ne.symm this]
      rw [hemp]
      simp
    · intro hcon
      simp at hcon
    · intro pe' hpe'
      have hpe'eq : pe = pe' := by simpa using hpe'
      subst hpe'eq
      refine ⟨g0.next_node_id, pnd, hpnd, ?_, ?_, ?_, ?_⟩
      · rfl
      · intro q hq
        have : q ∈ gC.edges ++ [(gC.next_edge_id,
            ⟨g0.next_node_id, gId, ⟨0, co.identity_view srcnd.shape⟩⟩)] := hq
        rw [List.mem_append] at this
        rcases this with hq1 | hq1
        · have : q ∈ (g0.add_node ⟨s.next_colour, srcnd.shape, Op.Binary BinaryOp.Add,
              none⟩).1.edges ++ _ ++ _ := hq1
          rw [List.mem_append, List.mem_append] at this
          rcases this with (hq2 | hq2) | hq2
          · have hq3 : q ∈ g0.edges := hq2
            have : q.1 ≠ pe.1 := by
              rw [hg0def] at hq3
              have := List.of_mem_filter hq3
              simpa using this
            exact this
          · have : q = (g0.next_edge_id, _) := List.mem_singleton.mp hq2
            rw [this]
            have : g0.next_edge_id = s.ops.next_edge_id := rfl
            simp only [this]
            omega
          · have : q = (g0.next_edge_id + 1, _) := List.mem_singleton.mp hq2
            rw [this]
            have : g0.next_edge_id = s.ops.next_edge_id := rfl
            simp only [this]
            omega
        · have hqs : q = (gC.next_edge_id, _) := List.mem_singleton.mp hq1
          rw [hqs]
          have : gC.next_edge_id = s.ops.next_edge_id + 2 := rfl
          simp only [this]
          omega
      · have haid_ne : ∀ q ∈ s.ops.edges, q.2.dst ≠ g0.next_node_id := by
          intro q hq
          obtain ⟨-, hdst⟩ := hep q hq
          obtain ⟨dnd, hdnd⟩ := Option.isSome_iff_exists.mp hdst
          have := hkn _ (s.ops.mem_nodes_of_node hdnd)
          rw [hg0N]
          omega
        rw [OpGraph.edges_in_add_edge]
        have hne1 : gId ≠ g0.next_node_id := by rw [hg0N]; omega
        rw [if_neg hne1, List.append_nil, hgCdef]
        rw [OpGraph.edges_in_add_edge, OpGraph.edges_in_add_edge]
        have h1 : ((g0.add_node ⟨s.next_colour, srcnd.shape, Op.Binary BinaryOp.Add,
            none⟩).1).edges_in g0.next_node_id = g0.edges_in g0.next_node_id := rfl
        rw [h1]
        have hstep : g0.edges_in g0.next_node_id =
            (s.ops.edges_in g0.next_node_id).filter (fun p => p.1 != pe.1) := by
          rw [hg0def]
          exact OpGraph.edges_in_remove_edge _ _ _
        have hz : s.ops.edges_in g0.next_node_id = [] := by
          rw [List.eq_nil_iff_forall_not_mem]
          intro q hq
          exact haid_ne q (s.ops.mem_of_mem_edges_in _ hq) (s.ops.dst_of_mem_edges_in _ hq)
        have hemp0 : g0.edges_in g0.next_node_id = [] := by
          rw [hstep, hz]
          rfl
        rw [hemp0]
        simp
      · rw [OpGraph.edges_in_add_edge]
        have hemp : gC.edges_in gId = [] := by
          rw [hgCdef]
          rw [OpGraph.edges_in_add_edge, OpGraph.edges_in_add_edge]
          have h1 : ((g0.add_node ⟨s.next_colour, srcnd.shape, Op.Binary BinaryOp.Add,
              none⟩).1).edges_in gId = g0.edges_in gId := rfl
          rw [h1, hg0def, OpGraph.edges_in_remove_edge, hlist]
          have : gId ≠ g0.next_node_id := by rw [hg0N]; omega
          simp [Ne.symm this]
        rw [hemp]
        simp
  · exfalso
    rw [hlist] at hle
    simp at hle

/-- Witness for claim C1: the theorem applied to the concrete state exS1
(accumulating node 0 into the empty Mov sink node 1). -/
theorem c1_accumulate_witness :
    (exS1.ops.node 1 = some ⟨0, [2], Op.Unary UnaryOp.Mov, none⟩ ∧
     exS1.ops.node 0 = some ⟨0, [2], Op.Input 0, none⟩ ∧
     exS1.ops.Wf ∧ (exS1.ops.edges_in 1).length ≤ 1) ∧
    (∃ s', accumulate CommonOps.model exS1 1 0 = some s' ∧
      (s'.ops.edges_in 1).length = 1 ∧
      (exS1.ops.edges_in 1 = [] →
        s'.ops.nodes = exS1.ops.nodes ∧
        s'.ops.edges = exS1.ops.edges ++
          [(exS1.ops.next_edge_id, ⟨0, 1, ⟨0, CommonOps.model.identity_view [2]⟩⟩)]) ∧
      (∀ pe : Nat × EdgeRec Shape, exS1.ops.edges_in 1 = [pe] →
        ∃ aid pnd,
          exS1.ops.node pe.2.src = some pnd ∧
          s'.ops.nodes = exS1.ops.nodes ++
            [(aid, ⟨exS1.next_colour, [2], Op.Binary BinaryOp.Add, none⟩)] ∧
          (∀ q ∈ s'.ops.edges, q.1 ≠ pe.1) ∧
          (s'.ops.edges_in aid).map (fun q => (q.2.src, q.2.weight)) =
            [(pe.2.src, ⟨0, CommonOps.model.identity_view pnd.shape⟩),
             (0, ⟨1, CommonOps.model.identity_view [2]⟩)] ∧
          (s'.ops.edges_in 1).map (fun q => (q.2.src, q.2.weight)) =
            [(aid, ⟨0, CommonOps.model.identity_view [2]⟩)])) :=
  ⟨⟨by decide, by decide, by decide, by decide⟩,
   c1_accumulate CommonOps.model exS1 1 0 ⟨0, [2], Op.Unary UnaryOp.Mov, none⟩
     ⟨0, [2], Op.Input 0, none⟩ (by decide) (by decide) rfl rfl (by decide) (by decide)⟩

/-- Claim C6: set_loss on a dual value seeds its loss-grad Mov node —
which must have no incoming edge at that point — with exactly one
incoming identity-view edge from the broadcast (to the gradient shape) of
the literal constant 1/minibatch_size, where minibatch_size is dimension
0 of the gradient shape; the value node is returned unchanged.  (That
this is the only constant-seeded gradient node follows from this being
the only builder operation that connects a literal to a Mov sink.) -/
theorem c6_set_loss {V : Type} (co : CommonOps V) (s : ScopeState V)
    (vid gid : Nat) (gnd : OpNode) (d0 : Nat) (rest : Shape)
    (hg : s.ops.node gid = some gnd)
    (hop : gnd.op = Op.Unary UnaryOp.Mov)
    (hshape : gnd.shape = d0 :: rest)
    (hempty : s.ops.edges_in gid = [])
    (hwf : s.ops.Wf) :
    ∃ s', DualArray.set_loss co s vid gid = some (s', vid) ∧
      s'.ops.nodes = s.ops.nodes ++
        [(s.ops.next_node_id,
            ⟨s.next_colour, [1], Op.Literal (Lit.F32 (1 / (d0 : ℚ))), none⟩),
         (s.ops.next_node_id + 1, ⟨s.next_colour, [1], Op.Unary UnaryOp.Mov, none⟩),
         (s.ops.next_node_id + 2,
            ⟨s.next_colour, co.output_shape (co.broadcast [1] (d0 :: rest)),
             Op.Unary UnaryOp.Mov, none⟩)] ∧
      (s'.ops.edges_in gid).map (fun q => (q.2.src, q.2.weight)) =
        [(s.ops.next_node_id + 2, ⟨0, co.identity_view (d0 :: rest)⟩)] ∧
      (s'.ops.edges_in (s.ops.next_node_id + 2)).map (fun q => (q.2.src, q.2.weight)) =
        [(s.ops.next_node_id, ⟨0, co.broadcast [1] (d0 :: rest)⟩)] := by
  obtain ⟨hkn, hke, hnup, heup, hep⟩ := hwf
  have hmemg := s.ops.mem_nodes_of_node hg
  have hglt : gid < s.ops.next_node_id := hkn _ hmemg
  set N := s.ops.next_node_id with hN
  set litnd : OpNode :=
    ⟨s.next_colour, [1], Op.Literal (Lit.F32 (1 / (d0 : ℚ))), none⟩ with hlitnd
  set movnd : OpNode := ⟨s.next_colour, [1], Op.Unary UnaryOp.Mov, none⟩ with hmovnd
  set bnd : OpNode :=
    ⟨s.next_colour, co.output_shape (co.broadcast [1] (d0 :: rest)),
     Op.Unary UnaryOp.Mov, none⟩ with hbnd
  set gL : OpGraph V := (s.ops.add_node litnd).1 with hgL
  set gL2 : OpGraph V := (gL.add_node movnd).1 with hgL2
  have hgLnext : gL.next_node_id = N + 1 := rfl
  have hgL2next : gL2.next_node_id = N + 2 := rfl
  have hgLnodes : gL.nodes = s.ops.nodes ++ [(N, litnd)] := rfl
  have hgL2nodes : gL2.nodes = gL.nodes ++ [(N + 1, movnd)] := rfl
  have hkeysL : ∀ p ∈ gL.nodes, p.1 < gL.next_node_id := by
    intro p hp
    rw [hgLnodes] at hp
    rw [hgLnext]
    rcases List.mem_append.mp hp with hp1 | hp1
    · have := hkn _ hp1
      omega
    · rcases List.mem_singleton.mp hp1 with rfl
      omega
  have hkeysL2 : ∀ p ∈ gL2.nodes, p.1 < gL2.next_node_id := by
    intro p hp
    rw [hgL2nodes] at hp
    rw [hgL2next]
    rcases List.mem_append.mp hp with hp1 | hp1
    · have := hkeysL _ hp1
      rw [hgLnext] at this
      omega
    · rcases List.mem_singleton.mp hp1 with rfl
      omega
  have hnodeN : gL2.node N = some litnd := by
    rw [hgL2, OpGraph.node_add_node _ _ _ hkeysL, hgLnext, if_neg (by omega)]
    rw [hgL, OpGraph.node_add_node _ _ _ hkn, if_pos rfl]
  have hlit : Scope.literal co s (1 / (d0 : ℚ)) = some ({ s with ops := gL2 }, N, N + 1) := by
    simp [Scope.literal, OpGraph.new_node_nil, hgL2, hgL, hlitnd, hmovnd,
      OpGraph.add_node_next, hN, one_div]
  have hlit2 : Scope.literal co s ((d0 : ℚ))⁻¹ = some ({ s with ops := gL2 }, N, N + 1) := by
    rw [← one_div]
    exact hlit
  set gB : OpGraph V := (gL2.add_node bnd).1 with hgB
  set gB2 : OpGraph V := (gB.add_edge N (N + 2) ⟨0, co.broadcast [1] (d0 :: rest)⟩).1 with hgB2
  have hbc : Array.broadcast co { s with ops := gL2 } N (d0 :: rest) =
      some ({ s with ops := gB2 }, N + 2) := by
    unfold Array.broadcast Array.view
    rw [hnodeN]
    rfl
  have hnodeg2 : gB2.node gid = some gnd := by
    rw [hgB2, OpGraph.node_add_edge, hgB, OpGraph.node_add_node _ _ _ hkeysL2,
      hgL2next, if_neg (by omega), hgL2, OpGraph.node_add_node _ _ _ hkeysL,
      hgLnext, if_neg (by omega), hgL, OpGraph.node_add_node _ _ _ hkn,
      if_neg (by omega)]
    exact hg
  have hein2 : gB2.edges_in gid = [] := by
    rw [hgB2, OpGraph.edges_in_add_edge, if_neg (by omega), List.append_nil]
    rw [hgB, OpGraph.edges_in_add_node, hgL2, OpGraph.edges_in_add_node,
      hgL, OpGraph.edges_in_add_node]
    exact hempty
  refine ⟨{ s with ops := (gB2.add_edge (N + 2) gid ⟨0, co.identity_view (d0 :: rest)⟩).1 },
    ?_, ?_, ?_, ?_⟩
  · unfold DualArray.set_loss set_loss_grad_root
    rw [hg]
    simp [hshape, hlit, hlit2, hbc, hnodeg2, hop, guard, hein2]
  · rw [OpGraph.add_edge_nodes, hgB2, OpGraph.add_edge_nodes, hgB,
      OpGraph.add_node_nodes, hgL2, OpGraph.add_node_nodes, hgL,
      OpGraph.add_node_nodes]
    simp [hlitnd, hmovnd, hbnd, OpGraph.add_node_next, hN]
  · rw [OpGraph.edges_in_add_edge, if_pos rfl, hein2]
    simp
  · have haid_ne : s.ops.edges_in (N + 2) = [] := by
      rw [List.eq_nil_iff_forall_not_mem]
      intro q hq
      have hqmem := s.ops.mem_of_mem_edges_in _ hq
      have hqdst := s.ops.dst_of_mem_edges_in _ hq
      obtain ⟨-, hdst⟩ := hep q hqmem
      obtain ⟨dnd, hdnd⟩ := Option.isSome_iff_exists.mp hdst
      have := hkn _ (s.ops.mem_nodes_of_node hdnd)
      omega
    rw [OpGraph.edges_in_add_edge, if_neg (by omega), List.append_nil]
    rw [hgB2, OpGraph.edges_in_add_edge, if_pos rfl]
    rw [hgB, OpGraph.edges_in_add_node, hgL2, OpGraph.edges_in_add_node,
      hgL, OpGraph.edges_in_add_node, haid_ne]
    simp

/-- Claim C7: after write_parameter_value(p, rhs) the graph contains
exactly one Output node for p (the Output node of any earlier write of p
is removed), that Output node reads rhs through an identity-view edge,
and the builder's parameter-to-node table maps p to rhs's node, so a
subsequent read of p (Scope::input / parameter_value) returns rhs's node
with the state unchanged — the stale Input node is not reused.
update_parameter_value(p, f) is by definition parameter_value followed by
f followed by this write, so the same holds after it. -/
theorem c7_write_parameter_value {V : Type} (co : CommonOps V) (s : ScopeState V)
    (pid rhsId : Nat) (pshape : Shape) (rhsnd : OpNode)
    (hp : alist_get s.parameters pid = some pshape)
    (hr : s.ops.node rhsId = some rhsnd)
    (hsh : pshape = rhsnd.shape)
    (hrop : rhsnd.op ≠ Op.Output pid)
    (hwf : s.ops.Wf)
    (hout1 : ∀ q ∈ s.ops.nodes, q.2.op = Op.Output pid →
      alist_get s.outputs pid = some q.1)
    (hout2 : ∀ oid, alist_get s.outputs pid = some oid →
      ∃ ond, s.ops.node oid = some ond ∧ ond.op = Op.Output pid) :
    ∃ s' out_id,
      Scope.write_parameter_value co s pid rhsId = some s' ∧
      s'.ops.node out_id = some ⟨s.next_colour, rhsnd.shape, Op.Output pid, none⟩ ∧
      (∀ q ∈ s'.ops.nodes, q.2.op = Op.Output pid → q.1 = out_id) ∧
      (s'.ops.edges_in out_id).map (fun q => (q.2.src, q.2.weight)) =
        [(rhsId, ⟨0, co.identity_view rhsnd.shape⟩)] ∧
      alist_get s'.inputs pid = some ⟨rhsId, none⟩ ∧
      Scope.input co s' pid = some (s', ⟨rhsId, none⟩) ∧
      Scope.parameter_value co s' pid = some (s', rhsId) := by
  obtain ⟨hkn, hke, hnup, heup, hep⟩ := hwf
  have hrlt : rhsId < s.ops.next_node_id := hkn _ (s.ops.mem_nodes_of_node hr)
  set outnd : OpNode := ⟨s.next_colour, rhsnd.shape, Op.Output pid, none⟩ with houtnd
  have hnn := OpGraph.new_node_one co s.ops s.next_colour rhsnd.shape
    (Op.Output pid) rhsId rhsnd hkn hr
  set gA : OpGraph V := (s.ops.add_node outnd).1 with hgA
  set gE : OpGraph V :=
    (gA.add_edge rhsId s.ops.next_node_id ⟨0, co.identity_view rhsnd.shape⟩).1 with hgE
  have hgAnodes : gA.nodes = s.ops.nodes ++ [(s.ops.next_node_id, outnd)] := rfl
  have hein_empty : s.ops.edges_in s.ops.next_node_id = [] := by
    rw [List.eq_nil_iff_forall_not_mem]
    intro q hq
    have hqmem := s.ops.mem_of_mem_edges_in _ hq
    have hqdst := s.ops.dst_of_mem_edges_in _ hq
    obtain ⟨-, hdst⟩ := hep q hqmem
    obtain ⟨dnd, hdnd⟩ := Option.isSome_iff_exists.mp hdst
    have := hkn _ (s.ops.mem_nodes_of_node hdnd)
    omega
  have hnodeN : gE.node s.ops.next_node_id = some outnd := by
    rw [hgE, OpGraph.node_add_edge, hgA, OpGraph.node_add_node _ _ _ hkn, if_pos rfl]
  have heinN : gE.edges_in s.ops.next_node_id =
      [(s.ops.next_edge_id, ⟨rhsId, s.ops.next_node_id,
        ⟨0, co.identity_view rhsnd.shape⟩⟩)] := by
    rw [hgE, OpGraph.edges_in_add_edge, if_pos rfl, hgA, OpGraph.edges_in_add_node,
      hein_empty]
    rfl
  rcases hold : alist_get s.outputs pid with _ | oid
  · -- no previous output node for pid
    refine ⟨{ s with
        ops := gE
        outputs := alist_insert s.outputs pid s.ops.next_node_id
        inputs := alist_insert s.inputs pid ⟨rhsId, none⟩ }, s.ops.next_node_id,
      ?_, ?_, ?_, ?_, ?_, ?_, ?_⟩
    · unfold Scope.write_parameter_value
      rw [hp, hr]
      simp [guard, hsh, hnn, hold, ← hgE, ← hgA]
    · exact hnodeN
    · intro q hq hqop
      have hq' : q ∈ gA.nodes := hq
      rw [hgAnodes] at hq'
      rcases List.mem_append.mp hq' with hq1 | hq1
      · exact absurd (hout1 q hq1 hqop) (by rw [hold]; simp)
      · rcases List.mem_singleton.mp hq1 with rfl
        rfl
    · rw [heinN]
      rfl
    · exact alist_get_insert _ _ _
    · unfold Scope.input
      rw [show alist_get
          ({ s with
              ops := gE
              outputs := alist_insert s.outputs pid s.ops.next_node_id
              inputs := alist_insert s.inputs pid ⟨rhsId, none⟩ } :
            ScopeState V).parameters pid = some pshape from hp]
      simp [alist_get_insert]
    · unfold Scope.parameter_value Scope.input
      rw [show alist_get
          ({ s with
              ops := gE
              outputs := alist_insert s.outputs pid s.ops.next_node_id
              inputs := alist_insert s.inputs pid ⟨rhsId, none⟩ } :
            ScopeState V).parameters pid = some pshape from hp]
      simp [alist_get_insert]
  · -- a previous output node oid exists and is removed
    obtain ⟨ond, hoid, hondop⟩ := hout2 oid hold
    have holt : oid < s.ops.next_node_id := hkn _ (s.ops.mem_nodes_of_node hoid)
    have hone : oid ≠ rhsId := by
      intro he
      rw [he, hr] at hoid
      exact hrop (by injection hoid with h1; rw [h1]; exact hondop)
    refine ⟨{ s with
        ops := gE.remove_node oid
        outputs := alist_insert s.outputs pid s.ops.next_node_id
        inputs := alist_insert s.inputs pid ⟨rhsId, none⟩ }, s.ops.next_node_id,
      ?_, ?_, ?_, ?_, ?_, ?_, ?_⟩
    · unfold Scope.write_parameter_value
      rw [hp, hr]
      simp [guard, hsh, hnn, hold, ← hgE, ← hgA]
    · rw [OpGraph.node_remove_node _ _ _ (by omega)]
      exact hnodeN
    · intro q hq hqop
      have hq' : q ∈ gE.nodes.filter (fun p => p.1 != oid) := hq
      have hq2 := List.mem_filter.mp hq'
      have hqne : q.1 ≠ oid := by simpa using hq2.2
      have hq3 : q ∈ gA.nodes := hq2.1
      rw [hgAnodes] at hq3
      rcases List.mem_append.mp hq3 with hq1 | hq1
      · have := hout1 q hq1 hqop
        rw [hold] at this
        injection this with h1
        exact absurd h1.symm hqne
      · rcases List.mem_singleton.mp hq1 with rfl
        rfl
    · rw [OpGraph.edges_in_remove_node, heinN]
      have hkeep : ((rhsId != oid) && (s.ops.next_node_id != oid)) = true := by
        have h1 : (rhsId != oid) = true := by simpa using Ne.symm hone
        have h2 : (s.ops.next_node_id != oid) = true := by
          simp only [bne_iff_ne]
          omega
        rw [h1, h2]
        rfl
      simp [List.filter, hkeep]
    · exact alist_get_insert _ _ _
    · unfold Scope.input
      rw [show alist_get
          ({ s with
              ops := gE.remove_node oid
              outputs := alist_insert s.outputs pid s.ops.next_node_id
              inputs := alist_insert s.inputs pid ⟨rhsId, none⟩ } :
            ScopeState V).parameters pid = some pshape from hp]
      simp [alist_get_insert]
    · unfold Scope.parameter_value Scope.input
      rw [show alist_get
          ({ s with
              ops := gE.remove_node oid
              outputs := alist_insert s.outputs pid s.ops.next_node_id
              inputs := alist_insert s.inputs pid ⟨rhsId, none⟩ } :
            ScopeState V).parameters pid = some pshape from hp]
      simp [alist_get_insert]

/-- Witness for claim C7: writing parameter 0 with the value node 0 in
the concrete state exS2 leaves exactly one Output node for it, and a
subsequent read returns node 0 unchanged. -/
theorem c7_write_parameter_value_witness :
    (alist_get exS2.parameters 0 = some [2] ∧
     exS2.ops.node 0 = some ⟨0, [2], Op.Input 0, none⟩ ∧
     exS2.ops.Wf) ∧
    (∃ s' out_id,
      Scope.write_parameter_value CommonOps.model exS2 0 0 = some s' ∧
      s'.ops.node out_id = some ⟨exS2.next_colour, [2], Op.Output 0, none⟩ ∧
      (∀ q ∈ s'.ops.nodes, q.2.op = Op.Output 0 → q.1 = out_id) ∧
      (s'.ops.edges_in out_id).map (fun q => (q.2.src, q.2.weight)) =
        [(0, ⟨0, CommonOps.model.identity_view [2]⟩)] ∧
      alist_get s'.inputs 0 = some ⟨0, none⟩ ∧
      Scope.input CommonOps.model s' 0 = some (s', ⟨0, none⟩) ∧
      Scope.parameter_value CommonOps.model s' 0 = some (s', 0)) :=
  ⟨⟨by decide, by decide, by decide⟩,
   c7_write_parameter_value CommonOps.model exS2 0 0 [2] ⟨0, [2], Op.Input 0, none⟩
     (by decide) (by decide) rfl (by decide) (by decide) (by decide)
     (by intro oid h; simp [alist_get, exS2] at h)⟩

/-- Witness for claim C6: designating the dual (value 0, grad 1) in the
concrete state exS1 as the loss seeds grad node 1 with the broadcast of
the literal 1/2 (minibatch size 2). -/
theorem c6_set_loss_witness :
    (exS1.ops.node 1 = some ⟨0, [2], Op.Unary UnaryOp.Mov, none⟩ ∧
     exS1.ops.edges_in 1 = [] ∧ exS1.ops.Wf) ∧
    (∃ s', DualArray.set_loss CommonOps.model exS1 0 1 = some (s', 0) ∧
      s'.ops.nodes = exS1.ops.nodes ++
        [(exS1.ops.next_node_id,
            ⟨exS1.next_colour, [1], Op.Literal (Lit.F32 (1 / ((2 : Nat) : ℚ))), none⟩),
         (exS1.ops.next_node_id + 1,
            ⟨exS1.next_colour, [1], Op.Unary UnaryOp.Mov, none⟩),
         (exS1.ops.next_node_id + 2,
            ⟨exS1.next_colour,
             CommonOps.model.output_shape (CommonOps.model.broadcast [1] (2 :: [])),
             Op.Unary UnaryOp.Mov, none⟩)] ∧
      (s'.ops.edges_in 1).map (fun q => (q.2.src, q.2.weight)) =
        [(exS1.ops.next_node_id + 2, ⟨0, CommonOps.model.identity_view (2 :: [])⟩)] ∧
      (s'.ops.edges_in (exS1.ops.next_node_id + 2)).map (fun q => (q.2.src, q.2.weight)) =
        [(exS1.ops.next_node_id, ⟨0, CommonOps.model.broadcast [1] (2 :: [])⟩)]) :=
  ⟨⟨by decide, by decide, by decide⟩,
   c6_set_loss CommonOps.model exS1 0 1 ⟨0, [2], Op.Unary UnaryOp.Mov, none⟩ 2 []
     (by decide) rfl rfl (by decide) (by decide)⟩

/-- Claim C10: accumulate panics unless the destination node's op is
Unary(Mov) and the destination's shape equals the source node's shape;
both conditions are checked before any edge of the graph is added or
removed — on failure no post-state is produced at all. -/
theorem c10_accumulate_checks {V : Type} (co : CommonOps V) (s : ScopeState V)
    (gId srcId : Nat) (gnd srcnd : OpNode)
    (hg : s.ops.node gId = some gnd)
    (hs : s.ops.node srcId = some srcnd)
    (hwf : s.ops.Wf) :
    (accumulate co s gId srcId).isSome ↔
      (gnd.op = Op.Unary UnaryOp.Mov ∧ gnd.shape = srcnd.shape) := by
  obtain ⟨hkn, hke, hnup, heup, hep⟩ := hwf
  constructor
  · intro hsome
    by_cases hmov : gnd.op = Op.Unary UnaryOp.Mov
    · by_cases hshape : gnd.shape = srcnd.shape
      · exact ⟨hmov, hshape⟩
      · exfalso
        have hnone : accumulate co s gId srcId = none := by
          unfold accumulate
          rw [hg, hs]
          simp [guard, hmov, hshape]
        rw [hnone] at hsome
        simp at hsome
    · exfalso
      have hnone : accumulate co s gId srcId = none := by
        unfold accumulate
        rw [hg, hs]
        simp [guard, hmov]
      rw [hnone] at hsome
      simp at hsome
  · rintro ⟨hop, hsh⟩
    rcases hlist : s.ops.edges_in gId with _ | ⟨pe, rest⟩
    · unfold accumulate
      rw [hg, hs]
      simp [guard, hop, hsh, hlist]
    · have hpe_mem : pe ∈ s.ops.edges := by
        refine s.ops.mem_of_mem_edges_in gId ?_
        rw [hlist]
        exact List.mem_cons_self _ _
      obtain ⟨hsrcSome, -⟩ := hep pe hpe_mem
      obtain ⟨pnd, hpnd⟩ := Option.isSome_iff_exists.mp hsrcSome
      have hnn := OpGraph.new_node_two co (s.ops.remove_edge pe.1) s.next_colour srcnd.shape
        (Op.Binary BinaryOp.Add) pe.2.src srcId pnd srcnd hkn hpnd hs
      unfold accumulate
      rw [hg, hs]
      simp [guard, hop, hsh, hlist, hnn]

/-- Witness for claim C10: the iff at the concrete state exS1 — on the
valid pair (sink 1, source 0) accumulate succeeds, and flipping the
direction (sink 0, an Input node) makes it panic. -/
theorem c10_accumulate_checks_witness :
    (exS1.ops.node 1 = some ⟨0, [2], Op.Unary UnaryOp.Mov, none⟩ ∧
     exS1.ops.node 0 = some ⟨0, [2], Op.Input 0, none⟩ ∧ exS1.ops.Wf) ∧
    ((accumulate CommonOps.model exS1 1 0).isSome ↔
      ((⟨0, [2], Op.Unary UnaryOp.Mov, none⟩ : OpNode).op = Op.Unary UnaryOp.Mov ∧
       (⟨0, [2], Op.Unary UnaryOp.Mov, none⟩ : OpNode).shape =
         (⟨0, [2], Op.Input 0, none⟩ : OpNode).shape)) :=
  ⟨⟨by decide, by decide, by decide⟩,
   c10_accumulate_checks CommonOps.model exS1 1 0 _ _ (by decide) (by decide) (by decide)⟩

theorem mem_in_neighbors {V : Type} (g : OpGraph V) (m n : Nat) :
    m ∈ g.in_neighbors n ↔ g.edge_rel m n := by
  unfold OpGraph.in_neighbors OpGraph.edges_in OpGraph.edge_rel
  constructor
  · intro h
    rcases List.mem_map.mp h with ⟨p, hp, hsrc⟩
    have hmem := List.mem_of_mem_filter hp
    have hdst : p.2.dst = n := by simpa using List.of_mem_filter hp
    exact ⟨p, hmem, hsrc, hdst⟩
  · rintro ⟨p, hp, hsrc, hdst⟩
    refine List.mem_map.mpr ⟨p, List.mem_filter.mpr ⟨hp, by simpa using hdst⟩, hsrc⟩

theorem dce_mark_mono {V : Type} (g : OpGraph V) :
    ∀ (r live : List Nat), live ⊆ dce_mark g live r := by
  intro r
  induction r with
  | nil => intro live x hx; exact hx
  | cons n rest ih =>
    intro live x hx
    show x ∈ dce_mark g (if n ∈ live then live ++ g.in_neighbors n else live) rest
    apply ih
    split
    · exact List.mem_append_left _ hx
    · exact hx

theorem dce_mark_sound {V : Type} (g : OpGraph V) :
    ∀ (r live : List Nat), (∀ x ∈ live, reaches_output g x) →
      ∀ x ∈ dce_mark g live r, reaches_output g x := by
  intro r
  induction r with
  | nil => intro live h x hx; exact h x hx
  | cons n rest ih =>
    intro live h x hx
    have hx' : x ∈ dce_mark g (if n ∈ live then live ++ g.in_neighbors n else live) rest := hx
    refine ih _ ?_ x hx'
    intro y hy
    split at hy
    case isTrue hn =>
      rcases List.mem_append.mp hy with h1 | h1
      · exact h y h1
      · have hedge := (mem_in_neighbors g y n).mp h1
        obtain ⟨o, nd, hstar, hnode, hout⟩ := h n hn
        exact ⟨o, nd, Relation.ReflTransGen.head hedge hstar, hnode, hout⟩
    case isFalse => exact h y hy

theorem dce_mark_src {V : Type} (g : OpGraph V) :
    ∀ (r live : List Nat) (x : Nat), x ∈ dce_mark g live r →
      x ∈ live ∨ ∃ n ∈ r, g.edge_rel x n := by
  intro r
  induction r with
  | nil => intro live x hx; exact Or.inl hx
  | cons n rest ih =>
    intro live x hx
    have hx' : x ∈ dce_mark g (if n ∈ live then live ++ g.in_neighbors n else live) rest := hx
    rcases ih _ x hx' with h1 | ⟨m, hm, he⟩
    · split at h1
      · rcases List.mem_append.mp h1 with h2 | h2
        · exact Or.inl h2
        · exact Or.inr ⟨n, List.mem_cons_self _ _, (mem_in_neighbors g x n).mp h2⟩
      · exact Or.inl h1
    · exact Or.inr ⟨m, List.mem_cons_of_mem _ hm, he⟩

theorem dce_mark_pred {V : Type} (g : OpGraph V) :
    ∀ (r live : List Nat) (x y : Nat),
      r.Pairwise (fun a b => ¬ g.edge_rel a b) →
      g.edge_rel x y → y ∈ r → y ∈ dce_mark g live r →
      x ∈ dce_mark g live r := by
  intro r
  induction r with
  | nil => intro live x y _ _ hy; simp at hy
  | cons n rest ih =>
    intro live x y hpw hxy hyr hymark
    rcases List.pairwise_cons.mp hpw with ⟨hn, hpw2⟩
    by_cases hyn : y = n
    · subst hyn
      by_cases hyl : y ∈ live
      · have hx : x ∈ live ++ g.in_neighbors y :=
          List.mem_append_right _ ((mem_in_neighbors g x y).mpr hxy)
        show x ∈ dce_mark g (if y ∈ live then live ++ g.in_neighbors y else live) rest
        rw [if_pos hyl]
        exact dce_mark_mono g rest _ hx
      · exfalso
        have hymark2 : y ∈ dce_mark g
            (if y ∈ live then live ++ g.in_neighbors y else live) rest := hymark
        rw [if_neg hyl] at hymark2
        rcases dce_mark_src g rest live y hymark2 with h1 | ⟨m, hm, he⟩
        · exact hyl h1
        · exact hn m hm he
    · have hyrest : y ∈ rest := by
        rcases List.mem_cons.mp hyr with h | h
        · exact absurd h hyn
        · exact h
      exact ih _ x y hpw2 hxy hyrest hymark

theorem topo_reverse_pairwise {V : Type} (g : OpGraph V) (ord : List Nat)
    (h : isTopoOrder g ord) :
    ord.reverse.Pairwise (fun a b => ¬ g.edge_rel a b) := by
  obtain ⟨hnd, -, -, hlt⟩ := h
  rw [List.pairwise_reverse]
  rw [List.pairwise_iff_getElem]
  intro i j hi hj hij
  intro hedge
  obtain ⟨p, hp, hsrc, hdst⟩ := hedge
  have := hlt p hp
  rw [hsrc, hdst] at this
  rw [List.indexOf_getElem hnd i hi, List.indexOf_getElem hnd j hj] at this
  omega

theorem alist_get_filter_keep {β : Type} (l : List (Nat × β)) (keep : Nat → Bool)
    (x : Nat) :
    alist_get (l.filter (fun p => keep p.1)) x =
      if keep x then alist_get l x else none := by
  induction l with
  | nil => simp [alist_get]
  | cons hd tl ih =>
    unfold alist_get at ih ⊢
    rw [List.filter_cons]
    by_cases h1 : keep hd.1
    · rw [if_pos h1, List.find?_cons, List.find?_cons]
      by_cases hx : hd.1 = x
      · have h2 : (hd.1 == x) = true := by simpa using hx
        by_cases hk : keep x
        · simp [h2, hk]
        · exact absurd h1 (by rw [hx]; simpa using hk)
      · have h2 : (hd.1 == x) = false := beq_eq_false_iff_ne.mpr hx
        simp only [h2]
        exact ih
    · have h1f : keep hd.1 = false := by simpa using h1
      rw [if_neg h1, ih]
      by_cases hx : hd.1 = x
      · have hk : keep x = false := by rw [← hx]; exact h1f
        simp [hk]
      · have h2 : (hd.1 == x) = false := beq_eq_false_iff_ne.mpr hx
        by_cases hk : keep x
        · simp only [hk, if_true, List.find?_cons, h2]
        · simp [hk]

theorem dce_live_iff {V : Type} (g : OpGraph V) (ord : List Nat)
    (htopo : isTopoOrder g ord) (hwf : g.Wf) (x : Nat) :
    x ∈ dce_mark g ((g.nodes.filter (fun p => p.2.op.is_output)).map Prod.fst)
        ord.reverse ↔ reaches_output g x := by
  obtain ⟨hkn, hke, hnup, heup, hep⟩ := hwf
  constructor
  · intro hx
    refine dce_mark_sound g _ _ ?_ x hx
    intro o ho
    rcases List.mem_map.mp ho with ⟨q, hq, hq1⟩
    have hqmem := List.mem_of_mem_filter hq
    have hqout : q.2.op.is_output = true := by simpa using List.of_mem_filter hq
    have hnode := g.node_eq_of_mem_nodes hnup (show (q.1, q.2) ∈ g.nodes from hqmem)
    exact ⟨o, q.2, Relation.ReflTransGen.refl, hq1 ▸ hnode, hqout⟩
  · rintro ⟨o, nd, hstar, hnode, hout⟩
    induction hstar using Relation.ReflTransGen.head_induction_on with
    | refl =>
      refine dce_mark_mono g _ _ ?_
      refine List.mem_map.mpr ⟨(o, nd), ?_, rfl⟩
      refine List.mem_filter.mpr ⟨g.mem_nodes_of_node hnode, by simpa using hout⟩
    | head hedge htail ih =>
      rename_i a c
      have hcr : c ∈ ord.reverse := by
        obtain ⟨p, hp, hsrc, hdst⟩ := hedge
        obtain ⟨-, hdstSome⟩ := hep p hp
        obtain ⟨cnd, hcnd⟩ := Option.isSome_iff_exists.mp hdstSome
        rw [hdst] at hcnd
        have := htopo.2.2.1 _ (g.mem_nodes_of_node hcnd)
        exact List.mem_reverse.mpr this
      exact dce_mark_pred g _ _ a c (topo_reverse_pairwise g ord htopo) hedge hcr ih

/-- Claim C2: after dead-code elimination a node remains in the op graph
iff it is an Output node or a transitive predecessor of one; surviving
nodes keep their payloads (ops, shapes, colour, cluster), and the
surviving edges are exactly the original edges between surviving nodes —
none are redirected. -/
theorem c2_eliminate_dead_code {V : Type} (g : OpGraph V) (ord : List Nat)
    (htopo : isTopoOrder g ord) (hwf : g.Wf) :
    (∀ x nd, (eliminate_dead_code g ord).node x = some nd ↔
      (g.node x = some nd ∧ reaches_output g x)) ∧
    (∀ pe : Nat × EdgeRec V, pe ∈ (eliminate_dead_code g ord).edges ↔
      (pe ∈ g.edges ∧ reaches_output g pe.2.src ∧ reaches_output g pe.2.dst)) := by
  have hlive := dce_live_iff g ord htopo hwf
  constructor
  · intro x nd
    have hnode : (eliminate_dead_code g ord).node x =
        if decide (x ∈ dce_mark g
          ((g.nodes.filter (fun p => p.2.op.is_output)).map Prod.fst) ord.reverse) = true
        then g.node x else none := by
      simp only [eliminate_dead_code, OpGraph.retain_nodes, OpGraph.node]
      exact alist_get_filter_keep g.nodes
        (fun id => decide (id ∈ dce_mark g
          (List.map Prod.fst (List.filter (fun p => p.2.op.is_output) g.nodes))
          ord.reverse)) x
    rw [hnode]
    simp only [decide_eq_true_eq]
    by_cases hx : x ∈ dce_mark g
        ((g.nodes.filter (fun p => p.2.op.is_output)).map Prod.fst) ord.reverse
    · rw [if_pos hx]
      constructor
      · intro h
        exact ⟨h, (hlive x).mp hx⟩
      · intro h
        exact h.1
    · rw [if_neg hx]
      constructor
      · intro h
        cases h
      · intro h
        exact absurd ((hlive x).mpr h.2) hx
  · intro pe
    constructor
    · intro h
      have h2 := List.mem_filter.mp h
      have hsrc : pe.2.src ∈ dce_mark g
          ((g.nodes.filter (fun p => p.2.op.is_output)).map Prod.fst) ord.reverse := by
        have := h2.2
        simp only [Bool.and_eq_true, decide_eq_true_eq] at this
        exact this.1
      have hdst : pe.2.dst ∈ dce_mark g
          ((g.nodes.filter (fun p => p.2.op.is_output)).map Prod.fst) ord.reverse := by
        have := h2.2
        simp only [Bool.and_eq_true, decide_eq_true_eq] at this
        exact this.2
      exact ⟨h2.1, (hlive _).mp hsrc, (hlive _).mp hdst⟩
    · rintro ⟨hmem, hs, hd⟩
      refine List.mem_filter.mpr ⟨hmem, ?_⟩
      simp only [Bool.and_eq_true, decide_eq_true_eq]
      exact ⟨(hlive _).mpr hs, (hlive _).mpr hd⟩

theorem OpGraph.upd_edge_mem {V : Type} (g : OpGraph V) (eid : Nat)
    (f : OpEdge V → OpEdge V) {q : Nat × EdgeRec V}
    (hq : q ∈ (g.upd_edge eid f).edges) :
    ∃ p ∈ g.edges, q.2.src = p.2.src ∧ q.2.dst = p.2.dst := by
  rcases List.mem_map.mp hq with ⟨p, hp, hpq⟩
  by_cases hpe : (p.1 == eid) = true
  · refine ⟨p, hp, ?_, ?_⟩ <;> rw [← hpq] <;> simp [hpe]
  · have : q = p := by rw [← hpq]; simp [hpe]
    rw [this]
    exact ⟨p, hp, rfl, rfl⟩

theorem allM_option_eq_true {α : Type} (f : α → Option Bool) :
    ∀ l : List α, (∀ x ∈ l, f x = some true) → l.allM f = some true := by
  intro l
  induction l with
  | nil => intro _; rfl
  | cons hd tl ih =>
    intro h
    have hhd := h hd (List.mem_cons_self _ _)
    show (f hd >>= fun b => match b with
      | true => tl.allM f
      | false => pure false) = some true
    rw [hhd]
    exact ih (fun x hx => h x (List.mem_cons_of_mem _ hx))

theorem allM_option_exists_false {α : Type} (f : α → Option Bool) :
    ∀ l : List α, (∀ x ∈ l, ∃ b, f x = some b) →
      (∃ x ∈ l, f x = some false) → l.allM f = some false := by
  intro l
  induction l with
  | nil =>
    rintro _ ⟨x, hx, -⟩
    simp at hx
  | cons hd tl ih =>
    rintro htot ⟨x, hx, hfx⟩
    obtain ⟨b, hb⟩ := htot hd (List.mem_cons_self _ _)
    show (f hd >>= fun b => match b with
      | true => tl.allM f
      | false => pure false) = some false
    rw [hb]
    cases b with
    | false => rfl
    | true =>
      rcases List.mem_cons.mp hx with rfl | hx'
      · rw [hb] at hfx
        injection hfx with h
        cases h
      · exact ih (fun y hy => htot y (List.mem_cons_of_mem _ hy)) ⟨x, hx', hfx⟩

/-- Claim C3: in the move-elimination pass, a Unary(Mov) node with
exactly one incoming edge first has that edge's view composed with the
try_from_reshape view match when one exists; it is then deleted and its
outgoing edges rewired from its source through the composed view exactly
when every outgoing edge's target is not an Output node and can absorb
the composed view (can_view_through, passed the source op's can_reshape
flag); otherwise only the view update persists.  A Mov node with zero
incoming edges is left in the graph unchanged. -/
theorem c3_eliminate_moves {V : Type} (co : CommonOps V) (g : OpGraph V)
    (n : Nat) (nd : OpNode)
    (hn : g.node n = some nd)
    (hmov : nd.op = Op.Unary UnaryOp.Mov)
    (hwf : g.Wf) :
    (g.edges_in n = [] → eliminate_moves_step co g n = some g) ∧
    (∀ in_edge_id e, g.edges_in n = [(in_edge_id, e)] → e.weight.arg = 0 →
      ∀ view1, view1 = (match co.try_from_reshape (co.output_shape e.weight.view) nd.shape with
          | some view_match => co.through e.weight.view view_match false
          | none => e.weight.view) →
      ∀ g1, g1 = g.upd_edge in_edge_id (fun w => { w with view := view1 }) →
      ∀ src_nd, g.node e.src = some src_nd →
      ((∀ q ∈ g1.edges_out n, ∃ dnd, g1.node q.2.dst = some dnd ∧
          dnd.op.output_parameter_id = none ∧
          co.can_view_through view1 q.2.weight.view (co.can_reshape src_nd.op) = true) →
        eliminate_moves_step co g n = some
          (((g1.edges_out n).foldl (fun h q =>
              (h.add_edge e.src q.2.dst
                ⟨q.2.weight.arg, co.through view1 q.2.weight.view
                  (co.can_reshape src_nd.op)⟩).1) g1).remove_node n)) ∧
      ((∃ q ∈ g1.edges_out n, ∀ dnd, g1.node q.2.dst = some dnd →
          ¬(dnd.op.output_parameter_id = none ∧
            co.can_view_through view1 q.2.weight.view (co.can_reshape src_nd.op) = true)) →
        eliminate_moves_step co g n = some g1)) := by
  obtain ⟨hkn, hke, hnup, heup, hep⟩ := hwf
  constructor
  · intro hnil
    unfold eliminate_moves_step
    rw [hn]
    simp only [Option.some_bind, Option.bind_some, bind, Option.bind]
    rw [hmov, if_pos rfl, hnil]
  · intro in_edge_id e hlist harg view1 hview1 g1 hg1 src_nd hsrc
    have hsrc1 : g1.node e.src = some src_nd := by rw [hg1]; exact hsrc
    have hstep_pre : eliminate_moves_step co g n = (do
        let can_elim ← (g1.edges_out n).allM (fun q => do
          let dnd ← g1.node q.2.dst
          pure ((dnd.op.output_parameter_id).isNone &&
            co.can_view_through view1 q.2.weight.view (co.can_reshape src_nd.op)))
        if can_elim then do
          guard ((g1.edges_out n).length = 0 ∨ e.weight.arg = 0)
          let g2 := (g1.edges_out n).foldl (fun h q =>
            (h.add_edge e.src q.2.dst
              ⟨q.2.weight.arg, co.through view1 q.2.weight.view
                (co.can_reshape src_nd.op)⟩).1) g1
          some (g2.remove_node n)
        else
          some g1) := by
      unfold eliminate_moves_step
      rw [hn]
      simp only [Option.some_bind, Option.bind_some, bind, Option.bind]
      rw [hmov, if_pos rfl]
      simp only [hlist]
      rw [← hview1, ← hg1, hsrc1]
    constructor
    · intro hall
      rw [hstep_pre]
      have hallM : (g1.edges_out n).allM (fun q => do
          let dnd ← g1.node q.2.dst
          pure ((dnd.op.output_parameter_id).isNone &&
            co.can_view_through view1 q.2.weight.view (co.can_reshape src_nd.op))) =
          some true := by
        apply allM_option_eq_true
        intro q hq
        obtain ⟨dnd, hdnd, hout, hcvt⟩ := hall q hq
        rw [hdnd]
        show some ((dnd.op.output_parameter_id).isNone &&
          co.can_view_through view1 q.2.weight.view (co.can_reshape src_nd.op)) = some true
        rw [hout, hcvt]
        rfl
      rw [hallM]
      simp only [Option.some_bind, Option.bind_some, bind, Option.bind, guard]
      rw [if_pos (Or.inr harg)]
      rfl
    · intro hex
      rw [hstep_pre]
      have hdst_some : ∀ q ∈ g1.edges_out n, ∃ dnd, g1.node q.2.dst = some dnd := by
        intro q hq
        have h2 : q ∈ g1.edges := List.mem_of_mem_filter hq
        rw [hg1] at h2
        obtain ⟨p, hp, -, hdst'⟩ := g.upd_edge_mem in_edge_id _ h2
        obtain ⟨-, hdstSome⟩ := hep p hp
        obtain ⟨dnd, hdnd⟩ := Option.isSome_iff_exists.mp hdstSome
        refine ⟨dnd, ?_⟩
        have : g1.node q.2.dst = g.node q.2.dst := by rw [hg1]; rfl
        rw [this, hdst']
        exact hdnd
      have htot : ∀ q ∈ g1.edges_out n, ∃ b, (do
          let dnd ← g1.node q.2.dst
          pure ((dnd.op.output_parameter_id).isNone &&
            co.can_view_through view1 q.2.weight.view (co.can_reshape src_nd.op))) =
          some b := by
        intro q hq
        obtain ⟨dnd, hdnd⟩ := hdst_some q hq
        exact ⟨_, by rw [hdnd]; rfl⟩
      obtain ⟨q0, hq0, hneg⟩ := hex
      obtain ⟨dnd0, hdnd0⟩ := hdst_some q0 hq0
      have hfq0 : (do
          let dnd ← g1.node q0.2.dst
          pure ((dnd.op.output_parameter_id).isNone &&
            co.can_view_through view1 q0.2.weight.view (co.can_reshape src_nd.op))) =
          some false := by
        rw [hdnd0]
        show some ((dnd0.op.output_parameter_id).isNone &&
          co.can_view_through view1 q0.2.weight.view (co.can_reshape src_nd.op)) = some false
        have hfalse : ((dnd0.op.output_parameter_id).isNone &&
            co.can_view_through view1 q0.2.weight.view (co.can_reshape src_nd.op)) =
            false := by
          by_contra hb
          have hb2 : ((dnd0.op.output_parameter_id).isNone &&
              co.can_view_through view1 q0.2.weight.view (co.can_reshape src_nd.op)) =
              true := by
            cases hx : ((dnd0.op.output_parameter_id).isNone &&
                co.can_view_through view1 q0.2.weight.view (co.can_reshape src_nd.op))
            · exact absurd hx hb
            · rfl
          rw [Bool.and_eq_true] at hb2
          exact hneg dnd0 hdnd0 ⟨Option.isNone_iff_eq_none.mp hb2.1, hb2.2⟩
        rw [hfalse]
      have hallM := allM_option_exists_false _ (g1.edges_out n) htot ⟨q0, hq0, hfq0⟩
      rw [hallM]
      simp

/-- Witness for claim C3: the move-elimination step at the Mov node 1 of
the concrete graph exG3 (Input → Mov → Neg). -/
theorem c3_eliminate_moves_witness :
    (exG3.node 1 = some ⟨0, [2], Op.Unary UnaryOp.Mov, none⟩ ∧ exG3.Wf) ∧
    ((exG3.edges_in 1 = [] → eliminate_moves_step CommonOps.model exG3 1 = some exG3) ∧
     (∀ in_edge_id e, exG3.edges_in 1 = [(in_edge_id, e)] → e.weight.arg = 0 →
       ∀ view1, view1 = (match CommonOps.model.try_from_reshape
            (CommonOps.model.output_shape e.weight.view)
            (⟨0, [2], Op.Unary UnaryOp.Mov, none⟩ : OpNode).shape with
          | some view_match => CommonOps.model.through e.weight.view view_match false
          | none => e.weight.view) →
       ∀ g1, g1 = exG3.upd_edge in_edge_id (fun w => { w with view := view1 }) →
       ∀ src_nd, exG3.node e.src = some src_nd →
       ((∀ q ∈ g1.edges_out 1, ∃ dnd, g1.node q.2.dst = some dnd ∧
           dnd.op.output_parameter_id = none ∧
           CommonOps.model.can_view_through view1 q.2.weight.view
             (CommonOps.model.can_reshape src_nd.op) = true) →
         eliminate_moves_step CommonOps.model exG3 1 = some
           (((g1.edges_out 1).foldl (fun h q =>
               (h.add_edge e.src q.2.dst
                 ⟨q.2.weight.arg, CommonOps.model.through view1 q.2.weight.view
                   (CommonOps.model.can_reshape src_nd.op)⟩).1) g1).remove_node 1)) ∧
       ((∃ q ∈ g1.edges_out 1, ∀ dnd, g1.node q.2.dst = some dnd →
           ¬(dnd.op.output_parameter_id = none ∧
             CommonOps.model.can_view_through view1 q.2.weight.view
               (CommonOps.model.can_reshape src_nd.op) = true)) →
         eliminate_moves_step CommonOps.model exG3 1 = some g1))) :=
  ⟨⟨by decide, by decide⟩,
   c3_eliminate_moves CommonOps.model exG3 1 ⟨0, [2], Op.Unary UnaryOp.Mov, none⟩
     (by decide) rfl (by decide)⟩

theorem countP_split {α : Type} (l : List α) (p q : α → Bool) :
    l.countP p = l.countP (fun a => p a && q a) + l.countP (fun a => p a && !q a) := by
  induction l with
  | nil => rfl
  | cons hd tl ih =>
    rw [List.countP_cons, List.countP_cons, List.countP_cons]
    cases hp : p hd <;> cases hq : q hd <;> simp [hp, hq] <;> omega

theorem upd_edge_countP {V : Type} (g : OpGraph V) (eid : Nat)
    (fn : OpEdge V → OpEdge V) (P : Nat × Nat → Bool) :
    (g.upd_edge eid fn).edges.countP (fun p => P (p.2.src, p.2.dst)) =
      g.edges.countP (fun p => P (p.2.src, p.2.dst)) := by
  show (g.edges.map _).countP _ = _
  rw [List.countP_map]
  apply List.countP_congr
  intro p hp
  by_cases h : (p.1 == eid) = true <;> simp [Function.comp, h]

theorem foldl_add_edge_nodes {V : Type} (a : Nat) (w : Nat × EdgeRec V → OpEdge V) :
    ∀ (l : List (Nat × EdgeRec V)) (h : OpGraph V),
      (l.foldl (fun h x => (h.add_edge a x.2.dst (w x)).1) h).nodes = h.nodes := by
  intro l
  induction l with
  | nil => intro h; rfl
  | cons x tl ih => intro h; exact ih _

theorem foldl_add_edge_countP {V : Type} (a : Nat) (w : Nat × EdgeRec V → OpEdge V)
    (P : Nat × Nat → Bool) :
    ∀ (l : List (Nat × EdgeRec V)) (h : OpGraph V),
      ((l.foldl (fun h x => (h.add_edge a x.2.dst (w x)).1) h).edges.countP
        (fun p => P (p.2.src, p.2.dst))) =
      h.edges.countP (fun p => P (p.2.src, p.2.dst)) +
        l.countP (fun x => P (a, x.2.dst)) := by
  intro l
  induction l with
  | nil => intro h; simp
  | cons x tl ih =>
    intro h
    have hstep : ((x :: tl).foldl (fun h x => (h.add_edge a x.2.dst (w x)).1) h) =
        tl.foldl (fun h x => (h.add_edge a x.2.dst (w x)).1)
          ((h.add_edge a x.2.dst (w x)).1) := rfl
    rw [hstep, ih]
    have hedges : ((h.add_edge a x.2.dst (w x)).1).edges =
        h.edges ++ [(h.next_edge_id, ⟨a, x.2.dst, w x⟩)] := rfl
    rw [hedges, List.countP_append, List.countP_cons, List.countP_cons]
    cases hP : P (a, x.2.dst) <;> simp [hP] <;> omega

theorem foldl_add_edge_mem {V : Type} (a : Nat) (w : Nat × EdgeRec V → OpEdge V) :
    ∀ (l : List (Nat × EdgeRec V)) (h : OpGraph V) (q : Nat × EdgeRec V),
      q ∈ (l.foldl (fun h x => (h.add_edge a x.2.dst (w x)).1) h).edges →
      q ∈ h.edges ∨ ∃ x ∈ l, q.2.src = a ∧ q.2.dst = x.2.dst := by
  intro l
  induction l with
  | nil => intro h q hq; exact Or.inl hq
  | cons x tl ih =>
    intro h q hq
    rcases ih _ q hq with h1 | ⟨y, hy, h2⟩
    · rcases List.mem_append.mp h1 with h2 | h2
      · exact Or.inl h2
      · rcases List.mem_singleton.mp h2 with rfl
        exact Or.inr ⟨x, List.mem_cons_self _ _, rfl, rfl⟩
    · exact Or.inr ⟨y, List.mem_cons_of_mem _ hy, h2⟩

theorem eliminate_moves_step_preserves {V : Type} (co : CommonOps V) (g : OpGraph V)
    (τ : List Nat) (m n : Nat) (hmn : m ≠ n)
    (hfwd : EdgesForward g τ)
    {gx : OpGraph V} (hstep : eliminate_moves_step co g m = some gx) :
    gx.node n = g.node n ∧
    gx.edges.countP (fun p => p.2.dst == n) = g.edges.countP (fun p => p.2.dst == n) ∧
    EdgesForward gx τ := by
  cases hnode : g.node m with
  | none =>
    unfold eliminate_moves_step at hstep
    rw [hnode] at hstep
    simp at hstep
  | some nd =>
    by_cases hmov : nd.op = Op.Unary UnaryOp.Mov
    · cases hlist : g.edges_in m with
      | nil =>
        have heq : eliminate_moves_step co g m = some g := by
          unfold eliminate_moves_step
          rw [hnode]
          simp only [Option.some_bind, Option.bind_some, bind, Option.bind]
          rw [hmov, if_pos rfl, hlist]
        rw [heq] at hstep
        injection hstep with h
        subst h
        exact ⟨rfl, rfl, hfwd⟩
      | cons p1 tl =>
        cases tl with
        | cons p2 tl2 =>
          have heq : eliminate_moves_step co g m = none := by
            unfold eliminate_moves_step
            rw [hnode]
            simp only [Option.some_bind, Option.bind_some, bind, Option.bind]
            rw [hmov, if_pos rfl, hlist]
          rw [heq] at hstep
          exact Option.noConfusion hstep
        | nil =>
          obtain ⟨in_edge_id, e⟩ := p1
          have hmem1 : (in_edge_id, e) ∈ g.edges_in m := by
            rw [hlist]
            exact List.mem_singleton.mpr rfl
          have hin_edges : (in_edge_id, e) ∈ g.edges := g.mem_of_mem_edges_in m hmem1
          have hedst : e.dst = m := g.dst_of_mem_edges_in m hmem1
          have hsrclt : τ.indexOf e.src < τ.indexOf m := by
            have h := hfwd (in_edge_id, e) hin_edges
            rwa [hedst] at h
          have hesm : e.src ≠ m := by
            intro hEq
            rw [hEq] at hsrclt
            exact lt_irrefl _ hsrclt
          obtain ⟨view1, hview1⟩ : ∃ v, v = (match co.try_from_reshape
              (co.output_shape e.weight.view) nd.shape with
            | some view_match => co.through e.weight.view view_match false
            | none => e.weight.view) := ⟨_, rfl⟩
          obtain ⟨g1, hg1⟩ : ∃ h, h = g.upd_edge in_edge_id
              (fun w => { w with view := view1 }) := ⟨_, rfl⟩
          have hg1nodes : g1.nodes = g.nodes := by
            rw [hg1]
            rfl
          have hg1node : ∀ x, g1.node x = g.node x := by
            intro x
            rw [hg1]
            rfl
          have hg1count : g1.edges.countP (fun p => p.2.dst == n) =
              g.edges.countP (fun p => p.2.dst == n) := by
            rw [hg1]
            exact upd_edge_countP g in_edge_id _ (fun x => x.2 == n)
          have hg1fwd : EdgesForward g1 τ := by
            intro p hp
            rw [hg1] at hp
            obtain ⟨p', hp', hs', hd'⟩ := g.upd_edge_mem in_edge_id _ hp
            rw [hs', hd']
            exact hfwd p' hp'
          cases hsrc : g1.node e.src with
          | none =>
            have heq : eliminate_moves_step co g m = none := by
              unfold eliminate_moves_step
              rw [hnode]
              simp only [Option.some_bind, Option.bind_some, bind, Option.bind]
              rw [hmov, if_pos rfl]
              simp only [hlist]
              rw [← hview1, ← hg1, hsrc]
            rw [heq] at hstep
            exact Option.noConfusion hstep
          | some src_nd =>
            have hstep_pre : eliminate_moves_step co g m = (do
                let can_elim ← (g1.edges_out m).allM (fun q => do
                  let dnd ← g1.node q.2.dst
                  pure ((dnd.op.output_parameter_id).isNone &&
                    co.can_view_through view1 q.2.weight.view (co.can_reshape src_nd.op)))
                if can_elim then do
                  guard ((g1.edges_out m).length = 0 ∨ e.weight.arg = 0)
                  let g2 := (g1.edges_out m).foldl (fun h q =>
                    (h.add_edge e.src q.2.dst
                      ⟨q.2.weight.arg, co.through view1 q.2.weight.view
                        (co.can_reshape src_nd.op)⟩).1) g1
                  some (g2.remove_node m)
                else
                  some g1) := by
              unfold eliminate_moves_step
              rw [hnode]
              simp only [Option.some_bind, Option.bind_some, bind, Option.bind]
              rw [hmov, if_pos rfl]
              simp only [hlist]
              rw [← hview1, ← hg1, hsrc]
            rw [hstep_pre] at hstep
            cases hallm : (g1.edges_out m).allM (fun q => do
                let dnd ← g1.node q.2.dst
                pure ((dnd.op.output_parameter_id).isNone &&
                  co.can_view_through view1 q.2.weight.view (co.can_reshape src_nd.op))) with
            | none =>
              rw [hallm] at hstep
              simp at hstep
            | some can_elim =>
              rw [hallm] at hstep
              simp only [Option.some_bind, bind, Option.bind] at hstep
              cases can_elim with
              | false =>
                rw [if_neg Bool.false_ne_true] at hstep
                injection hstep with h
                subst h
                exact ⟨hg1node n, hg1count, hg1fwd⟩
              | true =>
                rw [if_pos rfl] at hstep
                by_cases hguard : ((g1.edges_out m).length = 0 ∨ e.weight.arg = 0)
                · simp only [guard] at hstep
                  rw [if_pos hguard] at hstep
                  simp at hstep
                  obtain ⟨gF, hgF⟩ : ∃ h, h = (g1.edges_out m).foldl (fun h q =>
                      (h.add_edge e.src q.2.dst
                        ⟨q.2.weight.arg, co.through view1 q.2.weight.view
                          (co.can_reshape src_nd.op)⟩).1) g1 := ⟨_, rfl⟩
                  rw [← hgF] at hstep
                  subst hstep
                  have hFnodes : gF.nodes = g1.nodes := by
                    rw [hgF]
                    exact foldl_add_edge_nodes e.src
                      (fun q => ⟨q.2.weight.arg, co.through view1 q.2.weight.view
                        (co.can_reshape src_nd.op)⟩) (g1.edges_out m) g1
                  have hFcount : gF.edges.countP
                        (fun p => (p.2.dst == n) && !(p.2.src == m))
                      = g1.edges.countP (fun p => (p.2.dst == n) && !(p.2.src == m))
                        + (g1.edges_out m).countP
                            (fun x => (x.2.dst == n) && !(e.src == m)) := by
                    rw [hgF]
                    exact foldl_add_edge_countP e.src
                      (fun q => ⟨q.2.weight.arg, co.through view1 q.2.weight.view
                        (co.can_reshape src_nd.op)⟩)
                      (fun x => (x.2 == n) && !(x.1 == m)) (g1.edges_out m) g1
                  have hesmb : (e.src == m) = false := beq_eq_false_iff_ne.mpr hesm
                  have hLcount : (g1.edges_out m).countP
                        (fun x => (x.2.dst == n) && !(e.src == m))
                      = (g1.edges_out m).countP (fun x => x.2.dst == n) := by
                    apply List.countP_congr
                    intro x hx2
                    rw [hesmb]
                    simp
                  have hC : (g1.edges_out m).countP (fun x => x.2.dst == n)
                      = g1.edges.countP (fun p => (p.2.dst == n) && (p.2.src == m)) := by
                    show ((g1.edges.filter (fun p => p.2.src == m)).countP
                      (fun x => x.2.dst == n)) = _
                    rw [List.countP_filter]
                  have hD : g1.edges.countP (fun p => p.2.dst == n)
                      = g1.edges.countP (fun p => (p.2.dst == n) && (p.2.src == m))
                        + g1.edges.countP (fun p => (p.2.dst == n) && !(p.2.src == m)) :=
                    countP_split g1.edges (fun p => p.2.dst == n) (fun p => p.2.src == m)
                  refine ⟨?_, ?_, ?_⟩
                  · rw [OpGraph.node_remove_node gF m n (Ne.symm hmn)]
                    have hFn : gF.node n = g1.node n := by
                      show alist_get gF.nodes n = alist_get g1.nodes n
                      rw [hFnodes]
                    rw [hFn]
                    exact hg1node n
                  · have h0 : (gF.remove_node m).edges.countP (fun p => p.2.dst == n)
                        = gF.edges.countP (fun p =>
                            (p.2.dst == n) && ((p.2.src != m) && (p.2.dst != m))) := by
                      show (gF.edges.filter (fun p => p.2.src != m && p.2.dst != m)).countP
                        (fun p => p.2.dst == n) = _
                      rw [List.countP_filter]
                    have hcongr : ∀ p : Nat × EdgeRec V,
                        ((p.2.dst == n) && ((p.2.src != m) && (p.2.dst != m)))
                          = ((p.2.dst == n) && !(p.2.src == m)) := by
                      intro p
                      cases hpd : (p.2.dst == n) with
                      | false => simp [hpd]
                      | true =>
                        have hd2 : p.2.dst = n := by simpa using hpd
                        have hdm : (p.2.dst == m) = false :=
                          beq_eq_false_iff_ne.mpr (by rw [hd2]; exact Ne.symm hmn)
                        simp [hpd, hdm, bne]
                    have h1 : gF.edges.countP (fun p =>
                          (p.2.dst == n) && ((p.2.src != m) && (p.2.dst != m)))
                        = gF.edges.countP (fun p => (p.2.dst == n) && !(p.2.src == m)) :=
                      List.countP_congr (fun p _ => by rw [hcongr p])
                    omega
                  · intro p hp
                    have hp0 : p ∈ gF.edges.filter
                        (fun x => x.2.src != m && x.2.dst != m) := hp
                    have hp1 : p ∈ gF.edges := List.mem_of_mem_filter hp0
                    rw [hgF] at hp1
                    rcases foldl_add_edge_mem e.src
                        (fun q => ⟨q.2.weight.arg, co.through view1 q.2.weight.view
                          (co.can_reshape src_nd.op)⟩) (g1.edges_out m) g1 p hp1 with
                      hold | ⟨x, hxL, hs, hd⟩
                    · exact hg1fwd p hold
                    · have hxL0 : x ∈ g1.edges.filter (fun q => q.2.src == m) := hxL
                      have hxsrc : x.2.src = m := by
                        have := (List.mem_filter.mp hxL0).2
                        simpa using this
                      have hxe : x ∈ g1.edges := List.mem_of_mem_filter hxL0
                      have hlt2 : τ.indexOf m < τ.indexOf x.2.dst := by
                        have h3 := hg1fwd x hxe
                        rw [hxsrc] at h3
                        exact h3
                      rw [hs, hd]
                      exact lt_trans hsrclt hlt2
                · simp only [guard] at hstep
                  rw [if_neg hguard] at hstep
                  have hfail : (failure : Option Unit) = none := rfl
                  rw [hfail] at hstep
                  simp at hstep
    · have heq : eliminate_moves_step co g m = some g := by
        unfold eliminate_moves_step
        rw [hnode]
        simp only [Option.some_bind, Option.bind_some, bind, Option.bind]
        rw [if_neg hmov]
      rw [heq] at hstep
      injection hstep with h
      subst h
      exact ⟨rfl, rfl, hfwd⟩

theorem eliminate_moves_aborts_aux {V : Type} (co : CommonOps V) (τ : List Nat) :
    ∀ (r : List Nat) (g : OpGraph V) (n : Nat) (nd : OpNode),
      EdgesForward g τ → n ∈ r →
      g.node n = some nd → nd.op = Op.Unary UnaryOp.Mov →
      2 ≤ g.edges.countP (fun p => p.2.dst == n) →
      eliminate_moves co g r = none := by
  intro r
  induction r with
  | nil =>
    intro g n nd _ hmem _ _ _
    exact absurd hmem (List.not_mem_nil n)
  | cons m rest ih =>
    intro g n nd hfwd hmem hnode hmov hge
    show (eliminate_moves_step co g m >>=
      fun gy => rest.foldlM (eliminate_moves_step co) gy) = none
    by_cases hmn : m = n
    · subst hmn
      have hstepnone : eliminate_moves_step co g m = none := by
        unfold eliminate_moves_step
        rw [hnode]
        simp only [Option.some_bind, Option.bind_some, bind, Option.bind]
        rw [hmov, if_pos rfl]
        have hlen : 2 ≤ (g.edges_in m).length := by
          have hl2 : (g.edges_in m).length =
              g.edges.countP (fun p => p.2.dst == m) := by
            show (g.edges.filter (fun p => p.2.dst == m)).length = _
            exact (List.countP_eq_length_filter _ _).symm
          omega
        rcases hl : g.edges_in m with _ | ⟨p1, _ | ⟨p2, t⟩⟩
        · rw [hl] at hlen
          simp at hlen
        · rw [hl] at hlen
          simp at hlen
        · rfl
      rw [hstepnone]
      rfl
    · cases hstep : eliminate_moves_step co g m with
      | none => rfl
      | some gy =>
        show rest.foldlM (eliminate_moves_step co) gy = none
        obtain ⟨hn2, hc2, hf2⟩ := eliminate_moves_step_preserves co g τ m n hmn hfwd hstep
        have hmem2 : n ∈ rest := by
          rcases List.mem_cons.mp hmem with h | h
          · exact absurd h.symm hmn
          · exact h
        exact ih gy n nd hf2 hmem2 (hn2.trans hnode) hmov (by rw [hc2]; exact hge)

/-- Claim C8: the move-elimination pass aborts fatally when it observes an
impossible state — a Unary(Mov) node with more than one incoming edge in
the order being processed.  The pass produces no result graph (the error
is not swallowed and processing does not continue past the offending
node). -/
theorem c8_eliminate_moves_aborts {V : Type} (co : CommonOps V) (g : OpGraph V)
    (ord : List Nat) (n : Nat) (nd : OpNode)
    (htopo : isTopoOrder g ord)
    (hnode : g.node n = some nd)
    (hmov : nd.op = Op.Unary UnaryOp.Mov)
    (hge : 2 ≤ (g.edges_in n).length) :
    eliminate_moves co g ord = none := by
  obtain ⟨-, -, hcov, hfwd⟩ := htopo
  have hmem : n ∈ ord := hcov (n, nd) (g.mem_nodes_of_node hnode)
  have hge2 : 2 ≤ g.edges.countP (fun p => p.2.dst == n) := by
    have hl2 : (g.edges_in n).length = g.edges.countP (fun p => p.2.dst == n) := by
      show (g.edges.filter (fun p => p.2.dst == n)).length = _
      exact (List.countP_eq_length_filter _ _).symm
    omega
  exact eliminate_moves_aborts_aux co ord ord g n nd hfwd hmem hnode hmov hge2

/-- Witness for claim C8: on the concrete graph exG4, whose Mov node 2 has
two incoming edges, move elimination along the topological order [0, 1, 2]
aborts. -/
theorem c8_eliminate_moves_aborts_witness :
    (isTopoOrder exG4 [0, 1, 2] ∧
      exG4.node 2 = some ⟨0, [1], Op.Unary UnaryOp.Mov, none⟩ ∧
      2 ≤ (exG4.edges_in 2).length) ∧
    eliminate_moves CommonOps.model exG4 [0, 1, 2] = none :=
  ⟨⟨by decide, by decide, by decide⟩,
   c8_eliminate_moves_aborts CommonOps.model exG4 [0, 1, 2] 2
     ⟨0, [1], Op.Unary UnaryOp.Mov, none⟩ (by decide) (by decide) rfl (by decide)⟩

theorem alist_get_of_mem_nodup {β : Type} (l : List (Nat × β))
    (hnup : (l.map Prod.fst).Nodup) {k : Nat} {v : β}
    (h : (k, v) ∈ l) : alist_get l k = some v := by
  unfold alist_get
  rcases hfind : l.find? (fun p => p.1 == k) with _ | q
  · rw [List.find?_eq_none] at hfind
    have := hfind _ h
    simp at this
  · have hq : q ∈ l := List.mem_of_find?_eq_some hfind
    have hqx : q.1 = k := by simpa using List.find?_some hfind
    have heq : (k, v) = q :=
      List.inj_on_of_nodup_map hnup h hq (by simp [hqx])
    rw [hfind, ← heq]
    rfl

theorem get_arg_edge_ids_two {V : Type} (g : OpGraph V) (n i0 i1 s0 s1 d0 d1 : Nat)
    (v0 v1 : V)
    (hlist : g.edges_in n = [(i0, ⟨s0, d0, ⟨0, v0⟩⟩), (i1, ⟨s1, d1, ⟨1, v1⟩⟩)]) :
    get_arg_edge_ids g n = some [i0, i1] := by
  unfold get_arg_edge_ids
  rw [hlist]
  rfl

/-- Claim C5: in the arithmetic-simplification pass, (i) whenever the node
loop introduced a Mov, move elimination is re-run on the result; (ii) a
Binary Mul/Add/UMul/UAdd node whose two argument edges come from a
non-identity source (arg 0) and the matching identity literal (arg 1) has
the literal edge removed and is converted to Unary(Mov) keeping the other
input at argument 0 — and symmetrically when the identity literal feeds
arg 0, the other input is reassigned to argument 0; (iii) consequently, on
the concrete graphs computing Neg(x * 1.0) and Neg(x + 0.0), the optimized
graph feeds x directly to the consumer (x * 1.0 == x, x + 0.0 == x). -/
theorem c5_simplify_arithmetic {V : Type} (co : CommonOps V) :
    (∀ (g : OpGraph V) (ord : List Nat) (g2 : OpGraph V),
      simplify_arithmetic_fold g ord = some (g2, true) →
      simplify_arithmetic co g ord = eliminate_moves co g2 ord) ∧
    (∀ (g : OpGraph V) (n : Nat) (nd : OpNode) (lit : Lit)
      (i0 i1 s0 s1 d0 d1 : Nat) (v0 v1 : V) (nd1 : OpNode),
      g.Wf →
      g.node n = some nd →
      skip_lit nd.op = some lit →
      g.edges_in n = [(i0, ⟨s0, d0, ⟨0, v0⟩⟩), (i1, ⟨s1, d1, ⟨1, v1⟩⟩)] →
      (∃ nd0, g.node s0 = some nd0 ∧ nd0.op ≠ Op.Literal lit) →
      g.node s1 = some nd1 →
      nd1.op = Op.Literal lit →
      simplify_arithmetic_step g n =
        some (((g.upd_node n (fun x => { x with op := Op.Unary UnaryOp.Mov })).upd_edge i0
            (fun w => { w with arg := 0 })).remove_edge i1, true)) ∧
    (∀ (g : OpGraph V) (n : Nat) (nd : OpNode) (lit : Lit)
      (i0 i1 s0 s1 d0 d1 : Nat) (v0 v1 : V) (nd0 : OpNode),
      g.Wf →
      g.node n = some nd →
      skip_lit nd.op = some lit →
      g.edges_in n = [(i0, ⟨s0, d0, ⟨0, v0⟩⟩), (i1, ⟨s1, d1, ⟨1, v1⟩⟩)] →
      g.node s0 = some nd0 →
      nd0.op = Op.Literal lit →
      simplify_arithmetic_step g n =
        some (((g.remove_edge i0).upd_node n
            (fun x => { x with op := Op.Unary UnaryOp.Mov })).upd_edge i1
            (fun w => { w with arg := 0 }), true)) ∧
    (simplify_arithmetic CommonOps.model exG5 [0, 1, 2, 3] = some exG5opt ∧
     simplify_arithmetic CommonOps.model exG6 [0, 1, 2, 3] = some exG6opt) := by
  refine ⟨?_, ?_, ?_, by decide, by decide⟩
  · intro g ord g2 hfoldrun
    unfold simplify_arithmetic
    rw [hfoldrun]
    rfl
  · intro g n nd lit i0 i1 s0 s1 d0 d1 v0 v1 nd1 hwf hn hskip hlist hex0 hsrc1 hlit1
    obtain ⟨nd0, hsrc0, hnot0⟩ := hex0
    obtain ⟨-, -, -, henup, -⟩ := hwf
    have hm0 : (i0, (⟨s0, d0, ⟨0, v0⟩⟩ : EdgeRec V)) ∈ g.edges := by
      apply g.mem_of_mem_edges_in n
      rw [hlist]
      exact List.mem_cons_self _ _
    have hm1 : (i1, (⟨s1, d1, ⟨1, v1⟩⟩ : EdgeRec V)) ∈ g.edges := by
      apply g.mem_of_mem_edges_in n
      rw [hlist]
      exact List.mem_cons_of_mem _ (List.mem_cons_self _ _)
    have he0 : alist_get g.edges i0 = some ⟨s0, d0, ⟨0, v0⟩⟩ :=
      alist_get_of_mem_nodup g.edges henup hm0
    have he1 : alist_get g.edges i1 = some ⟨s1, d1, ⟨1, v1⟩⟩ :=
      alist_get_of_mem_nodup g.edges henup hm1
    have hne01 : i0 ≠ i1 := by
      intro hEq
      subst hEq
      rw [he0] at he1
      injection he1 with h
      have : (0 : Nat) = 1 := congrArg (fun r => r.weight.arg) h
      omega
    have hargids : get_arg_edge_ids g n = some [i0, i1] :=
      get_arg_edge_ids_two g n i0 i1 s0 s1 d0 d1 v0 v1 hlist
    have hfind : find_skip_edge g lit [i0, i1] = some (some i1) := by
      simp only [find_skip_edge, he0, he1, Option.some_bind, bind, Option.bind,
        hsrc0, hsrc1]
      rw [if_neg hnot0, if_pos hlit1]
      rfl
    have hfold : [i0, i1].foldl (fun h eid =>
        if eid = i1 then h.remove_edge eid
        else (h.upd_node n (fun x => { x with op := Op.Unary UnaryOp.Mov })).upd_edge eid
          (fun w => { w with arg := 0 })) g
      = ((g.upd_node n (fun x => { x with op := Op.Unary UnaryOp.Mov })).upd_edge i0
          (fun w => { w with arg := 0 })).remove_edge i1 := by
      rw [List.foldl_cons, List.foldl_cons, List.foldl_nil]
      rw [if_neg hne01, if_pos rfl]
    unfold simplify_arithmetic_step
    rw [hn]
    simp only [Option.some_bind, bind, Option.bind]
    simp only [hskip]
    rw [hargids]
    simp only [Option.some_bind, bind, Option.bind]
    rw [hfind]
    simp only [Option.some_bind, bind, Option.bind]
    rw [hfold]
  · intro g n nd lit i0 i1 s0 s1 d0 d1 v0 v1 nd0 hwf hn hskip hlist hsrc0 hlit0
    obtain ⟨-, -, -, henup, -⟩ := hwf
    have hm0 : (i0, (⟨s0, d0, ⟨0, v0⟩⟩ : EdgeRec V)) ∈ g.edges := by
      apply g.mem_of_mem_edges_in n
      rw [hlist]
      exact List.mem_cons_self _ _
    have hm1 : (i1, (⟨s1, d1, ⟨1, v1⟩⟩ : EdgeRec V)) ∈ g.edges := by
      apply g.mem_of_mem_edges_in n
      rw [hlist]
      exact List.mem_cons_of_mem _ (List.mem_cons_self _ _)
    have he0 : alist_get g.edges i0 = some ⟨s0, d0, ⟨0, v0⟩⟩ :=
      alist_get_of_mem_nodup g.edges henup hm0
    have he1 : alist_get g.edges i1 = some ⟨s1, d1, ⟨1, v1⟩⟩ :=
      alist_get_of_mem_nodup g.edges henup hm1
    have hne01 : i0 ≠ i1 := by
      intro hEq
      subst hEq
      rw [he0] at he1
      injection he1 with h
      have : (0 : Nat) = 1 := congrArg (fun r => r.weight.arg) h
      omega
    have hargids : get_arg_edge_ids g n = some [i0, i1] :=
      get_arg_edge_ids_two g n i0 i1 s0 s1 d0 d1 v0 v1 hlist
    have hfind : find_skip_edge g lit [i0, i1] = some (some i0) := by
      simp only [find_skip_edge, he0, Option.some_bind, bind, Option.bind, hsrc0]
      rw [if_pos hlit0]
      rfl
    have hfold : [i0, i1].foldl (fun h eid =>
        if eid = i0 then h.remove_edge eid
        else (h.upd_node n (fun x => { x with op := Op.Unary UnaryOp.Mov })).upd_edge eid
          (fun w => { w with arg := 0 })) g
      = ((g.remove_edge i0).upd_node n
          (fun x => { x with op := Op.Unary UnaryOp.Mov })).upd_edge i1
          (fun w => { w with arg := 0 }) := by
      rw [List.foldl_cons, List.foldl_cons, List.foldl_nil]
      rw [if_pos rfl, if_neg (Ne.symm hne01)]
    unfold simplify_arithmetic_step
    rw [hn]
    simp only [Option.some_bind, bind, Option.bind]
    simp only [hskip]
    rw [hargids]
    simp only [Option.some_bind, bind, Option.bind]
    rw [hfind]
    simp only [Option.some_bind, bind, Option.bind]
    rw [hfold]

/-- Witness for claim C5: the simplification step at the Mul node 2 of the
concrete graph exG5 (whose arg-1 input is the literal 1.0). -/
theorem c5_simplify_arithmetic_witness :
    (exG5.Wf ∧ exG5.node 2 = some ⟨0, [2], Op.Binary BinaryOp.Mul, none⟩ ∧
      skip_lit (Op.Binary BinaryOp.Mul) = some (Lit.F32 1) ∧
      exG5.edges_in 2 = [(0, ⟨0, 2, ⟨0, [2]⟩⟩), (1, ⟨1, 2, ⟨1, [2]⟩⟩)] ∧
      exG5.node 1 = some ⟨0, [1], Op.Literal (Lit.F32 1), none⟩) ∧
    simplify_arithmetic_step exG5 2 =
      some (((exG5.upd_node 2 (fun x => { x with op := Op.Unary UnaryOp.Mov })).upd_edge 0
          (fun w => { w with arg := 0 })).remove_edge 1, true) :=
  ⟨⟨by decide, by decide, by decide, by decide, by decide⟩,
   (c5_simplify_arithmetic CommonOps.model).2.1 exG5 2
     ⟨0, [2], Op.Binary BinaryOp.Mul, none⟩ (Lit.F32 1) 0 1 0 1 2 2 [2] [2]
     ⟨0, [1], Op.Literal (Lit.F32 1), none⟩
     (by decide) (by decide) (by decide) (by decide)
     ⟨⟨0, [2], Op.Input 0, none⟩, by decide, by decide⟩ (by decide) (by decide)⟩

theorem alist_get_map_if {β : Type} (l : List (Nat × β)) (y : Nat) (f : β → β) (x : Nat) :
    alist_get (l.map (fun p => if p.1 == y then (p.1, f p.2) else p)) x
      = if x = y then (alist_get l y).map f else alist_get l x := by
  induction l with
  | nil =>
    by_cases hxy : x = y
    · rw [if_pos hxy]
      rfl
    · rw [if_neg hxy]
      rfl
  | cons hd tl ih =>
    simp only [List.map_cons]
    by_cases hk : (hd.1 == y) = true
    · rw [if_pos hk]
      have hky : hd.1 = y := by simpa using hk
      by_cases hx : (hd.1 == x) = true
      · have hkx : hd.1 = x := by simpa using hx
        have hxy : x = y := by rw [← hkx, hky]
        rw [if_pos hxy]
        unfold alist_get
        rw [List.find?_cons, List.find?_cons]
        simp only [hx, hk]
        rfl
      · have hxy : ¬(x = y) := by
          intro hEq
          exact hx (by simp [hky, hEq])
        rw [if_neg hxy]
        unfold alist_get
        rw [List.find?_cons, List.find?_cons]
        have hx2 : (hd.1 == x) = false := by simpa using hx
        simp only [hx2]
        have h3 := ih
        rw [if_neg hxy] at h3
        exact h3
    · rw [if_neg hk]
      have hky : ¬ hd.1 = y := by simpa using hk
      by_cases hx : (hd.1 == x) = true
      · have hkx : hd.1 = x := by simpa using hx
        have hxy : ¬(x = y) := by
          intro hEq
          exact hky (by rw [hkx, hEq])
        rw [if_neg hxy]
        unfold alist_get
        rw [List.find?_cons, List.find?_cons]
        simp only [hx]
      · have hx2 : (hd.1 == x) = false := by simpa using hx
        by_cases hxy : x = y
        · rw [if_pos hxy]
          unfold alist_get
          rw [List.find?_cons, List.find?_cons]
          have hy2 : (hd.1 == y) = false := by simpa using hk
          simp only [hx2, hy2]
          have h3 := ih
          rw [if_pos hxy] at h3
          exact h3
        · rw [if_neg hxy]
          unfold alist_get
          rw [List.find?_cons, List.find?_cons]
          simp only [hx2]
          have h3 := ih
          rw [if_neg hxy] at h3
          exact h3

theorem OpGraph.node_upd_node {V : Type} (g : OpGraph V) (y : Nat) (f : OpNode → OpNode)
    (x : Nat) : (g.upd_node y f).node x =
      if x = y then (g.node y).map f else g.node x :=
  alist_get_map_if g.nodes y f x

theorem strip_same_refl {V : Type} (g : OpGraph V) : StripSame g g := fun _ => rfl

theorem strip_same_trans {V : Type} {a b c : OpGraph V}
    (h1 : StripSame a b) (h2 : StripSame b c) : StripSame a c :=
  fun x => (h1 x).trans (h2 x)

theorem cluster_mono_refl {V : Type} (g : OpGraph V) : ClusterMono g g :=
  fun _ nd c h hc => ⟨nd, h, hc⟩

theorem cluster_mono_trans {V : Type} {a b c : OpGraph V}
    (h1 : ClusterMono a b) (h2 : ClusterMono b c) : ClusterMono a c := by
  intro x nd cc h hc
  obtain ⟨nd2, h2', hc2⟩ := h1 x nd cc h hc
  exact h2 x nd2 cc h2' hc2

theorem upd_cluster_strip {V : Type} (g : OpGraph V) (y c : Nat) :
    StripSame (g.upd_node y (fun nd => { nd with cluster_id := some c })) g := by
  intro x
  rw [OpGraph.node_upd_node]
  by_cases hxy : x = y
  · subst hxy
    rw [if_pos rfl]
    cases g.node x <;> rfl
  · rw [if_neg hxy]

theorem upd_cluster_mono {V : Type} (g : OpGraph V) (y c : Nat) (nd0 : OpNode)
    (h0 : g.node y = some nd0) (hnone : nd0.cluster_id = none) :
    ClusterMono g (g.upd_node y (fun nd => { nd with cluster_id := some c })) := by
  intro x nd cc hx hc
  rw [OpGraph.node_upd_node]
  by_cases hxy : x = y
  · subst hxy
    rw [hx] at h0
    injection h0 with h0
    rw [← h0] at hnone
    rw [hnone] at hc
    exact Option.noConfusion hc
  · rw [if_neg hxy]
    exact ⟨nd, hx, hc⟩

theorem upd_cluster_new {V : Type} (g : OpGraph V) (y c : Nat) :
    ∀ x nd cc, (g.upd_node y (fun n2 => { n2 with cluster_id := some c })).node x = some nd →
      nd.cluster_id = some cc →
      cc = c ∨ ∃ nd0, g.node x = some nd0 ∧ nd0.cluster_id = some cc := by
  intro x nd cc hx hc
  rw [OpGraph.node_upd_node] at hx
  by_cases hxy : x = y
  · rw [if_pos hxy] at hx
    cases hg : g.node y with
    | none =>
      rw [hg] at hx
      exact Option.noConfusion hx
    | some nd0 =>
      rw [hg] at hx
      injection hx with hx
      rw [← hx] at hc
      injection hc with hc
      exact Or.inl hc.symm
  · rw [if_neg hxy] at hx
    exact Or.inr ⟨nd, hx, hc⟩

theorem try_include_none {V : Type} (co : CommonOps V) (g : OpGraph V) (ord : List Nat)
    (cid ec other : Nat) (h : try_include co g ord cid ec other = some true) :
    ∃ ond, g.node other = some ond ∧ ond.cluster_id = none := by
  unfold try_include at h
  cases hnode : g.node other with
  | none =>
    rw [hnode] at h
    simp at h
  | some ond =>
    rw [hnode] at h
    simp only [Option.some_bind, bind, Option.bind] at h
    by_cases hc : ond.cluster_id = none ∧ co.is_per_element ond.op = true ∧
        ond.shape.element_count = ec
    · exact ⟨ond, rfl, hc.1⟩
    · rw [if_neg hc] at h
      simp at h

theorem find_candidate_mem {V : Type} (co : CommonOps V) (g : OpGraph V) (ord : List Nat)
    (cid ec : Nat) : ∀ (l : List Nat) (other : Nat),
      find_candidate co g ord cid ec l = some (some other) →
      try_include co g ord cid ec other = some true := by
  intro l
  induction l with
  | nil =>
    intro other h
    simp [find_candidate] at h
  | cons hd tl ih =>
    intro other h
    unfold find_candidate at h
    cases hti : try_include co g ord cid ec hd with
    | none =>
      rw [hti] at h
      simp at h
    | some b =>
      rw [hti] at h
      simp only [Option.some_bind, bind, Option.bind] at h
      cases b with
      | true =>
        rw [if_pos rfl] at h
        have h2 : some (some hd) = some (some other) := h
        injection h2 with h2
        injection h2 with h2
        rw [← h2]
        exact hti
      | false =>
        rw [if_neg Bool.false_ne_true] at h
        exact ih other h

theorem gather_loop_inv {V : Type} (co : CommonOps V) (ord : List Nat) (cid ec : Nat) :
    ∀ (fuel : Nat) (g g2 : OpGraph V), gather_loop co ord cid ec fuel g = some g2 →
      StripSame g2 g ∧ ClusterMono g g2 ∧
      (∀ x nd c, g2.node x = some nd → nd.cluster_id = some c →
        c = cid ∨ ∃ nd0, g.node x = some nd0 ∧ nd0.cluster_id = some c) := by
  intro fuel
  induction fuel with
  | zero =>
    intro g g2 h
    exact Option.noConfusion h
  | succ fuel ih =>
    intro g g2 h
    unfold gather_loop at h
    cases hfc : find_candidate co g ord cid ec ord with
    | none =>
      rw [hfc] at h
      simp at h
    | some copt =>
      rw [hfc] at h
      simp only [Option.some_bind, bind, Option.bind] at h
      cases copt with
      | none =>
        injection h with h
        subst h
        exact ⟨strip_same_refl _, cluster_mono_refl _,
          fun x nd c hx hc => Or.inr ⟨nd, hx, hc⟩⟩
      | some other =>
        have hti := find_candidate_mem co g ord cid ec ord other hfc
        obtain ⟨ond, hond, hondnone⟩ := try_include_none co g ord cid ec other hti
        obtain ⟨hs, hm, hnew⟩ := ih _ _ h
        refine ⟨strip_same_trans hs (upd_cluster_strip g other cid),
          cluster_mono_trans (upd_cluster_mono g other cid ond hond hondnone) hm, ?_⟩
        intro x nd c hx hc
        rcases hnew x nd c hx hc with h1 | ⟨nd0, hnd0, hc0⟩
        · exact Or.inl h1
        · rcases upd_cluster_new g other cid x nd0 c hnd0 hc0 with h2 | h2
          · exact Or.inl h2
          · exact Or.inr h2

theorem arena_extends_refl {V : Type} (st : ClusterState V) : ArenaExtends st st := by
  refine ⟨le_refl _, [], by simp, List.nodup_nil, ?_⟩
  intro c hc
  simp at hc

theorem arena_extends_trans {V : Type} {a b c : ClusterState V}
    (h1 : ArenaExtends a b) (h2 : ArenaExtends b c) : ArenaExtends a c := by
  obtain ⟨hle1, ext1, he1, hn1, hb1⟩ := h1
  obtain ⟨hle2, ext2, he2, hn2, hb2⟩ := h2
  refine ⟨le_trans hle1 hle2, ext1 ++ ext2, by rw [he2, he1, List.append_assoc], ?_, ?_⟩
  · rw [List.nodup_append]
    refine ⟨hn1, hn2, ?_⟩
    intro z hz1 hz2
    have k1 := (hb1 z hz1).2
    have k2 := (hb2 z hz2).1
    omega
  · intro cc hcc
    rcases List.mem_append.mp hcc with h | h
    · exact ⟨(hb1 cc h).1, lt_of_lt_of_le (hb1 cc h).2 hle2⟩
    · exact ⟨le_trans hle1 (hb2 cc h).1, (hb2 cc h).2⟩

theorem arena_extends_assign {V : Type} (st : ClusterState V) (g2 : OpGraph V) :
    ArenaExtends st ⟨g2, st.clusters ++ [st.next_cluster], st.next_cluster + 1⟩ := by
  refine ⟨Nat.le_succ _, [st.next_cluster], rfl, List.nodup_singleton _, ?_⟩
  intro c hc
  rw [List.mem_singleton] at hc
  subst hc
  exact ⟨le_refl _, Nat.lt_succ_self _⟩

theorem arena_wf_extends {V : Type} {st st2 : ClusterState V} (hwf : ClusterArenaWf st)
    (he : ArenaExtends st st2) : ClusterArenaWf st2 := by
  obtain ⟨hnd, hbnd⟩ := hwf
  obtain ⟨hle, ext, heq, hnd2, hb⟩ := he
  constructor
  · rw [heq, List.nodup_append]
    refine ⟨hnd, hnd2, ?_⟩
    intro z h1 h2
    have k1 := hbnd z h1
    have k2 := (hb z h2).1
    omega
  · intro c hc
    rw [heq] at hc
    rcases List.mem_append.mp hc with h | h
    · exact lt_of_lt_of_le (hbnd c h) hle
    · exact (hb c h).2

theorem build_clusters_phase1_inv {V : Type} (co : CommonOps V) (ord : List Nat) :
    ∀ (l : List Nat) (st st2 : ClusterState V),
      build_clusters_phase1 co ord l st = some st2 →
      StripSame st2.g st.g ∧ ClusterMono st.g st2.g ∧ ArenaExtends st st2 ∧
      (∀ x nd c, st2.g.node x = some nd → nd.cluster_id = some c →
        c ∈ st2.clusters ∨ ∃ nd0, st.g.node x = some nd0 ∧ nd0.cluster_id = some c) := by
  intro l
  induction l with
  | nil =>
    intro st st2 h
    injection h with h
    subst h
    exact ⟨strip_same_refl _, cluster_mono_refl _, arena_extends_refl _,
      fun x nd c hx hc => Or.inr ⟨nd, hx, hc⟩⟩
  | cons first rest ih =>
    intro st st2 h
    unfold build_clusters_phase1 at h
    cases hnode : st.g.node first with
    | none =>
      rw [hnode] at h
      simp at h
    | some nd =>
      rw [hnode] at h
      simp only [Option.some_bind, bind, Option.bind] at h
      cases hcid : nd.cluster_id with
      | some c0 =>
        rw [hcid] at h
        rw [if_pos (show (some c0).isSome = true from rfl)] at h
        exact ih st st2 h
      | none =>
        rw [hcid] at h
        rw [if_neg (by simp)] at h
        by_cases hpe : co.is_per_element nd.op = true
        · rw [if_pos hpe] at h
          cases hg2 : gather_loop co ord st.next_cluster nd.shape.element_count
              ((st.g.upd_node first
                (fun x => { x with cluster_id := some st.next_cluster })).nodes.length + 1)
              (st.g.upd_node first
                (fun x => { x with cluster_id := some st.next_cluster })) with
          | none =>
            rw [hg2] at h
            simp at h
          | some gmid =>
            rw [hg2] at h
            simp only [Option.some_bind, bind, Option.bind] at h
            obtain ⟨hs2, hm2, ha2, ht2⟩ := ih _ _ h
            obtain ⟨hsg, hmg, hng⟩ :=
              gather_loop_inv co ord st.next_cluster nd.shape.element_count _ _ _ hg2
            have hmidmem : st.next_cluster ∈
                (⟨gmid, st.clusters ++ [st.next_cluster], st.next_cluster + 1⟩ :
                  ClusterState V).clusters := by
              simp
            have hmemfin : st.next_cluster ∈ st2.clusters := by
              obtain ⟨-, ext, hext, -, -⟩ := ha2
              rw [hext]
              exact List.mem_append.mpr (Or.inl hmidmem)
            refine ⟨?_, ?_, ?_, ?_⟩
            · exact strip_same_trans hs2
                (strip_same_trans hsg (upd_cluster_strip st.g first st.next_cluster))
            · exact cluster_mono_trans
                (upd_cluster_mono st.g first st.next_cluster nd hnode hcid)
                (cluster_mono_trans hmg hm2)
            · exact arena_extends_trans (arena_extends_assign st gmid) ha2
            · intro x nd2 c hx hc
              rcases ht2 x nd2 c hx hc with h1 | ⟨nd0, hnd0, hc0⟩
              · exact Or.inl h1
              · rcases hng x nd0 c hnd0 hc0 with h2 | ⟨nd1, hnd1, hc1⟩
                · rw [h2]
                  exact Or.inl hmemfin
                · rcases upd_cluster_new st.g first st.next_cluster x nd1 c hnd1 hc1 with
                    h3 | h3
                  · rw [h3]
                    exact Or.inl hmemfin
                  · exact Or.inr h3
        · rw [if_neg hpe] at h
          exact ih _ _ h

theorem phase3_step_combine {V : Type} (co : CommonOps V) (rest : List Nat)
    (st st2 : ClusterState V) (nid : Nat) (nd : OpNode)
    (hnode : st.g.node nid = some nd) (hnone : nd.cluster_id = none)
    (hs2 : StripSame st2.g (st.assign nid).g)
    (hm2 : ClusterMono (st.assign nid).g st2.g)
    (ha2 : ArenaExtends (st.assign nid) st2)
    (ht2 : ∀ x nd2 c, st2.g.node x = some nd2 → nd2.cluster_id = some c →
      c ∈ st2.clusters ∨ ∃ nd0, (st.assign nid).g.node x = some nd0 ∧
        nd0.cluster_id = some c)
    (hcov2 : ∀ nid2 ∈ rest, ∀ nd2, st2.g.node nid2 = some nd2 →
      nd2.cluster_id.isSome = true ∨ nd2.op.unclustered = true) :
    StripSame st2.g st.g ∧ ClusterMono st.g st2.g ∧ ArenaExtends st st2 ∧
    (∀ x nd2 c, st2.g.node x = some nd2 → nd2.cluster_id = some c →
      c ∈ st2.clusters ∨ ∃ nd0, st.g.node x = some nd0 ∧ nd0.cluster_id = some c) ∧
    (∀ nid2 ∈ nid :: rest, ∀ nd2, st2.g.node nid2 = some nd2 →
      nd2.cluster_id.isSome = true ∨ nd2.op.unclustered = true) := by
  have hassign : (st.assign nid).g.node nid =
      some { nd with cluster_id := some st.next_cluster } := by
    show (st.g.upd_node nid _).node nid = _
    rw [OpGraph.node_upd_node, if_pos rfl, hnode]
    rfl
  have hmemfin : st.next_cluster ∈ st2.clusters := by
    obtain ⟨-, ext, hext, -, -⟩ := ha2
    rw [hext]
    apply List.mem_append.mpr
    left
    show st.next_cluster ∈ st.clusters ++ [st.next_cluster]
    simp
  refine ⟨?_, ?_, ?_, ?_, ?_⟩
  · exact strip_same_trans hs2 (upd_cluster_strip st.g nid st.next_cluster)
  · exact cluster_mono_trans (upd_cluster_mono st.g nid st.next_cluster nd hnode hnone) hm2
  · exact arena_extends_trans (arena_extends_assign st _) ha2
  · intro x nd2 c hx hc
    rcases ht2 x nd2 c hx hc with h1 | ⟨nd0, hnd0, hc0⟩
    · exact Or.inl h1
    · rcases upd_cluster_new st.g nid st.next_cluster x nd0 c hnd0 hc0 with h3 | h3
      · rw [h3]
        exact Or.inl hmemfin
      · exact Or.inr h3
  · intro nid2 hmem nd2 hx
    rcases List.mem_cons.mp hmem with hq | hmem2
    · subst hq
      left
      obtain ⟨nd3, h3, hc3⟩ := hm2 nid2 _ st.next_cluster hassign rfl
      rw [hx] at h3
      injection h3 with h3
      rw [← h3] at hc3
      rw [hc3]
      rfl
    · exact hcov2 nid2 hmem2 nd2 hx

theorem phase3_skip_combine {V : Type} (st st2 : ClusterState V)
    (hs2 : StripSame st2.g st.g) (nid : Nat) (rest : List Nat)
    (hhd : ∀ nd2, st2.g.node nid = some nd2 →
      nd2.cluster_id.isSome = true ∨ nd2.op.unclustered = true)
    (hcov2 : ∀ nid2 ∈ rest, ∀ nd2, st2.g.node nid2 = some nd2 →
      nd2.cluster_id.isSome = true ∨ nd2.op.unclustered = true) :
    ∀ nid2 ∈ nid :: rest, ∀ nd2, st2.g.node nid2 = some nd2 →
      nd2.cluster_id.isSome = true ∨ nd2.op.unclustered = true := by
  intro nid2 hmem nd2 hx
  rcases List.mem_cons.mp hmem with hq | hmem2
  · subst hq
    exact hhd nd2 hx
  · exact hcov2 nid2 hmem2 nd2 hx

theorem strip_same_op {V : Type} {h g : OpGraph V} (hs : StripSame h g)
    {x : Nat} {nd2 nd : OpNode} (hx : h.node x = some nd2) (hg : g.node x = some nd) :
    nd2.op = nd.op ∧ nd2.shape = nd.shape := by
  have h1 := hs x
  rw [hx, hg] at h1
  injection h1 with h1
  constructor
  · have := congrArg OpNode.op h1
    exact this
  · have := congrArg OpNode.shape h1
    exact this

theorem build_clusters_phase3_inv {V : Type} (co : CommonOps V) :
    ∀ (l : List Nat) (st st2 : ClusterState V),
      build_clusters_phase3 co l st = some st2 →
      StripSame st2.g st.g ∧ ClusterMono st.g st2.g ∧ ArenaExtends st st2 ∧
      (∀ x nd c, st2.g.node x = some nd → nd.cluster_id = some c →
        c ∈ st2.clusters ∨ ∃ nd0, st.g.node x = some nd0 ∧ nd0.cluster_id = some c) ∧
      (∀ nid ∈ l, ∀ nd2, st2.g.node nid = some nd2 →
        nd2.cluster_id.isSome = true ∨ nd2.op.unclustered = true) := by
  intro l
  induction l with
  | nil =>
    intro st st2 h
    injection h with h
    subst h
    refine ⟨strip_same_refl _, cluster_mono_refl _, arena_extends_refl _,
      fun x nd c hx hc => Or.inr ⟨nd, hx, hc⟩, ?_⟩
    intro nid hmem
    simp at hmem
  | cons nid rest ih =>
    intro st st2 h
    unfold build_clusters_phase3 at h
    cases hnode : st.g.node nid with
    | none =>
      rw [hnode] at h
      simp at h
    | some nd =>
      rw [hnode] at h
      simp only [Option.some_bind, bind, Option.bind] at h
      cases hcid : nd.cluster_id with
      | some c0 =>
        rw [hcid] at h
        rw [if_pos (show (some c0).isSome = true from rfl)] at h
        obtain ⟨hs2, hm2, ha2, ht2, hcov2⟩ := ih st st2 h
        refine ⟨hs2, hm2, ha2, ht2, ?_⟩
        apply phase3_skip_combine st st2 hs2 nid rest ?_ hcov2
        intro nd2 hx
        left
        obtain ⟨nd3, h3, hc3⟩ := hm2 nid nd c0 hnode hcid
        rw [hx] at h3
        injection h3 with h3
        rw [← h3] at hc3
        rw [hc3]
        rfl
      | none =>
        rw [hcid] at h
        rw [if_neg (by simp)] at h
        cases hop : nd.op with
        | Input pid =>
          rw [hop] at h
          have h2 : build_clusters_phase3 co rest st = some st2 := h
          obtain ⟨hs2, hm2, ha2, ht2, hcov2⟩ := ih st st2 h2
          refine ⟨hs2, hm2, ha2, ht2, ?_⟩
          apply phase3_skip_combine st st2 hs2 nid rest ?_ hcov2
          intro nd2 hx
          right
          rw [(strip_same_op hs2 hx hnode).1, hop]
          rfl
        | Output pid =>
          rw [hop] at h
          have h2 : build_clusters_phase3 co rest st = some st2 := h
          obtain ⟨hs2, hm2, ha2, ht2, hcov2⟩ := ih st st2 h2
          refine ⟨hs2, hm2, ha2, ht2, ?_⟩
          apply phase3_skip_combine st st2 hs2 nid rest ?_ hcov2
          intro nd2 hx
          right
          rw [(strip_same_op hs2 hx hnode).1, hop]
          rfl
        | Literal v =>
          rw [hop] at h
          have h2 : build_clusters_phase3 co rest st = some st2 := h
          obtain ⟨hs2, hm2, ha2, ht2, hcov2⟩ := ih st st2 h2
          refine ⟨hs2, hm2, ha2, ht2, ?_⟩
          apply phase3_skip_combine st st2 hs2 nid rest ?_ hcov2
          intro nd2 hx
          right
          rw [(strip_same_op hs2 hx hnode).1, hop]
          rfl
        | BuiltIn b =>
          rw [hop] at h
          have h2 : build_clusters_phase3 co rest st = some st2 := h
          obtain ⟨hs2, hm2, ha2, ht2, hcov2⟩ := ih st st2 h2
          refine ⟨hs2, hm2, ha2, ht2, ?_⟩
          apply phase3_skip_combine st st2 hs2 nid rest ?_ hcov2
          intro nd2 hx
          right
          rw [(strip_same_op hs2 hx hnode).1, hop]
          rfl
        | Unary u =>
          rw [hop] at h
          exact Option.noConfusion h
        | Binary b =>
          rw [hop] at h
          exact Option.noConfusion h
        | CompareAndSelect m =>
          rw [hop] at h
          exact Option.noConfusion h
        | Gather a =>
          rw [hop] at h
          exact Option.noConfusion h
        | Reduce r a =>
          rw [hop] at h
          have h2 : (do
              let srcs ← get_arg_sources st.g nid
              match srcs with
              | [_] => build_clusters_phase3 co rest (st.assign nid)
              | _ => none) = some st2 := h
          cases hsrcs : get_arg_sources st.g nid with
          | none =>
            rw [hsrcs] at h2
            simp at h2
          | some srcs =>
            rw [hsrcs] at h2
            simp only [Option.some_bind, bind, Option.bind] at h2
            rcases srcs with _ | ⟨a0, _ | ⟨a1, r1⟩⟩
            · exact Option.noConfusion h2
            · have h3 : build_clusters_phase3 co rest (st.assign nid) = some st2 := h2
              obtain ⟨hs2, hm2, ha2, ht2, hcov2⟩ := ih _ st2 h3
              obtain ⟨p1, p2, p3, p4, p5⟩ :=
                phase3_step_combine co rest st st2 nid nd hnode hcid hs2 hm2 ha2 ht2 hcov2
              exact ⟨p1, p2, p3, p4, p5⟩
            · exact Option.noConfusion h2
        | Unpad a p =>
          rw [hop] at h
          have h2 : (do
              let srcs ← get_arg_sources st.g nid
              match srcs with
              | [_] => build_clusters_phase3 co rest (st.assign nid)
              | _ => none) = some st2 := h
          cases hsrcs : get_arg_sources st.g nid with
          | none =>
            rw [hsrcs] at h2
            simp at h2
          | some srcs =>
            rw [hsrcs] at h2
            simp only [Option.some_bind, bind, Option.bind] at h2
            rcases srcs with _ | ⟨a0, _ | ⟨a1, r1⟩⟩
            · exact Option.noConfusion h2
            · have h3 : build_clusters_phase3 co rest (st.assign nid) = some st2 := h2
              obtain ⟨hs2, hm2, ha2, ht2, hcov2⟩ := ih _ st2 h3
              exact phase3_step_combine co rest st st2 nid nd hnode hcid hs2 hm2 ha2 ht2 hcov2
            · exact Option.noConfusion h2
        | WindowsToImage sd =>
          rw [hop] at h
          have h2 : (do
              let srcs ← get_arg_sources st.g nid
              match srcs with
              | [_] => build_clusters_phase3 co rest (st.assign nid)
              | _ => none) = some st2 := h
          cases hsrcs : get_arg_sources st.g nid with
          | none =>
            rw [hsrcs] at h2
            simp at h2
          | some srcs =>
            rw [hsrcs] at h2
            simp only [Option.some_bind, bind, Option.bind] at h2
            rcases srcs with _ | ⟨a0, _ | ⟨a1, r1⟩⟩
            · exact Option.noConfusion h2
            · have h3 : build_clusters_phase3 co rest (st.assign nid) = some st2 := h2
              obtain ⟨hs2, hm2, ha2, ht2, hcov2⟩ := ih _ st2 h3
              exact phase3_step_combine co rest st st2 nid nd hnode hcid hs2 hm2 ha2 ht2 hcov2
            · exact Option.noConfusion h2
        | MatMul om =>
          rw [hop] at h
          have h2 : (do
              let srcs ← get_arg_sources st.g nid
              match srcs with
              | [_, _] => build_clusters_phase3 co rest (st.assign nid)
              | _ => none) = some st2 := h
          cases hsrcs : get_arg_sources st.g nid with
          | none =>
            rw [hsrcs] at h2
            simp at h2
          | some srcs =>
            rw [hsrcs] at h2
            simp only [Option.some_bind, bind, Option.bind] at h2
            rcases srcs with _ | ⟨a0, _ | ⟨a1, _ | ⟨a2, r2⟩⟩⟩
            · exact Option.noConfusion h2
            · exact Option.noConfusion h2
            · have h3 : build_clusters_phase3 co rest (st.assign nid) = some st2 := h2
              obtain ⟨hs2, hm2, ha2, ht2, hcov2⟩ := ih _ st2 h3
              exact phase3_step_combine co rest st st2 nid nd hnode hcid hs2 hm2 ha2 ht2 hcov2
            · exact Option.noConfusion h2
        | ScatterAdd ax =>
          rw [hop] at h
          have h2 : (do
              let srcs ← get_arg_sources st.g nid
              match srcs with
              | [acc, v1, v2] => do
                  let ok ← if co.is_contiguous acc.view then pure true
                    else do
                      let accnd ← st.g.node acc.node_id
                      pure (match accnd.op with
                        | Op.Literal _ => true
                        | _ => false)
                  if ok then build_clusters_phase3 co rest (st.assign nid)
                  else none
              | _ => none) = some st2 := h
          cases hsrcs : get_arg_sources st.g nid with
          | none =>
            rw [hsrcs] at h2
            simp at h2
          | some srcs =>
            rw [hsrcs] at h2
            simp only [Option.some_bind, bind, Option.bind] at h2
            rcases srcs with _ | ⟨a0, _ | ⟨a1, _ | ⟨a2, _ | ⟨a3, r3⟩⟩⟩⟩
            · exact Option.noConfusion h2
            · exact Option.noConfusion h2
            · exact Option.noConfusion h2
            · have h2b : (do
                  let ok ← if co.is_contiguous a0.view then pure true
                    else do
                      let accnd ← st.g.node a0.node_id
                      pure (match accnd.op with
                        | Op.Literal _ => true
                        | _ => false)
                  if ok then build_clusters_phase3 co rest (st.assign nid)
                  else none) = some st2 := h2
              by_cases hcont : co.is_contiguous a0.view = true
              · rw [if_pos hcont] at h2b
                have h3 : build_clusters_phase3 co rest (st.assign nid) = some st2 := h2b
                obtain ⟨hs2, hm2, ha2, ht2, hcov2⟩ := ih _ st2 h3
                exact phase3_step_combine co rest st st2 nid nd hnode hcid hs2 hm2 ha2 ht2
                  hcov2
              · rw [if_neg hcont] at h2b
                cases hacc : st.g.node a0.node_id with
                | none =>
                  rw [hacc] at h2b
                  exact Option.noConfusion h2b
                | some accnd =>
                  rw [hacc] at h2b
                  have h3 : (if (match accnd.op with
                        | Op.Literal _ => true
                        | _ => false) = true then
                      build_clusters_phase3 co rest (st.assign nid)
                    else none) = some st2 := h2b
                  cases hm : (match accnd.op with
                      | Op.Literal _ => true
                      | _ => false) with
                  | false =>
                    rw [hm] at h3
                    exact Option.noConfusion h3
                  | true =>
                    rw [hm] at h3
                    have h4 : build_clusters_phase3 co rest (st.assign nid) = some st2 := h3
                    obtain ⟨hs2, hm2, ha2, ht2, hcov2⟩ := ih _ st2 h4
                    exact phase3_step_combine co rest st st2 nid nd hnode hcid hs2 hm2 ha2
                      ht2 hcov2
            · exact Option.noConfusion h2

theorem cluster_edges_fold {V : Type} (g : OpGraph V) :
    ∀ (l : List (Nat × EdgeRec V)) (acc r : List (Nat × Nat)),
      (l.foldlM (fun acc p => do
        let snd ← g.node p.2.src
        let dnd ← g.node p.2.dst
        pure (match snd.cluster_id, dnd.cluster_id with
          | some a, some b => if a ≠ b then acc ++ [(a, b)] else acc
          | _, _ => acc)) acc) = some r →
      ∀ a b, ((a, b) ∈ r ↔ ((a, b) ∈ acc ∨ ∃ p ∈ l, ∃ snd dnd,
        g.node p.2.src = some snd ∧ g.node p.2.dst = some dnd ∧
        snd.cluster_id = some a ∧ dnd.cluster_id = some b ∧ a ≠ b)) := by
  intro l
  induction l with
  | nil =>
    intro acc r h a b
    have h2 : some acc = some r := h
    injection h2 with h2
    subst h2
    constructor
    · intro hr
      exact Or.inl hr
    · intro hor
      rcases hor with hr | ⟨p, hp, -⟩
      · exact hr
      · simp at hp
  | cons p l ih =>
    intro acc r h a b
    have h2 : ((do
        let snd ← g.node p.2.src
        let dnd ← g.node p.2.dst
        pure (match snd.cluster_id, dnd.cluster_id with
          | some a, some b => if a ≠ b then acc ++ [(a, b)] else acc
          | _, _ => acc)) >>= (fun acc2 => l.foldlM (fun acc p => do
        let snd ← g.node p.2.src
        let dnd ← g.node p.2.dst
        pure (match snd.cluster_id, dnd.cluster_id with
          | some a, some b => if a ≠ b then acc ++ [(a, b)] else acc
          | _, _ => acc)) acc2)) = some r := h
    cases hsnd : g.node p.2.src with
    | none =>
      rw [hsnd] at h2
      simp at h2
    | some snd =>
      rw [hsnd] at h2
      cases hdnd : g.node p.2.dst with
      | none =>
        rw [hdnd] at h2
        simp at h2
      | some dnd =>
        rw [hdnd] at h2
        simp only [Option.some_bind, bind, Option.bind, pure] at h2
        cases hca : snd.cluster_id with
        | none =>
          rw [hca] at h2
          have h3 : l.foldlM (fun acc p => do
              let snd ← g.node p.2.src
              let dnd ← g.node p.2.dst
              pure (match snd.cluster_id, dnd.cluster_id with
                | some a, some b => if a ≠ b then acc ++ [(a, b)] else acc
                | _, _ => acc)) acc = some r := h2
          rw [ih acc r h3 a b]
          constructor
          · intro hor
            rcases hor with hr | ⟨p2, hp2, w⟩
            · exact Or.inl hr
            · exact Or.inr ⟨p2, List.mem_cons_of_mem _ hp2, w⟩
          · intro hor
            rcases hor with hr | ⟨p2, hp2, snd2, dnd2, w1, w2, w3, w4, w5⟩
            · exact Or.inl hr
            · rcases List.mem_cons.mp hp2 with hq | hp3
              · subst hq
                rw [hsnd] at w1
                injection w1 with w1
                rw [w1] at hca
                rw [hca] at w3
                exact Option.noConfusion w3
              · exact Or.inr ⟨p2, hp3, snd2, dnd2, w1, w2, w3, w4, w5⟩
        | some a1 =>
          rw [hca] at h2
          cases hcb : dnd.cluster_id with
          | none =>
            rw [hcb] at h2
            have h3 : l.foldlM (fun acc p => do
                let snd ← g.node p.2.src
                let dnd ← g.node p.2.dst
                pure (match snd.cluster_id, dnd.cluster_id with
                  | some a, some b => if a ≠ b then acc ++ [(a, b)] else acc
                  | _, _ => acc)) acc = some r := h2
            rw [ih acc r h3 a b]
            constructor
            · intro hor
              rcases hor with hr | ⟨p2, hp2, w⟩
              · exact Or.inl hr
              · exact Or.inr ⟨p2, List.mem_cons_of_mem _ hp2, w⟩
            · intro hor
              rcases hor with hr | ⟨p2, hp2, snd2, dnd2, w1, w2, w3, w4, w5⟩
              · exact Or.inl hr
              · rcases List.mem_cons.mp hp2 with hq | hp3
                · subst hq
                  rw [hdnd] at w2
                  injection w2 with w2
                  rw [w2] at hcb
                  rw [hcb] at w4
                  exact Option.noConfusion w4
                · exact Or.inr ⟨p2, hp3, snd2, dnd2, w1, w2, w3, w4, w5⟩
          | some b1 =>
            rw [hcb] at h2
            have h2b : l.foldlM (fun acc p => do
                let snd ← g.node p.2.src
                let dnd ← g.node p.2.dst
                pure (match snd.cluster_id, dnd.cluster_id with
                  | some a, some b => if a ≠ b then acc ++ [(a, b)] else acc
                  | _, _ => acc)) (if a1 ≠ b1 then acc ++ [(a1, b1)] else acc) = some r := h2
            by_cases hab : a1 ≠ b1
            · rw [if_pos hab] at h2b
              have h3 : l.foldlM (fun acc p => do
                  let snd ← g.node p.2.src
                  let dnd ← g.node p.2.dst
                  pure (match snd.cluster_id, dnd.cluster_id with
                    | some a, some b => if a ≠ b then acc ++ [(a, b)] else acc
                    | _, _ => acc)) (acc ++ [(a1, b1)]) = some r := h2b
              rw [ih _ r h3 a b]
              constructor
              · intro hor
                rcases hor with hr | ⟨p2, hp2, w⟩
                · rcases List.mem_append.mp hr with hr2 | hr2
                  · exact Or.inl hr2
                  · rw [List.mem_singleton] at hr2
                    injection hr2 with hra hrb
                    subst hra
                    subst hrb
                    exact Or.inr ⟨p, List.mem_cons_self _ _, snd, dnd, hsnd, hdnd,
                      hca, hcb, hab⟩
                · exact Or.inr ⟨p2, List.mem_cons_of_mem _ hp2, w⟩
              · intro hor
                rcases hor with hr | ⟨p2, hp2, snd2, dnd2, w1, w2, w3, w4, w5⟩
                · exact Or.inl (List.mem_append.mpr (Or.inl hr))
                · rcases List.mem_cons.mp hp2 with hq | hp3
                  · subst hq
                    rw [hsnd] at w1
                    injection w1 with w1
                    rw [w1] at hca
                    rw [hdnd] at w2
                    injection w2 with w2
                    rw [w2] at hcb
                    rw [hca] at w3
                    injection w3 with w3
                    rw [hcb] at w4
                    injection w4 with w4
                    subst w3
                    subst w4
                    exact Or.inl (List.mem_append.mpr (Or.inr (List.mem_singleton.mpr rfl)))
                  · exact Or.inr ⟨p2, hp3, snd2, dnd2, w1, w2, w3, w4, w5⟩
            · rw [if_neg hab] at h2b
              have h3 : l.foldlM (fun acc p => do
                  let snd ← g.node p.2.src
                  let dnd ← g.node p.2.dst
                  pure (match snd.cluster_id, dnd.cluster_id with
                    | some a, some b => if a ≠ b then acc ++ [(a, b)] else acc
                    | _, _ => acc)) acc = some r := h2b
              rw [ih acc r h3 a b]
              constructor
              · intro hor
                rcases hor with hr | ⟨p2, hp2, w⟩
                · exact Or.inl hr
                · exact Or.inr ⟨p2, List.mem_cons_of_mem _ hp2, w⟩
              · intro hor
                rcases hor with hr | ⟨p2, hp2, snd2, dnd2, w1, w2, w3, w4, w5⟩
                · exact Or.inl hr
                · rcases List.mem_cons.mp hp2 with hq | hp3
                  · subst hq
                    rw [hsnd] at w1
                    injection w1 with w1
                    rw [w1] at hca
                    rw [hdnd] at w2
                    injection w2 with w2
                    rw [w2] at hcb
                    rw [hca] at w3
                    injection w3 with w3
                    rw [hcb] at w4
                    injection w4 with w4
                    subst w3
                    subst w4
                    exact absurd w5 hab
                  · exact Or.inr ⟨p2, hp3, snd2, dnd2, w1, w2, w3, w4, w5⟩

theorem cluster_edges_spec {V : Type} (g : OpGraph V) (ce : List (Nat × Nat))
    (h : cluster_edges g = some ce) :
    ∀ a b, ((a, b) ∈ ce ↔ clusterRel g a b) := by
  intro a b
  have h2 := cluster_edges_fold g g.edges [] ce h a b
  unfold clusterRel
  rw [h2]
  constructor
  · intro hor
    rcases hor with hr | hr
    · simp at hr
    · exact hr
  · intro hr
    exact Or.inr hr

theorem toposort_fuel_subset :
    ∀ (fuel : Nat) (rem : List Nat) (E : List (Nat × Nat)),
      toposort_fuel fuel rem E ⊆ rem := by
  intro fuel
  induction fuel with
  | zero =>
    intro rem E x hx
    simp [toposort_fuel] at hx
  | succ fuel ih =>
    intro rem E x hx
    unfold toposort_fuel at hx
    cases hf : rem.find? (fun n =>
        !(E.any (fun e => e.2 == n && decide (e.1 ∈ rem)))) with
    | none =>
      rw [hf] at hx
      simp at hx
    | some n =>
      rw [hf] at hx
      rcases List.mem_cons.mp hx with hq | hx2
      · subst hq
        exact List.mem_of_find?_eq_some hf
      · exact List.erase_subset _ _ (ih _ _ hx2)

theorem toposort_fuel_nodup :
    ∀ (fuel : Nat) (rem : List Nat) (E : List (Nat × Nat)), rem.Nodup →
      (toposort_fuel fuel rem E).Nodup := by
  intro fuel
  induction fuel with
  | zero =>
    intro rem E _
    exact List.nodup_nil
  | succ fuel ih =>
    intro rem E hnd
    unfold toposort_fuel
    cases hf : rem.find? (fun n =>
        !(E.any (fun e => e.2 == n && decide (e.1 ∈ rem)))) with
    | none => exact List.nodup_nil
    | some n =>
      refine List.nodup_cons.mpr ⟨?_, ih _ _ (hnd.erase n)⟩
      intro hmem
      have h2 := toposort_fuel_subset fuel (rem.erase n) E hmem
      rw [hnd.mem_erase_iff] at h2
      exact h2.1 rfl

theorem toposort_fuel_complete (fuel : Nat) (rem : List Nat) (E : List (Nat × Nat))
    (hnd : rem.Nodup) (hlen : (toposort_fuel fuel rem E).length = rem.length) :
    ∀ x, x ∈ toposort_fuel fuel rem E ↔ x ∈ rem := by
  have hsub := toposort_fuel_subset fuel rem E
  have hnd2 := toposort_fuel_nodup fuel rem E hnd
  have hperm : List.Perm (toposort_fuel fuel rem E) rem :=
    (List.subperm_of_subset hnd2 hsub).perm_of_length_le (le_of_eq hlen.symm)
  exact fun x => hperm.mem_iff

theorem toposort_fuel_sorted (E : List (Nat × Nat)) :
    ∀ (fuel : Nat) (rem : List Nat), rem.Nodup →
      (toposort_fuel fuel rem E).length = rem.length →
      ∀ a b, (a, b) ∈ E → a ∈ rem → b ∈ rem → a ≠ b →
        (toposort_fuel fuel rem E).indexOf a < (toposort_fuel fuel rem E).indexOf b := by
  intro fuel
  induction fuel with
  | zero =>
    intro rem hnd hlen a b hE ha hb hab
    have h0 : rem.length = 0 := hlen.symm
    rw [List.length_eq_zero] at h0
    subst h0
    simp at ha
  | succ fuel ih =>
    intro rem hnd hlen a b hE ha hb hab
    unfold toposort_fuel at hlen ⊢
    cases hf : rem.find? (fun n =>
        !(E.any (fun e => e.2 == n && decide (e.1 ∈ rem)))) with
    | none =>
      rw [hf] at hlen
      have h0 : rem.length = 0 := hlen.symm
      rw [List.length_eq_zero] at h0
      subst h0
      simp at ha
    | some n =>
      rw [hf] at hlen
      have hlenc : (n :: toposort_fuel fuel (rem.erase n) E).length = rem.length := hlen
      show List.indexOf a (n :: toposort_fuel fuel (rem.erase n) E) <
        List.indexOf b (n :: toposort_fuel fuel (rem.erase n) E)
      have hnmem : n ∈ rem := List.mem_of_find?_eq_some hf
      have hpred := List.find?_some hf
      have hnoin : ∀ e ∈ E, ¬(e.2 = n ∧ e.1 ∈ rem) := by
        intro e he hcon
        have hany : E.any (fun e => e.2 == n && decide (e.1 ∈ rem)) = true :=
          List.any_eq_true.mpr ⟨e, he, by simp [hcon.1, hcon.2]⟩
        rw [hany] at hpred
        simp at hpred
      have hlen2 : (toposort_fuel fuel (rem.erase n) E).length = (rem.erase n).length := by
        have he : (rem.erase n).length = rem.length - 1 := List.length_erase_of_mem hnmem
        have hpos : 0 < rem.length := List.length_pos_of_mem hnmem
        have hc : (toposort_fuel fuel (rem.erase n) E).length + 1 = rem.length := by
          simpa using hlenc
        omega
      have hbn : b ≠ n := by
        intro hEq
        exact hnoin (a, b) hE ⟨hEq, ha⟩
      by_cases han : a = n
      · subst han
        rw [List.indexOf_cons_self]
        rw [List.indexOf_cons_ne _ hab]
        exact Nat.succ_pos _
      · have hbn2 : b ∈ rem.erase n := (List.mem_erase_of_ne hbn).mpr hb
        have han2 : a ∈ rem.erase n := (List.mem_erase_of_ne han).mpr ha
        have hrec := ih (rem.erase n) (hnd.erase n) hlen2 a b hE han2 hbn2 hab
        rw [List.indexOf_cons_ne _ (Ne.symm han)]
        rw [List.indexOf_cons_ne _ (Ne.symm hbn)]
        omega

theorem rel_index_lt_acyclic {R : Nat → Nat → Prop} {f : Nat → Nat}
    (hf : ∀ a b, R a b → f a < f b) : ∀ a, ¬ Relation.TransGen R a a := by
  have key : ∀ a b, Relation.TransGen R a b → f a < f b := by
    intro a b h
    induction h with
    | single h => exact hf _ _ h
    | tail h1 h2 ih => exact lt_trans ih (hf _ _ h2)
  intro a h
  exact lt_irrefl _ (key a a h)

/-- Claim C4: when the cluster builder completes on a pristine graph whose
nodes the (stale) order covers, every node whose op is not Input, Output,
Literal or BuiltIn carries a cluster assignment (its unique cluster, the
single Option field); clusters_sorted contains every cluster of the arena
exactly once; it is a topological order of the induced cluster graph (one
edge per op edge whose endpoints lie in two different clusters); and that
graph is acyclic. -/
theorem c4_build_clusters {V : Type} (co : CommonOps V) (g : OpGraph V)
    (ord : List Nat) (g2 : OpGraph V) (cl sorted : List Nat)
    (hord : ∀ q ∈ g.nodes, q.1 ∈ ord)
    (hpristine : ∀ q ∈ g.nodes, q.2.cluster_id = none)
    (hrun : build_clusters co g ord = some (g2, cl, sorted)) :
    (∀ x nd, g2.node x = some nd → nd.op.unclustered = false →
      nd.cluster_id.isSome = true) ∧
    sorted.Nodup ∧
    (∀ c, c ∈ sorted ↔ c ∈ cl) ∧
    (∀ a b, clusterRel g2 a b → sorted.indexOf a < sorted.indexOf b) ∧
    (∀ a, ¬ Relation.TransGen (clusterRel g2) a a) := by
  unfold build_clusters at hrun
  cases hp1 : build_clusters_phase1 co ord ord ⟨g, [], 0⟩ with
  | none =>
    rw [hp1] at hrun
    simp at hrun
  | some st1 =>
    rw [hp1] at hrun
    simp only [Option.some_bind, bind, Option.bind] at hrun
    cases hp3 : build_clusters_phase3 co ord st1 with
    | none =>
      rw [hp3] at hrun
      simp at hrun
    | some st3 =>
      rw [hp3] at hrun
      simp only [Option.some_bind, bind, Option.bind] at hrun
      cases hce : cluster_edges st3.g with
      | none =>
        rw [hce] at hrun
        simp at hrun
      | some ce =>
        rw [hce] at hrun
        simp only [Option.some_bind, bind, Option.bind] at hrun
        have hrun2 : (do
            guard ((toposort st3.clusters ce).length = st3.clusters.length)
            pure (st3.g, st3.clusters, toposort st3.clusters ce) :
              Option (OpGraph V × List Nat × List Nat)) =
            some (g2, cl, sorted) := hrun
        by_cases hguard : (toposort st3.clusters ce).length = st3.clusters.length
        · simp only [guard] at hrun2
          rw [if_pos hguard] at hrun2
          have hrun3 : some ((st3.g, st3.clusters, toposort st3.clusters ce) :
              OpGraph V × List Nat × List Nat) = some (g2, cl, sorted) := hrun2
          injection hrun3 with hrun3
          injection hrun3 with hg2 hrest
          injection hrest with hcl hsorted
          subst hg2
          subst hcl
          subst hsorted
          obtain ⟨hs1, hm1, ha1, ht1⟩ := build_clusters_phase1_inv co ord ord _ _ hp1
          obtain ⟨hs3, hm3, ha3, ht3, hcov3⟩ := build_clusters_phase3_inv co ord _ _ hp3
          have hwf3 : ClusterArenaWf st3 := by
            exact arena_wf_extends ⟨List.nodup_nil, by simp⟩
              (arena_extends_trans ha1 ha3)
          have htrack : ∀ x nd c, st3.g.node x = some nd → nd.cluster_id = some c →
              c ∈ st3.clusters := by
            intro x nd c hx hc
            rcases ht3 x nd c hx hc with h1 | ⟨nd0, hnd0, hc0⟩
            · exact h1
            · rcases ht1 x nd0 c hnd0 hc0 with h1 | ⟨nd1, hnd1, hc1⟩
              · obtain ⟨-, ext, hext, -, -⟩ := ha3
                rw [hext]
                exact List.mem_append.mpr (Or.inl h1)
              · have hmem : (x, nd1) ∈ g.nodes := OpGraph.mem_nodes_of_node _ hnd1
                have := hpristine (x, nd1) hmem
                rw [this] at hc1
                exact Option.noConfusion hc1
          have hspec := cluster_edges_spec st3.g ce hce
          have hsortnodup : (toposort st3.clusters ce).Nodup :=
            toposort_fuel_nodup _ _ _ hwf3.1
          have hcomplete := toposort_fuel_complete st3.clusters.length st3.clusters ce
            hwf3.1 hguard
          have horder : ∀ a b, clusterRel st3.g a b →
              (toposort st3.clusters ce).indexOf a <
                (toposort st3.clusters ce).indexOf b := by
            intro a b hrel
            have hmemE : (a, b) ∈ ce := (hspec a b).mpr hrel
            obtain ⟨p, hp, snd, dnd, w1, w2, w3, w4, w5⟩ := hrel
            have hamem : a ∈ st3.clusters := htrack _ _ _ w1 w3
            have hbmem : b ∈ st3.clusters := htrack _ _ _ w2 w4
            exact toposort_fuel_sorted ce st3.clusters.length st3.clusters hwf3.1
              hguard a b hmemE hamem hbmem w5
          refine ⟨?_, hsortnodup, hcomplete, horder, ?_⟩
          · intro x nd hx hnotun
            have hg : ∃ nd0, g.node x = some nd0 := by
              have hcomp := strip_same_trans hs3 hs1
              have h1 := hcomp x
              rw [hx] at h1
              cases hgx : g.node x with
              | none =>
                rw [hgx] at h1
                exact Option.noConfusion h1
              | some nd0 => exact ⟨nd0, rfl⟩
            obtain ⟨nd0, hnd0⟩ := hg
            have hxord : x ∈ ord := hord (x, nd0) (OpGraph.mem_nodes_of_node _ hnd0)
            rcases hcov3 x hxord nd hx with h1 | h1
            · exact h1
            · rw [hnotun] at h1
              exact Bool.noConfusion h1
          · exact rel_index_lt_acyclic horder
        · simp only [guard] at hrun2
          rw [if_neg hguard] at hrun2
          have hfail : (failure : Option Unit) = none := rfl
          rw [hfail] at hrun2
          simp at hrun2

/-- Witness for claim C4: the cluster builder on the concrete graph exG7
(Input → Neg → Reduce → Output): the Neg and the Reduce are clustered,
clusters_sorted is [0, 1], and the induced cluster graph is acyclic. -/
theorem c4_build_clusters_witness :
    ((∀ q ∈ exG7.nodes, q.1 ∈ [0, 1, 2, 3]) ∧
     (∀ q ∈ exG7.nodes, q.2.cluster_id = none) ∧
     build_clusters CommonOps.model exG7 [0, 1, 2, 3] = some (exG7c, [0, 1], [0, 1])) ∧
    ((∀ x nd, exG7c.node x = some nd → nd.op.unclustered = false →
      nd.cluster_id.isSome = true) ∧
     ([0, 1] : List Nat).Nodup ∧
     (∀ a b, clusterRel exG7c a b →
       ([0, 1] : List Nat).indexOf a < ([0, 1] : List Nat).indexOf b) ∧
     (∀ a, ¬ Relation.TransGen (clusterRel exG7c) a a)) := by
  have hrun : build_clusters CommonOps.model exG7 [0, 1, 2, 3] =
      some (exG7c, [0, 1], [0, 1]) := by decide
  have h := c4_build_clusters CommonOps.model exG7 [0, 1, 2, 3] exG7c [0, 1] [0, 1]
    (by decide) (by decide) hrun
  exact ⟨⟨by decide, by decide, hrun⟩, h.1, h.2.1, h.2.2.2.1, h.2.2.2.2⟩

theorem alist_get_filter_self {β : Type} (l : List (Nat × β)) (y : Nat) :
    alist_get (l.filter (fun p => p.1 != y)) y = none := by
  unfold alist_get
  have hall : ∀ x ∈ l.filter (fun p => p.1 != y), ¬((fun p => p.1 == y) x = true) := by
    intro x hx
    have h2 := List.of_mem_filter hx
    simp at h2 ⊢
    exact h2
  rw [List.find?_eq_none.mpr hall]
  rfl

theorem Heap.getBlock_upd {A : Type} (h : Heap A) (y : Nat) (f : Block A → Block A)
    (x : Nat) : (h.upd y f).getBlock x =
      if x = y then (h.getBlock y).map f else h.getBlock x :=
  alist_get_map_if h.blocks y f x

theorem Heap.getBlock_remove {A : Type} (h : Heap A) (y x : Nat) (hne : x ≠ y) :
    (h.removeBlock y).getBlock x = h.getBlock x :=
  alist_get_filter_ne h.blocks y x hne

theorem Heap.getBlock_remove_self {A : Type} (h : Heap A) (y : Nat) :
    (h.removeBlock y).getBlock y = none :=
  alist_get_filter_self h.blocks y

theorem append_block_spec {A : Type} (h : Heap A) (orig_id append_id next_id : Nat)
    (ba bc bnx : Block A)
    (hga : h.getBlock orig_id = some ba) (hgc : h.getBlock append_id = some bc)
    (hcontig : ba.range.hi = bc.range.lo)
    (hne : orig_id ≠ append_id)
    (hnext : bc.arena_node.next_id = next_id)
    (hne2 : next_id ≠ orig_id) (hne3 : append_id ≠ next_id)
    (hgn : h.getBlock next_id = some bnx) :
    ∃ h2, append_block h orig_id append_id = some h2 ∧
      h2.getBlock orig_id = some { ba with
        range := ⟨ba.range.lo, bc.range.hi⟩
        arena_node := { ba.arena_node with next_id := next_id } } ∧
      h2.getBlock append_id = none ∧
      h2.getBlock next_id = some { bnx with
        arena_node := { bnx.arena_node with prev_id := orig_id } } ∧
      (∀ x, x ≠ orig_id → x ≠ append_id → x ≠ next_id → h2.getBlock x = h.getBlock x) ∧
      h2.free_lists = h.free_lists := by
  have hstep : append_block h orig_id append_id =
      some (((((h.upd orig_id (fun b =>
          { b with range := { ba.range with hi := bc.range.hi } })).upd orig_id (fun b =>
          { b with arena_node := { b.arena_node with next_id := next_id } })).upd next_id
          (fun b =>
          { b with arena_node := { b.arena_node with prev_id := orig_id } }))).removeBlock
          append_id) := by
    unfold append_block
    simp only [guard]
    rw [if_pos hne]
    simp only [Option.some_bind, Option.bind_some, bind, Option.bind, pure]
    rw [hga, hgc]
    simp only [Option.some_bind, bind, Option.bind]
    unfold Range.append
    rw [if_pos hcontig]
    simp only [Option.some_bind, bind, Option.bind]
    rw [hnext]
    rw [if_neg (Ne.symm hne2)]
    rw [Heap.getBlock_upd, if_neg hne2, hgn]
    simp only [Option.some_bind, bind, Option.bind, guard]
    rw [if_pos hne3]
  refine ⟨_, hstep, ?_, ?_, ?_, ?_, rfl⟩
  · rw [Heap.getBlock_remove _ _ _ hne, Heap.getBlock_upd, if_neg hne2.symm,
      Heap.getBlock_upd, if_pos rfl, Heap.getBlock_upd, if_pos rfl, hga]
    rfl
  · exact Heap.getBlock_remove_self _ _
  · rw [Heap.getBlock_remove _ _ _ (Ne.symm hne3), Heap.getBlock_upd, if_pos rfl,
      Heap.getBlock_upd, if_neg hne2, Heap.getBlock_upd, if_neg hne2, hgn]
    rfl
  · intro x hx1 hx2 hx3
    rw [Heap.getBlock_remove _ _ _ hx2, Heap.getBlock_upd, if_neg hx3,
      Heap.getBlock_upd, if_neg hx1, Heap.getBlock_upd, if_neg hx1]

theorem free_no_merge_spec {A : Type} [DecidableEq A] (h : Heap A) (block_id : Nat)
    (blk nxt prv : Block A)
    (hblk : h.getBlock block_id = some blk)
    (hfree : blk.free_node = none)
    (hnxt : h.getBlock blk.arena_node.next_id = some nxt)
    (hnomergen : (nxt.free_node.isSome && blk.can_append nxt) = false)
    (hprv : h.getBlock blk.arena_node.prev_id = some prv)
    (hnomergep : (prv.free_node.isSome && prv.can_append blk) = false) :
    h.free block_id = register_free_block h block_id := by
  unfold Heap.free
  rw [hblk]
  simp only [Option.some_bind, bind, Option.bind, guard]
  rw [if_pos (by rw [hfree]; rfl)]
  rw [hnxt]
  simp only [Option.some_bind, bind, Option.bind]
  rw [hnomergen]
  rw [if_neg Bool.false_ne_true]
  rw [hblk]
  simp only [Option.some_bind, bind, Option.bind]
  rw [hprv]
  simp only [Option.some_bind, bind, Option.bind]
  rw [hnomergep]
  rw [if_neg Bool.false_ne_true]

theorem alist_get_mem {β : Type} (l : List (Nat × β)) (k : Nat) (v : β)
    (hg : alist_get l k = some v) : (k, v) ∈ l := by
  unfold alist_get at hg
  cases hf : l.find? (fun p => p.1 == k) with
  | none => rw [hf] at hg; simp at hg
  | some p =>
    rw [hf] at hg
    have hm := List.mem_of_find?_eq_some hf
    have hk := List.find?_some hf
    simp only [Option.map_some'] at hg
    injection hg with hg
    simp only [beq_iff_eq] at hk
    have hp : p = (k, v) := by
      cases p with
      | mk p1 p2 => simp only at hk hg; rw [hk, hg]
    rw [← hp]
    exact hm

theorem Heap.getBlock_setFreeList {A : Type} (h : Heap A) (i : Nat) (v : Option Nat)
    (x : Nat) : (h.setFreeList i v).getBlock x = h.getBlock x := rfl

theorem setFreeList_get_self {A : Type} (h : Heap A) (i : Nat) (v e : Option Nat)
    (hg : h.free_lists.get? i = some e) :
    (h.setFreeList i v).free_lists.get? i = some v := by
  show (h.free_lists.set i v).get? i = some v
  rw [List.get?_set_eq, hg]
  rfl

theorem opt_eq_none_of_isSome_false {α : Type} (o : Option α)
    (h : o.isSome = false) : o = none := by
  cases o with
  | none => rfl
  | some a => simp at h

theorem free_ring_agree_refl {A : Type} (o : Option (Block A)) : FreeRingAgree o o := by
  cases o with
  | none => trivial
  | some b => exact ⟨rfl, rfl, rfl, rfl⟩

theorem app_agree_refl {A : Type} (aid : Nat) (o : Option (Block A)) :
    AppAgree aid o o := by
  cases o with
  | none => trivial
  | some b => exact ⟨rfl, rfl, rfl, rfl, Or.inl rfl⟩

theorem free_ring_agree_weak {A : Type} {o1 o2 : Option (Block A)}
    (h : FreeRingAgree o1 o2) : WeakAgree o1 o2 := by
  cases o1 with
  | none =>
    cases o2 with
    | none => trivial
    | some b2 => exact h.elim
  | some b1 =>
    cases o2 with
    | none => exact h.elim
    | some b2 => exact ⟨h.1, h.2.1, h.2.2.2⟩

theorem app_agree_weak {A : Type} {aid : Nat} {o1 o2 : Option (Block A)}
    (h : AppAgree aid o1 o2) : WeakAgree o1 o2 := by
  cases o1 with
  | none =>
    cases o2 with
    | none => trivial
    | some b2 => exact h.elim
  | some b1 =>
    cases o2 with
    | none => exact h.elim
    | some b2 => exact ⟨h.1, h.2.1, congrArg Option.isSome h.2.2.1⟩

theorem weak_agree_trans {A : Type} {o1 o2 o3 : Option (Block A)}
    (h12 : WeakAgree o1 o2) (h23 : WeakAgree o2 o3) : WeakAgree o1 o3 := by
  cases o1 with
  | none =>
    cases o2 with
    | none =>
      cases o3 with
      | none => trivial
      | some b3 => exact h23.elim
    | some b2 => exact h12.elim
  | some b1 =>
    cases o2 with
    | none => exact h12.elim
    | some b2 =>
      cases o3 with
      | none => exact h23.elim
      | some b3 => exact ⟨h12.1.trans h23.1, h12.2.1.trans h23.2.1, h12.2.2.trans h23.2.2⟩

theorem can_append_congr {A : Type} [DecidableEq A] (b1 b2 c1 c2 : Block A)
    (ha : b1.arena = b2.arena) (hh : b1.range.hi = b2.range.hi)
    (ha2 : c1.arena = c2.arena) (hl : c1.range.lo = c2.range.lo) :
    b1.can_append c1 = b2.can_append c2 := by
  unfold Block.can_append
  rw [ha, hh, ha2, hl]

theorem can_append_hi_ne {A : Type} [DecidableEq A] (b c : Block A)
    (h : b.range.hi ≠ c.range.lo) : b.can_append c = false := by
  unfold Block.can_append
  rw [decide_eq_false h, Bool.and_false]

theorem register_free_block_inv {A : Type} [DecidableEq A] (h : Heap A)
    (alloc_id : Nat) (hfin : Heap A)
    (hrun : register_free_block h alloc_id = some hfin) :
    ∃ blk, h.getBlock alloc_id = some blk ∧ blk.free_node = none ∧
      (∃ b2, hfin.getBlock alloc_id = some b2 ∧ b2.arena = blk.arena ∧
        b2.range = blk.range ∧ b2.arena_node = blk.arena_node ∧
        b2.free_node.isSome = true) ∧
      hfin.free_lists.get? (free_list_index blk.range.size) = some (some alloc_id) ∧
      (∀ x, x ≠ alloc_id → FreeRingAgree (hfin.getBlock x) (h.getBlock x)) := by
  cases hblk : h.getBlock alloc_id with
  | none =>
    have hstep : register_free_block h alloc_id = none := by
      unfold register_free_block
      rw [hblk]
      rfl
    rw [hstep] at hrun
    exact Option.noConfusion hrun
  | some blk =>
    cases hfn : blk.free_node with
    | some n0 =>
      have hstep : register_free_block h alloc_id = none := by
        unfold register_free_block
        rw [hblk]
        simp only [Option.some_bind, bind, Option.bind, guard]
        rw [if_neg (show ¬(blk.free_node.isNone = true) by rw [hfn]; exact Bool.false_ne_true)]
      rw [hstep] at hrun
      exact Option.noConfusion hrun
    | none =>
      cases hent : h.free_lists.get? (free_list_index blk.range.size) with
      | none =>
        have hstep : register_free_block h alloc_id = none := by
          unfold register_free_block
          rw [hblk]
          simp only [Option.some_bind, bind, Option.bind, guard]
          rw [if_pos (show blk.free_node.isNone = true by rw [hfn]; rfl)]
          rw [hent]
        rw [hstep] at hrun
        exact Option.noConfusion hrun
      | some entry =>
        cases entry with
        | none =>
          have hstep : register_free_block h alloc_id =
              some ((h.upd alloc_id (fun b =>
                { b with free_node := some ⟨alloc_id, alloc_id⟩ })).setFreeList
                  (free_list_index blk.range.size) (some alloc_id)) := by
            unfold register_free_block
            rw [hblk]
            simp only [Option.some_bind, bind, Option.bind, guard]
            rw [if_pos (show blk.free_node.isNone = true by rw [hfn]; rfl)]
            rw [hent]
          rw [hstep] at hrun
          injection hrun with hEq
          subst hEq
          refine ⟨blk, rfl, hfn, ?_, ?_, ?_⟩
          · refine ⟨{ blk with free_node := some ⟨alloc_id, alloc_id⟩ }, ?_, rfl, rfl, rfl, rfl⟩
            rw [Heap.getBlock_setFreeList, Heap.getBlock_upd, if_pos rfl, hblk]
            rfl
          · exact setFreeList_get_self _ _ _ _ hent
          · intro x hx
            rw [Heap.getBlock_setFreeList, Heap.getBlock_upd, if_neg hx]
            exact free_ring_agree_refl _
        | some next_id =>
          cases hnx : h.getBlock next_id with
          | none =>
            have hstep : register_free_block h alloc_id = none := by
              unfold register_free_block
              rw [hblk]
              simp only [Option.some_bind, bind, Option.bind, guard]
              rw [if_pos (show blk.free_node.isNone = true by rw [hfn]; rfl)]
              rw [hent]
              simp only [Option.some_bind, bind, Option.bind]
              rw [hnx]
            rw [hstep] at hrun
            exact Option.noConfusion hrun
          | some nxtb =>
            cases hnn : nxtb.free_node with
            | none =>
              have hstep : register_free_block h alloc_id = none := by
                unfold register_free_block
                rw [hblk]
                simp only [Option.some_bind, bind, Option.bind, guard]
                rw [if_pos (show blk.free_node.isNone = true by rw [hfn]; rfl)]
                rw [hent]
                simp only [Option.some_bind, bind, Option.bind]
                rw [hnx]
                simp only [Option.some_bind, bind, Option.bind]
                rw [hnn]
              rw [hstep] at hrun
              exact Option.noConfusion hrun
            | some nn =>
              by_cases hgd : nn.prev_id ≠ alloc_id ∧ alloc_id ≠ next_id
              · by_cases hpe : nn.prev_id = next_id
                · have hstep : register_free_block h alloc_id =
                      some (((h.upd next_id (fun b =>
                        { b with free_node := Option.map (fun _ => ⟨alloc_id, alloc_id⟩) b.free_node })).upd alloc_id (fun b =>
                        { b with free_node := some ⟨next_id, next_id⟩ })).setFreeList
                          (free_list_index blk.range.size) (some alloc_id)) := by
                    unfold register_free_block
                    rw [hblk]
                    simp only [Option.some_bind, bind, Option.bind, guard]
                    rw [if_pos (show blk.free_node.isNone = true by rw [hfn]; rfl)]
                    rw [hent]
                    simp only [Option.some_bind, bind, Option.bind]
                    rw [hnx]
                    simp only [Option.some_bind, bind, Option.bind]
                    rw [hnn]
                    simp only [Option.some_bind, bind, Option.bind, guard]
                    rw [if_pos hgd]
                    simp only [Option.some_bind, bind, Option.bind, pure]
                    rw [if_pos hpe]
                    rw [hpe]
                    rw [hnx]
                    simp only [Option.some_bind, bind, Option.bind, guard]
                    rw [if_pos (show nxtb.free_node.isSome = true by rw [hnn]; rfl)]
                  rw [hstep] at hrun
                  injection hrun with hEq
                  subst hEq
                  have hna : ¬(alloc_id = next_id) := hgd.2
                  refine ⟨blk, rfl, hfn, ?_, ?_, ?_⟩
                  · refine ⟨{ blk with free_node := some ⟨next_id, next_id⟩ }, ?_,
                      rfl, rfl, rfl, rfl⟩
                    rw [Heap.getBlock_setFreeList, Heap.getBlock_upd, if_pos rfl,
                      Heap.getBlock_upd, if_neg hna, hblk]
                    rfl
                  · exact setFreeList_get_self _ _ _ _ hent
                  · intro x hx
                    rw [Heap.getBlock_setFreeList, Heap.getBlock_upd, if_neg hx]
                    by_cases hxn : x = next_id
                    · subst hxn
                      rw [Heap.getBlock_upd, if_pos rfl, hnx]
                      exact ⟨rfl, rfl, rfl, Option.isSome_map'⟩
                    · rw [Heap.getBlock_upd, if_neg hxn]
                      exact free_ring_agree_refl _
                · cases hpv : h.getBlock nn.prev_id with
                  | none =>
                    have hstep : register_free_block h alloc_id = none := by
                      unfold register_free_block
                      rw [hblk]
                      simp only [Option.some_bind, bind, Option.bind, guard]
                      rw [if_pos (show blk.free_node.isNone = true by rw [hfn]; rfl)]
                      rw [hent]
                      simp only [Option.some_bind, bind, Option.bind]
                      rw [hnx]
                      simp only [Option.some_bind, bind, Option.bind]
                      rw [hnn]
                      simp only [Option.some_bind, bind, Option.bind, guard]
                      rw [if_pos hgd]
                      simp only [Option.some_bind, bind, Option.bind, pure]
                      rw [if_neg hpe]
                      rw [hpv]
                    rw [hstep] at hrun
                    exact Option.noConfusion hrun
                  | some prvb =>
                    cases hpf : prvb.free_node.isSome with
                    | false =>
                      have hstep : register_free_block h alloc_id = none := by
                        unfold register_free_block
                        rw [hblk]
                        simp only [Option.some_bind, bind, Option.bind, guard]
                        rw [if_pos (show blk.free_node.isNone = true by rw [hfn]; rfl)]
                        rw [hent]
                        simp only [Option.some_bind, bind, Option.bind]
                        rw [hnx]
                        simp only [Option.some_bind, bind, Option.bind]
                        rw [hnn]
                        simp only [Option.some_bind, bind, Option.bind, guard]
                        rw [if_pos hgd]
                        simp only [Option.some_bind, bind, Option.bind, pure]
                        rw [if_neg hpe]
                        rw [hpv]
                        simp only [Option.some_bind, bind, Option.bind, guard]
                        rw [if_neg (show ¬(prvb.free_node.isSome = true) by
                          rw [hpf]; exact Bool.false_ne_true)]
                      rw [hstep] at hrun
                      exact Option.noConfusion hrun
                    | true =>
                      have hstep : register_free_block h alloc_id =
                          some ((((h.upd nn.prev_id (fun b =>
                            { b with free_node := Option.map (fun n => { n with next_id := alloc_id }) b.free_node })).upd alloc_id
                            (fun b =>
                            { b with free_node := some ⟨nn.prev_id, next_id⟩ })).upd next_id
                            (fun b =>
                            { b with free_node := Option.map (fun n => { n with next_id := alloc_id }) b.free_node })).setFreeList
                              (free_list_index blk.range.size) (some alloc_id)) := by
                        unfold register_free_block
                        rw [hblk]
                        simp only [Option.some_bind, bind, Option.bind, guard]
                        rw [if_pos (show blk.free_node.isNone = true by rw [hfn]; rfl)]
                        rw [hent]
                        simp only [Option.some_bind, bind, Option.bind]
                        rw [hnx]
                        simp only [Option.some_bind, bind, Option.bind]
                        rw [hnn]
                        simp only [Option.some_bind, bind, Option.bind, guard]
                        rw [if_pos hgd]
                        simp only [Option.some_bind, bind, Option.bind, pure]
                        rw [if_neg hpe]
                        rw [hpv]
                        simp only [Option.some_bind, bind, Option.bind, guard]
                        rw [if_pos hpf]
                        rfl
                      rw [hstep] at hrun
                      injection hrun with hEq
                      subst hEq
                      have hpa : ¬(alloc_id = nn.prev_id) := fun he => hgd.1 he.symm
                      have hna : ¬(alloc_id = next_id) := hgd.2
                      refine ⟨blk, rfl, hfn, ?_, ?_, ?_⟩
                      · refine ⟨{ blk with free_node := some ⟨nn.prev_id, next_id⟩ }, ?_,
                          rfl, rfl, rfl, rfl⟩
                        rw [Heap.getBlock_setFreeList, Heap.getBlock_upd, if_neg hna,
                          Heap.getBlock_upd, if_pos rfl, Heap.getBlock_upd, if_neg hpa, hblk]
                        rfl
                      · exact setFreeList_get_self _ _ _ _ hent
                      · intro x hx
                        rw [Heap.getBlock_setFreeList]
                        by_cases hxn : x = next_id
                        · subst hxn
                          rw [Heap.getBlock_upd, if_pos rfl, Heap.getBlock_upd, if_neg hx,
                            Heap.getBlock_upd, if_neg (fun he => hpe he.symm), hnx]
                          exact ⟨rfl, rfl, rfl, Option.isSome_map'⟩
                        · rw [Heap.getBlock_upd, if_neg hxn, Heap.getBlock_upd, if_neg hx]
                          by_cases hxp : x = nn.prev_id
                          · subst hxp
                            rw [Heap.getBlock_upd, if_pos rfl, hpv]
                            exact ⟨rfl, rfl, rfl, Option.isSome_map'⟩
                          · rw [Heap.getBlock_upd, if_neg hxp]
                            exact free_ring_agree_refl _
              · have hstep : register_free_block h alloc_id = none := by
                  unfold register_free_block
                  rw [hblk]
                  simp only [Option.some_bind, bind, Option.bind, guard]
                  rw [if_pos (show blk.free_node.isNone = true by rw [hfn]; rfl)]
                  rw [hent]
                  simp only [Option.some_bind, bind, Option.bind]
                  rw [hnx]
                  simp only [Option.some_bind, bind, Option.bind]
                  rw [hnn]
                  simp only [Option.some_bind, bind, Option.bind, guard]
                  rw [if_neg hgd]
                rw [hstep] at hrun
                exact Option.noConfusion hrun

theorem unregister_free_block_inv {A : Type} [DecidableEq A] (h : Heap A)
    (free_id : Nat) (hfin : Heap A)
    (hrun : unregister_free_block h free_id = some hfin) :
    ∃ blk nd, h.getBlock free_id = some blk ∧ blk.free_node = some nd ∧
      (∃ b2, hfin.getBlock free_id = some b2 ∧ b2.arena = blk.arena ∧
        b2.range = blk.range ∧ b2.arena_node = blk.arena_node ∧
        b2.free_node = none) ∧
      (∀ x, x ≠ free_id → FreeRingAgree (hfin.getBlock x) (h.getBlock x)) := by
  cases hblk : h.getBlock free_id with
  | none =>
    have hstep : unregister_free_block h free_id = none := by
      unfold unregister_free_block
      rw [hblk]
      rfl
    rw [hstep] at hrun
    exact Option.noConfusion hrun
  | some blk =>
    cases hfn : blk.free_node with
    | none =>
      have hstep : unregister_free_block h free_id = none := by
        unfold unregister_free_block
        rw [hblk]
        simp only [Option.some_bind, bind, Option.bind]
        rw [hfn]
      rw [hstep] at hrun
      exact Option.noConfusion hrun
    | some nd =>
      by_cases hlen : free_list_index blk.range.size < h.free_lists.length
      · by_cases hor : nd.prev_id = free_id ∨ free_id = nd.next_id
        · by_cases hand : free_id = nd.prev_id ∧ free_id = nd.next_id
          · have hstep : unregister_free_block h free_id =
                some ((h.upd free_id (fun b =>
                  { b with free_node := none })).setFreeList
                    (free_list_index blk.range.size) none) := by
              unfold unregister_free_block
              rw [hblk]
              simp only [Option.some_bind, bind, Option.bind, guard]
              rw [hfn]
              simp only [Option.some_bind, bind, Option.bind]
              rw [if_pos hlen]
              simp only [Option.some_bind, bind, Option.bind, pure]
              rw [if_pos hor]
              rw [if_pos hand]
            rw [hstep] at hrun
            injection hrun with hEq
            subst hEq
            refine ⟨blk, nd, rfl, hfn, ?_, ?_⟩
            · refine ⟨{ blk with free_node := none }, ?_, rfl, rfl, rfl, rfl⟩
              rw [Heap.getBlock_setFreeList, Heap.getBlock_upd, if_pos rfl, hblk]
              rfl
            · intro x hx
              rw [Heap.getBlock_setFreeList, Heap.getBlock_upd, if_neg hx]
              exact free_ring_agree_refl _
          · have hstep : unregister_free_block h free_id = none := by
              unfold unregister_free_block
              rw [hblk]
              simp only [Option.some_bind, bind, Option.bind, guard]
              rw [hfn]
              simp only [Option.some_bind, bind, Option.bind]
              rw [if_pos hlen]
              simp only [Option.some_bind, bind, Option.bind, pure]
              rw [if_pos hor]
              rw [if_neg hand]
            rw [hstep] at hrun
            exact Option.noConfusion hrun
        · have hpf2 : ¬(nd.prev_id = free_id) := fun he => hor (Or.inl he)
          have hnf2 : ¬(free_id = nd.next_id) := fun he => hor (Or.inr he)
          by_cases hpn : nd.prev_id = nd.next_id
          · cases hpv : h.getBlock nd.prev_id with
            | none =>
              have hstep : unregister_free_block h free_id = none := by
                unfold unregister_free_block
                rw [hblk]
                simp only [Option.some_bind, bind, Option.bind, guard]
                rw [hfn]
                simp only [Option.some_bind, bind, Option.bind]
                rw [if_pos hlen]
                simp only [Option.some_bind, bind, Option.bind, pure]
                rw [if_neg hor]
                rw [if_pos hpn]
                rw [hpv]
              rw [hstep] at hrun
              exact Option.noConfusion hrun
            | some prvb =>
              cases hpf : prvb.free_node.isSome with
              | false =>
                have hstep : unregister_free_block h free_id = none := by
                  unfold unregister_free_block
                  rw [hblk]
                  simp only [Option.some_bind, bind, Option.bind, guard]
                  rw [hfn]
                  simp only [Option.some_bind, bind, Option.bind]
                  rw [if_pos hlen]
                  simp only [Option.some_bind, bind, Option.bind, pure]
                  rw [if_neg hor]
                  rw [if_pos hpn]
                  rw [hpv]
                  simp only [Option.some_bind, bind, Option.bind, guard]
                  rw [if_neg (show ¬(prvb.free_node.isSome = true) by
                    rw [hpf]; exact Bool.false_ne_true)]
                rw [hstep] at hrun
                exact Option.noConfusion hrun
              | true =>
                have hstep : unregister_free_block h free_id =
                    some (((h.upd nd.prev_id (fun b =>
                      { b with free_node := Option.map (fun _ => ⟨nd.prev_id, nd.next_id⟩) b.free_node })).upd free_id
                      (fun b => { b with free_node := none })).setFreeList
                        (free_list_index blk.range.size) (some nd.next_id)) := by
                  unfold unregister_free_block
                  rw [hblk]
                  simp only [Option.some_bind, bind, Option.bind, guard]
                  rw [hfn]
                  simp only [Option.some_bind, bind, Option.bind]
                  rw [if_pos hlen]
                  simp only [Option.some_bind, bind, Option.bind, pure]
                  rw [if_neg hor]
                  rw [if_pos hpn]
                  rw [hpv]
                  simp only [Option.some_bind, bind, Option.bind, guard]
                  rw [if_pos hpf]
                rw [hstep] at hrun
                injection hrun with hEq
                subst hEq
                refine ⟨blk, nd, rfl, hfn, ?_, ?_⟩
                · refine ⟨{ blk with free_node := none }, ?_, rfl, rfl, rfl, rfl⟩
                  rw [Heap.getBlock_setFreeList, Heap.getBlock_upd, if_pos rfl,
                    Heap.getBlock_upd, if_neg (fun he => hpf2 he.symm), hblk]
                  rfl
                · intro x hx
                  rw [Heap.getBlock_setFreeList, Heap.getBlock_upd, if_neg hx]
                  by_cases hxp : x = nd.prev_id
                  · subst hxp
                    rw [Heap.getBlock_upd, if_pos rfl, hpv]
                    exact ⟨rfl, rfl, rfl, Option.isSome_map'⟩
                  · rw [Heap.getBlock_upd, if_neg hxp]
                    exact free_ring_agree_refl _
          · cases hpv : h.getBlock nd.prev_id with
            | none =>
              have hstep : unregister_free_block h free_id = none := by
                unfold unregister_free_block
                rw [hblk]
                simp only [Option.some_bind, bind, Option.bind, guard]
                rw [hfn]
                simp only [Option.some_bind, bind, Option.bind]
                rw [if_pos hlen]
                simp only [Option.some_bind, bind, Option.bind, pure]
                rw [if_neg hor]
                rw [if_neg hpn]
                rw [hpv]
              rw [hstep] at hrun
              exact Option.noConfusion hrun
            | some prvb =>
              cases hnx : h.getBlock nd.next_id with
              | none =>
                have hstep : unregister_free_block h free_id = none := by
                  unfold unregister_free_block
                  rw [hblk]
                  simp only [Option.some_bind, bind, Option.bind, guard]
                  rw [hfn]
                  simp only [Option.some_bind, bind, Option.bind]
                  rw [if_pos hlen]
                  simp only [Option.some_bind, bind, Option.bind, pure]
                  rw [if_neg hor]
                  rw [if_neg hpn]
                  rw [hpv]
                  simp only [Option.some_bind, bind, Option.bind]
                  rw [hnx]
                rw [hstep] at hrun
                exact Option.noConfusion hrun
              | some nxtb =>
                cases hpf : prvb.free_node.isSome with
                | false =>
                  have hstep : unregister_free_block h free_id = none := by
                    unfold unregister_free_block
                    rw [hblk]
                    simp only [Option.some_bind, bind, Option.bind, guard]
                    rw [hfn]
                    simp only [Option.some_bind, bind, Option.bind]
                    rw [if_pos hlen]
                    simp only [Option.some_bind, bind, Option.bind, pure]
                    rw [if_neg hor]
                    rw [if_neg hpn]
                    rw [hpv]
                    simp only [Option.some_bind, bind, Option.bind]
                    rw [hnx]
                    simp only [Option.some_bind, bind, Option.bind, guard]
                    rw [if_neg (show ¬(prvb.free_node.isSome = true) by
                      rw [hpf]; exact Bool.false_ne_true)]
                  rw [hstep] at hrun
                  exact Option.noConfusion hrun
                | true =>
                  cases hnf : nxtb.free_node.isSome with
                  | false =>
                    have hstep : unregister_free_block h free_id = none := by
                      unfold unregister_free_block
                      rw [hblk]
                      simp only [Option.some_bind, bind, Option.bind, guard]
                      rw [hfn]
                      simp only [Option.some_bind, bind, Option.bind]
                      rw [if_pos hlen]
                      simp only [Option.some_bind, bind, Option.bind, pure]
                      rw [if_neg hor]
                      rw [if_neg hpn]
                      rw [hpv]
                      simp only [Option.some_bind, bind, Option.bind]
                      rw [hnx]
                      simp only [Option.some_bind, bind, Option.bind, guard]
                      rw [if_pos hpf]
                      simp only [Option.some_bind, bind, Option.bind, pure]
                      rw [if_neg (show ¬(nxtb.free_node.isSome = true) by
                        rw [hnf]; exact Bool.false_ne_true)]
                    rw [hstep] at hrun
                    exact Option.noConfusion hrun
                  | true =>
                    have hstep : unregister_free_block h free_id =
                        some ((((h.upd nd.prev_id (fun b =>
                          { b with free_node := Option.map (fun n => { n with next_id := nd.next_id }) b.free_node })).upd
                          nd.next_id (fun b =>
                          { b with free_node := Option.map (fun n => { n with next_id := nd.prev_id }) b.free_node })).upd
                          free_id (fun b => { b with free_node := none })).setFreeList
                            (free_list_index blk.range.size) (some nd.next_id)) := by
                      unfold unregister_free_block
                      rw [hblk]
                      simp only [Option.some_bind, bind, Option.bind, guard]
                      rw [hfn]
                      simp only [Option.some_bind, bind, Option.bind]
                      rw [if_pos hlen]
                      simp only [Option.some_bind, bind, Option.bind, pure]
                      rw [if_neg hor]
                      rw [if_neg hpn]
                      rw [hpv]
                      simp only [Option.some_bind, bind, Option.bind]
                      rw [hnx]
                      simp only [Option.some_bind, bind, Option.bind, guard]
                      rw [if_pos hpf]
                      simp only [Option.some_bind, bind, Option.bind, pure]
                      rw [if_pos hnf]
                    rw [hstep] at hrun
                    injection hrun with hEq
                    subst hEq
                    refine ⟨blk, nd, rfl, hfn, ?_, ?_⟩
                    · refine ⟨{ blk with free_node := none }, ?_, rfl, rfl, rfl, rfl⟩
                      rw [Heap.getBlock_setFreeList, Heap.getBlock_upd, if_pos rfl,
                        Heap.getBlock_upd, if_neg hnf2, Heap.getBlock_upd,
                        if_neg (fun he => hpf2 he.symm), hblk]
                      rfl
                    · intro x hx
                      rw [Heap.getBlock_setFreeList, Heap.getBlock_upd, if_neg hx]
                      by_cases hxn : x = nd.next_id
                      · subst hxn
                        rw [Heap.getBlock_upd, if_pos rfl, Heap.getBlock_upd,
                          if_neg (fun he => hpn he.symm), hnx]
                        exact ⟨rfl, rfl, rfl, Option.isSome_map'⟩
                      · rw [Heap.getBlock_upd, if_neg hxn]
                        by_cases hxp : x = nd.prev_id
                        · subst hxp
                          rw [Heap.getBlock_upd, if_pos rfl, hpv]
                          exact ⟨rfl, rfl, rfl, Option.isSome_map'⟩
                        · rw [Heap.getBlock_upd, if_neg hxp]
                          exact free_ring_agree_refl _
      · have hstep : unregister_free_block h free_id = none := by
          unfold unregister_free_block
          rw [hblk]
          simp only [Option.some_bind, bind, Option.bind, guard]
          rw [hfn]
          simp only [Option.some_bind, bind, Option.bind]
          rw [if_neg hlen]
        rw [hstep] at hrun
        exact Option.noConfusion hrun

theorem append_block_inv {A : Type} (h : Heap A) (orig_id append_id : Nat)
    (hfin : Heap A) (hrun : append_block h orig_id append_id = some hfin) :
    ∃ ba bc, h.getBlock orig_id = some ba ∧ h.getBlock append_id = some bc ∧
      orig_id ≠ append_id ∧ ba.range.hi = bc.range.lo ∧
      (∃ b2, hfin.getBlock orig_id = some b2 ∧ b2.arena = ba.arena ∧
        b2.range = ⟨ba.range.lo, bc.range.hi⟩ ∧ b2.free_node = ba.free_node ∧
        b2.arena_node.next_id = bc.arena_node.next_id ∧
        ((bc.arena_node.next_id = orig_id ∧ b2.arena_node.prev_id = orig_id) ∨
         (bc.arena_node.next_id ≠ orig_id ∧
           b2.arena_node.prev_id = ba.arena_node.prev_id))) ∧
      hfin.getBlock append_id = none ∧
      (∀ x, x ≠ orig_id → x ≠ append_id →
        AppAgree orig_id (hfin.getBlock x) (h.getBlock x)) ∧
      hfin.free_lists = h.free_lists := by
  by_cases hne : orig_id ≠ append_id
  · cases hga : h.getBlock orig_id with
    | none =>
      have hstep : append_block h orig_id append_id = none := by
        unfold append_block
        simp only [guard]
        rw [if_pos hne]
        simp only [Option.some_bind, bind, Option.bind, pure]
        rw [hga]
      rw [hstep] at hrun
      exact Option.noConfusion hrun
    | some ba =>
      cases hgc : h.getBlock append_id with
      | none =>
        have hstep : append_block h orig_id append_id = none := by
          unfold append_block
          simp only [guard]
          rw [if_pos hne]
          simp only [Option.some_bind, bind, Option.bind, pure]
          rw [hga]
          simp only [Option.some_bind, bind, Option.bind]
          rw [hgc]
        rw [hstep] at hrun
        exact Option.noConfusion hrun
      | some bc =>
        by_cases hcont : ba.range.hi = bc.range.lo
        · by_cases hcol : orig_id = bc.arena_node.next_id
          · have hstep : append_block h orig_id append_id =
                some (((h.upd orig_id (fun b =>
                  { b with range := { ba.range with hi := bc.range.hi } })).upd orig_id
                  (fun b =>
                  { b with arena_node := ⟨orig_id, bc.arena_node.next_id⟩ })).removeBlock
                    append_id) := by
              unfold append_block
              simp only [guard]
              rw [if_pos hne]
              simp only [Option.some_bind, bind, Option.bind, pure]
              rw [hga]
              simp only [Option.some_bind, bind, Option.bind]
              rw [hgc]
              simp only [Option.some_bind, bind, Option.bind]
              unfold Range.append
              rw [if_pos hcont]
              simp only [Option.some_bind, bind, Option.bind]
              rw [if_pos hcol]
            rw [hstep] at hrun
            injection hrun with hEq
            subst hEq
            refine ⟨ba, bc, rfl, rfl, hne, hcont, ?_, ?_, ?_, rfl⟩
            · refine ⟨⟨ba.arena, ⟨ba.range.lo, bc.range.hi⟩,
                ⟨orig_id, bc.arena_node.next_id⟩, ba.free_node⟩, ?_, rfl, rfl, rfl, rfl,
                Or.inl ⟨hcol.symm, rfl⟩⟩
              rw [Heap.getBlock_remove _ _ _ hne, Heap.getBlock_upd, if_pos rfl,
                Heap.getBlock_upd, if_pos rfl, hga]
              rfl
            · exact Heap.getBlock_remove_self _ _
            · intro x hx1 hx2
              rw [Heap.getBlock_remove _ _ _ hx2, Heap.getBlock_upd, if_neg hx1,
                Heap.getBlock_upd, if_neg hx1]
              exact app_agree_refl _ _
          · cases hbn : h.getBlock bc.arena_node.next_id with
            | none =>
              have hstep : append_block h orig_id append_id = none := by
                unfold append_block
                simp only [guard]
                rw [if_pos hne]
                simp only [Option.some_bind, bind, Option.bind, pure]
                rw [hga]
                simp only [Option.some_bind, bind, Option.bind]
                rw [hgc]
                simp only [Option.some_bind, bind, Option.bind]
                unfold Range.append
                rw [if_pos hcont]
                simp only [Option.some_bind, bind, Option.bind]
                rw [if_neg hcol]
                rw [Heap.getBlock_upd, if_neg (fun he => hcol he.symm), hbn]
              rw [hstep] at hrun
              exact Option.noConfusion hrun
            | some bnx =>
              by_cases hanx : append_id ≠ bc.arena_node.next_id
              · have hstep : append_block h orig_id append_id =
                    some ((((h.upd orig_id (fun b =>
                      { b with range := { ba.range with hi := bc.range.hi } })).upd orig_id
                      (fun b =>
                      { b with arena_node := { b.arena_node with next_id := bc.arena_node.next_id } })).upd
                      bc.arena_node.next_id (fun b =>
                      { b with arena_node := { b.arena_node with prev_id := orig_id } })).removeBlock
                        append_id) := by
                  unfold append_block
                  simp only [guard]
                  rw [if_pos hne]
                  simp only [Option.some_bind, bind, Option.bind, pure]
                  rw [hga]
                  simp only [Option.some_bind, bind, Option.bind]
                  rw [hgc]
                  simp only [Option.some_bind, bind, Option.bind]
                  unfold Range.append
                  rw [if_pos hcont]
                  simp only [Option.some_bind, bind, Option.bind]
                  rw [if_neg hcol]
                  rw [Heap.getBlock_upd, if_neg (fun he => hcol he.symm), hbn]
                  simp only [Option.some_bind, bind, Option.bind, guard]
                  rw [if_pos hanx]
                rw [hstep] at hrun
                injection hrun with hEq
                subst hEq
                refine ⟨ba, bc, rfl, rfl, hne, hcont, ?_, ?_, ?_, rfl⟩
                · refine ⟨⟨ba.arena, ⟨ba.range.lo, bc.range.hi⟩,
                    ⟨ba.arena_node.prev_id, bc.arena_node.next_id⟩, ba.free_node⟩,
                    ?_, rfl, rfl, rfl, rfl,
                    Or.inr ⟨fun he => hcol he.symm, rfl⟩⟩
                  rw [Heap.getBlock_remove _ _ _ hne, Heap.getBlock_upd,
                    if_neg (fun he => hcol he), Heap.getBlock_upd, if_pos rfl,
                    Heap.getBlock_upd, if_pos rfl, hga]
                  rfl
                · exact Heap.getBlock_remove_self _ _
                · intro x hx1 hx2
                  rw [Heap.getBlock_remove _ _ _ hx2]
                  by_cases hxn : x = bc.arena_node.next_id
                  · subst hxn
                    rw [Heap.getBlock_upd, if_pos rfl, Heap.getBlock_upd, if_neg hx1,
                      Heap.getBlock_upd, if_neg hx1, hbn]
                    exact ⟨rfl, rfl, rfl, rfl, Or.inr rfl⟩
                  · rw [Heap.getBlock_upd, if_neg hxn, Heap.getBlock_upd, if_neg hx1,
                      Heap.getBlock_upd, if_neg hx1]
                    exact app_agree_refl _ _
              · have hstep : append_block h orig_id append_id = none := by
                  unfold append_block
                  simp only [guard]
                  rw [if_pos hne]
                  simp only [Option.some_bind, bind, Option.bind, pure]
                  rw [hga]
                  simp only [Option.some_bind, bind, Option.bind]
                  rw [hgc]
                  simp only [Option.some_bind, bind, Option.bind]
                  unfold Range.append
                  rw [if_pos hcont]
                  simp only [Option.some_bind, bind, Option.bind]
                  rw [if_neg hcol]
                  rw [Heap.getBlock_upd, if_neg (fun he => hcol he.symm), hbn]
                  simp only [Option.some_bind, bind, Option.bind, guard]
                  rw [if_neg hanx]
                rw [hstep] at hrun
                exact Option.noConfusion hrun
        · have hstep : append_block h orig_id append_id = none := by
            unfold append_block
            simp only [guard]
            rw [if_pos hne]
            simp only [Option.some_bind, bind, Option.bind, pure]
            rw [hga]
            simp only [Option.some_bind, bind, Option.bind]
            rw [hgc]
            simp only [Option.some_bind, bind, Option.bind]
            unfold Range.append
            rw [if_neg hcont]
          rw [hstep] at hrun
          exact Option.noConfusion hrun
  · have hstep : append_block h orig_id append_id = none := by
      unfold append_block
      simp only [guard]
      rw [if_neg hne]
      rfl
    rw [hstep] at hrun
    exact Option.noConfusion hrun

theorem weak_agree_none_right {A : Type} {o : Option (Block A)}
    (h : WeakAgree o none) : o = none := by
  cases o with
  | none => rfl
  | some b => exact h.elim

theorem can_append_true_elim {A : Type} [DecidableEq A] (b c : Block A)
    (h : b.can_append c = true) : b.arena = c.arena ∧ b.range.hi = c.range.lo := by
  unfold Block.can_append at h
  rw [Bool.and_eq_true] at h
  exact ⟨of_decide_eq_true h.1, of_decide_eq_true h.2⟩

theorem heap_consistent_nonempty {A : Type} [DecidableEq A] (h : Heap A)
    (hc : HeapConsistent h) (x : Nat) (bx : Block A)
    (hx : h.getBlock x = some bx) : bx.range.lo < bx.range.hi :=
  hc.2.1 (x, bx) (alist_get_mem _ _ _ hx)

theorem heap_consistent_next_prev {A : Type} [DecidableEq A] (h : Heap A)
    (hc : HeapConsistent h) (x : Nat) (bx nb : Block A)
    (hx : h.getBlock x = some bx)
    (hn : h.getBlock bx.arena_node.next_id = some nb) :
    nb.arena_node.prev_id = x :=
  hc.2.2.1 (x, bx) (alist_get_mem _ _ _ hx) (bx.arena_node.next_id, nb)
    (alist_get_mem _ _ _ hn) rfl

theorem heap_consistent_prev_next {A : Type} [DecidableEq A] (h : Heap A)
    (hc : HeapConsistent h) (x : Nat) (bx pb : Block A)
    (hx : h.getBlock x = some bx)
    (hp : h.getBlock bx.arena_node.prev_id = some pb) :
    pb.arena_node.next_id = x :=
  hc.2.2.2.1 (x, bx) (alist_get_mem _ _ _ hx) (bx.arena_node.prev_id, pb)
    (alist_get_mem _ _ _ hp) rfl

theorem heap_consistent_no_adjacent {A : Type} [DecidableEq A] (h : Heap A)
    (hc : HeapConsistent h) (x y : Nat) (bx by2 : Block A)
    (hx : h.getBlock x = some bx) (hy : h.getBlock y = some by2)
    (hfx : bx.free_node.isSome = true) (hfy : by2.free_node.isSome = true) :
    bx.can_append by2 = false :=
  hc.2.2.2.2 (x, bx) (alist_get_mem _ _ _ hx) (y, by2) (alist_get_mem _ _ _ hy) hfx hfy

set_option maxHeartbeats 1000000 in
/-- Claim C9: for every heap in a consistent state (HeapConsistent:
nodup slotmap keys, nonempty ranges, coherent arena rings, and no two
contiguous free blocks of one arena) and every allocated block b present
with its arena-ring neighbours, whenever Heap::free b returns a heap,
that heap holds a merged block m: m is the previous block exactly when
that one was free and contiguous with b, else b itself; the merged range
starts at the previous block's start exactly when that one was absorbed
and ends at the next block's end exactly when that one was free and
contiguous (absorbed); the merged block is free and sits at the head of
the free list of its resulting size; the absorbed neighbours are deleted;
and no block adjacent to m in its arena ring is still free and
contiguous with it - freeing coalesces maximally around the freed
range. -/
theorem c9_heap_free_coalesces {A : Type} [DecidableEq A] (h : Heap A) (b : Nat)
    (blk nxt prv : Block A) (hfin : Heap A)
    (hcons : HeapConsistent h)
    (hblk : h.getBlock b = some blk)
    (halloc : blk.free_node = none)
    (hnxt : h.getBlock blk.arena_node.next_id = some nxt)
    (hprv : h.getBlock blk.arena_node.prev_id = some prv)
    (hrun : h.free b = some hfin) :
    ∃ m bm,
      m = (if (prv.free_node.isSome && prv.can_append blk) = true
        then blk.arena_node.prev_id else b) ∧
      hfin.getBlock m = some bm ∧
      bm.free_node.isSome = true ∧
      bm.arena = blk.arena ∧
      bm.range.lo = (if (prv.free_node.isSome && prv.can_append blk) = true
        then prv.range.lo else blk.range.lo) ∧
      bm.range.hi = (if (nxt.free_node.isSome && blk.can_append nxt) = true
        then nxt.range.hi else blk.range.hi) ∧
      hfin.free_lists.get? (free_list_index bm.range.size) = some (some m) ∧
      ((nxt.free_node.isSome && blk.can_append nxt) = true →
        hfin.getBlock blk.arena_node.next_id = none) ∧
      ((prv.free_node.isSome && prv.can_append blk) = true →
        hfin.getBlock b = none) ∧
      (∀ ba2, hfin.getBlock bm.arena_node.next_id = some ba2 →
        ba2.free_node.isSome = true → bm.can_append ba2 = false) ∧
      (∀ bb2, hfin.getBlock bm.arena_node.prev_id = some bb2 →
        bb2.free_node.isSome = true → bb2.can_append bm = false) := by
  have hstep0 : h.free b = (do
      let h1 ← if (nxt.free_node.isSome && blk.can_append nxt) = true then do
          let g1 ← unregister_free_block h blk.arena_node.next_id
          append_block g1 b blk.arena_node.next_id
        else
          some h
      let blk2 ← h1.getBlock b
      let prv2 ← h1.getBlock blk2.arena_node.prev_id
      if (prv2.free_node.isSome && prv2.can_append blk2) = true then do
        let h2 ← unregister_free_block h1 blk2.arena_node.prev_id
        let h3 ← append_block h2 blk2.arena_node.prev_id b
        register_free_block h3 blk2.arena_node.prev_id
      else
        register_free_block h1 b) := by
    unfold Heap.free
    rw [hblk]
    simp only [Option.some_bind, bind, Option.bind, guard]
    rw [if_pos (show blk.free_node.isNone = true by rw [halloc]; rfl)]
    rw [hnxt]
  rw [hstep0] at hrun
  cases hNM : nxt.free_node.isSome && blk.can_append nxt with
  | false =>
    rw [hNM, if_neg Bool.false_ne_true] at hrun
    have hrun2 : (do
        let blk2 ← h.getBlock b
        let prv2 ← h.getBlock blk2.arena_node.prev_id
        if (prv2.free_node.isSome && prv2.can_append blk2) = true then do
          let h2 ← unregister_free_block h blk2.arena_node.prev_id
          let h3 ← append_block h2 blk2.arena_node.prev_id b
          register_free_block h3 blk2.arena_node.prev_id
        else
          register_free_block h b) = some hfin := hrun
    rw [hblk] at hrun2
    have hrun3 : (do
        let prv2 ← h.getBlock blk.arena_node.prev_id
        if (prv2.free_node.isSome && prv2.can_append blk) = true then do
          let h2 ← unregister_free_block h blk.arena_node.prev_id
          let h3 ← append_block h2 blk.arena_node.prev_id b
          register_free_block h3 blk.arena_node.prev_id
        else
          register_free_block h b) = some hfin := hrun2
    rw [hprv] at hrun3
    have hrun4 : (if (prv.free_node.isSome && prv.can_append blk) = true then do
        let h2 ← unregister_free_block h blk.arena_node.prev_id
        let h3 ← append_block h2 blk.arena_node.prev_id b
        register_free_block h3 blk.arena_node.prev_id
      else
        register_free_block h b) = some hfin := hrun3
    cases hPM : prv.free_node.isSome && prv.can_append blk with
    | false =>
      rw [hPM, if_neg Bool.false_ne_true] at hrun4
      obtain ⟨blkq, hgaq, hfreeq, ⟨bm, hbm, hbma, hbmr, hbman, hbms⟩, hreg, hframe⟩ :=
        register_free_block_inv h b hfin hrun4
      rw [hblk] at hgaq
      injection hgaq with hbe
      subst hbe
      refine ⟨b, bm, ?_, hbm, hbms, hbma, ?_, ?_, ?_, ?_, ?_, ?_, ?_⟩
      · exact (if_neg Bool.false_ne_true).symm
      · rw [if_neg Bool.false_ne_true]
        exact congrArg Range.lo hbmr
      · rw [if_neg Bool.false_ne_true]
        exact congrArg Range.hi hbmr
      · rw [hbmr]
        exact hreg
      · intro hc
        exact absurd hc Bool.false_ne_true
      · intro hc
        exact absurd hc Bool.false_ne_true
      · intro ba2 hba2 hfree2
        rw [hbman] at hba2
        by_cases hnb : blk.arena_node.next_id = b
        · rw [hnb, hbm] at hba2
          injection hba2 with hbe2
          subst hbe2
          apply can_append_hi_ne
          rw [hbmr]
          exact (Nat.ne_of_lt (heap_consistent_nonempty h hcons b blk hblk)).symm
        · have hfra := hframe blk.arena_node.next_id hnb
          rw [hba2, hnxt] at hfra
          obtain ⟨fa, fr, fan, fs⟩ := hfra
          have hnf : nxt.free_node.isSome = true := by rw [← fs]; exact hfree2
          have hca : blk.can_append nxt = false := by
            rw [hnf, Bool.true_and] at hNM
            exact hNM
          rw [can_append_congr bm blk ba2 nxt hbma (congrArg Range.hi hbmr) fa
            (congrArg Range.lo fr)]
          exact hca
      · intro bb2 hbb2 hfree2
        rw [hbman] at hbb2
        by_cases hpb : blk.arena_node.prev_id = b
        · rw [hpb, hbm] at hbb2
          injection hbb2 with hbe2
          subst hbe2
          apply can_append_hi_ne
          rw [hbmr]
          exact (Nat.ne_of_lt (heap_consistent_nonempty h hcons b blk hblk)).symm
        · have hfra := hframe blk.arena_node.prev_id hpb
          rw [hbb2, hprv] at hfra
          obtain ⟨fa, fr, fan, fs⟩ := hfra
          have hpf : prv.free_node.isSome = true := by rw [← fs]; exact hfree2
          have hca : prv.can_append blk = false := by
            rw [hpf, Bool.true_and] at hPM
            exact hPM
          rw [can_append_congr bb2 prv bm blk fa (congrArg Range.hi fr) hbma
            (congrArg Range.lo hbmr)]
          exact hca
    | true =>
      rw [hPM, if_pos rfl] at hrun4
      cases hU2 : unregister_free_block h blk.arena_node.prev_id with
      | none =>
        rw [hU2] at hrun4
        exact Option.noConfusion hrun4
      | some h2 =>
        rw [hU2] at hrun4
        have hrun5 : (do
            let h3 ← append_block h2 blk.arena_node.prev_id b
            register_free_block h3 blk.arena_node.prev_id) = some hfin := hrun4
        cases hA2 : append_block h2 blk.arena_node.prev_id b with
        | none =>
          rw [hA2] at hrun5
          exact Option.noConfusion hrun5
        | some h3 =>
          rw [hA2] at hrun5
          have hrun6 : register_free_block h3 blk.arena_node.prev_id = some hfin := hrun5
          obtain ⟨hPMs, hPMc⟩ := (Bool.and_eq_true _ _).mp hPM
          obtain ⟨hPMarena, hPMcontig⟩ := can_append_true_elim prv blk hPMc
          have hpb : blk.arena_node.prev_id ≠ b := by
            intro he
            rw [he, hblk] at hprv
            injection hprv with hpe2
            rw [← hpe2, halloc] at hPMs
            simp at hPMs
          obtain ⟨blkp, ndp, hgp, hfnp, ⟨p2, hp2, hp2a, hp2r, hp2an, hp2f⟩, hUframe⟩ :=
            unregister_free_block_inv h blk.arena_node.prev_id h2 hU2
          rw [hprv] at hgp
          injection hgp with hpe3
          subst hpe3
          obtain ⟨ba, bc, hba, hbc, hnepb, hcont2, ⟨b3, hb3, hb3a, hb3r, hb3f, hb3n, hb3pd⟩,
            hbgone, hAframe, hAfl⟩ := append_block_inv h2 blk.arena_node.prev_id b h3 hA2
          rw [hp2] at hba
          injection hba with hbe3
          subst hbe3
          have hfrb := hUframe b (fun he => hpb he.symm)
          rw [hbc, hblk] at hfrb
          obtain ⟨bca, bcr, bcan, bcs⟩ := hfrb
          obtain ⟨blk3, hg3, hf3, ⟨bm, hbm, hbma, hbmr, hbman, hbms⟩, hreg3, hRframe⟩ :=
            register_free_block_inv h3 blk.arena_node.prev_id hfin hrun6
          rw [hb3] at hg3
          injection hg3 with hbe4
          subst hbe4
          have hbmar : bm.arena = blk.arena := by
            rw [hbma, hb3a, hp2a]
            exact hPMarena
          have hbmap : bm.arena = prv.arena := by
            rw [hbma, hb3a]
            exact hp2a
          have hbmlo : bm.range.lo = prv.range.lo := by
            rw [hbmr, hb3r]
            show p2.range.lo = prv.range.lo
            exact congrArg Range.lo hp2r
          have hbmhi : bm.range.hi = blk.range.hi := by
            rw [hbmr, hb3r]
            show bc.range.hi = blk.range.hi
            exact congrArg Range.hi bcr
          have hbnone : hfin.getBlock b = none := by
            have hw := free_ring_agree_weak (hRframe b (fun he => hpb he.symm))
            rw [hbgone] at hw
            exact weak_agree_none_right hw
          have h1lt := heap_consistent_nonempty h hcons _ prv hprv
          have h2lt := heap_consistent_nonempty h hcons b blk hblk
          refine ⟨blk.arena_node.prev_id, bm, ?_, hbm, hbms, hbmar, ?_, ?_, ?_, ?_, ?_, ?_, ?_⟩
          · exact (if_pos rfl).symm
          · rw [if_pos rfl]
            exact hbmlo
          · rw [if_neg Bool.false_ne_true]
            exact hbmhi
          · rw [hbmr]
            exact hreg3
          · intro hc
            exact absurd hc Bool.false_ne_true
          · intro hc
            exact hbnone
          · intro ba2 hba2 hfree2
            have hnaeq : bm.arena_node.next_id = blk.arena_node.next_id := by
              rw [hbman, hb3n, bcan]
            rw [hnaeq] at hba2
            by_cases hnp : blk.arena_node.next_id = blk.arena_node.prev_id
            · rw [hnp, hbm] at hba2
              injection hba2 with hbe5
              subst hbe5
              apply can_append_hi_ne
              rw [hbmhi, hbmlo]
              omega
            · by_cases hnb2 : blk.arena_node.next_id = b
              · rw [hnb2, hbnone] at hba2
                exact Option.noConfusion hba2
              · have hw : WeakAgree (hfin.getBlock blk.arena_node.next_id)
                    (h.getBlock blk.arena_node.next_id) :=
                  weak_agree_trans (free_ring_agree_weak (hRframe _ hnp))
                    (weak_agree_trans (app_agree_weak (hAframe _ hnp hnb2))
                      (free_ring_agree_weak (hUframe _ hnp)))
                rw [hba2, hnxt] at hw
                obtain ⟨fa, fr, fs⟩ := hw
                have hnf : nxt.free_node.isSome = true := by rw [← fs]; exact hfree2
                have hca : blk.can_append nxt = false := by
                  rw [hnf, Bool.true_and] at hNM
                  exact hNM
                rw [can_append_congr bm blk ba2 nxt hbmar hbmhi fa (congrArg Range.lo fr)]
                exact hca
          · intro bb2 hbb2 hfree2
            rw [hbman] at hbb2
            cases hb3pd with
            | inl hcolp =>
              rw [hcolp.2, hbm] at hbb2
              injection hbb2 with hbe5
              subst hbe5
              apply can_append_hi_ne
              rw [hbmhi, hbmlo]
              omega
            | inr hprvd =>
              rw [hprvd.2, hp2an] at hbb2
              by_cases hppp : prv.arena_node.prev_id = blk.arena_node.prev_id
              · rw [hppp, hbm] at hbb2
                injection hbb2 with hbe5
                subst hbe5
                apply can_append_hi_ne
                rw [hbmhi, hbmlo]
                omega
              · by_cases hppb : prv.arena_node.prev_id = b
                · rw [hppb, hbnone] at hbb2
                  exact Option.noConfusion hbb2
                · have hw : WeakAgree (hfin.getBlock prv.arena_node.prev_id)
                      (h.getBlock prv.arena_node.prev_id) :=
                    weak_agree_trans (free_ring_agree_weak (hRframe _ hppp))
                      (weak_agree_trans (app_agree_weak (hAframe _ hppp hppb))
                        (free_ring_agree_weak (hUframe _ hppp)))
                  rw [hbb2] at hw
                  cases hpp : h.getBlock prv.arena_node.prev_id with
                  | none =>
                    rw [hpp] at hw
                    exact hw.elim
                  | some bpp =>
                    rw [hpp] at hw
                    obtain ⟨fa, fr, fs⟩ := hw
                    have hppf : bpp.free_node.isSome = true := by rw [← fs]; exact hfree2
                    have hca : bpp.can_append prv = false :=
                      heap_consistent_no_adjacent h hcons _ _ bpp prv hpp hprv hppf hPMs
                    rw [can_append_congr bb2 bpp bm prv fa (congrArg Range.hi fr)
                      hbmap hbmlo]
                    exact hca
  | true =>
    rw [hNM, if_pos rfl] at hrun
    cases hU : unregister_free_block h blk.arena_node.next_id with
    | none =>
      rw [hU] at hrun
      exact Option.noConfusion hrun
    | some hu =>
      rw [hU] at hrun
      have hrunB : (do
          let h1 ← append_block hu b blk.arena_node.next_id
          let blk2 ← h1.getBlock b
          let prv2 ← h1.getBlock blk2.arena_node.prev_id
          if (prv2.free_node.isSome && prv2.can_append blk2) = true then do
            let h2 ← unregister_free_block h1 blk2.arena_node.prev_id
            let h3 ← append_block h2 blk2.arena_node.prev_id b
            register_free_block h3 blk2.arena_node.prev_id
          else
            register_free_block h1 b) = some hfin := hrun
      cases hA : append_block hu b blk.arena_node.next_id with
      | none =>
        rw [hA] at hrunB
        exact Option.noConfusion hrunB
      | some h1 =>
        rw [hA] at hrunB
        have hrunC : (do
            let blk2 ← h1.getBlock b
            let prv2 ← h1.getBlock blk2.arena_node.prev_id
            if (prv2.free_node.isSome && prv2.can_append blk2) = true then do
              let h2 ← unregister_free_block h1 blk2.arena_node.prev_id
              let h3 ← append_block h2 blk2.arena_node.prev_id b
              register_free_block h3 blk2.arena_node.prev_id
            else
              register_free_block h1 b) = some hfin := hrunB
        obtain ⟨hNMs, hNMc⟩ := (Bool.and_eq_true _ _).mp hNM
        obtain ⟨hNMarena, hNMcontig⟩ := can_append_true_elim blk nxt hNMc
        have hnb : blk.arena_node.next_id ≠ b := by
          intro he
          rw [he, hblk] at hnxt
          injection hnxt with hne2
          rw [← hne2, halloc] at hNMs
          simp at hNMs
        obtain ⟨blkn, ndn, hgn, hfnn, ⟨n2, hn2, hn2a, hn2r, hn2an, hn2f⟩, hUframe⟩ :=
          unregister_free_block_inv h blk.arena_node.next_id hu hU
        rw [hnxt] at hgn
        injection hgn with hne3
        subst hne3
        obtain ⟨ba, bc, hba, hbc, hneb2, hcontN,
          ⟨blk2, hblk2, hblk2a, hblk2r, hblk2f, hblk2n, hblk2pd⟩,
          hngone, hAframe, hAfl⟩ := append_block_inv hu b blk.arena_node.next_id h1 hA
        have hfrb := hUframe b (fun he => hnb he.symm)
        rw [hba, hblk] at hfrb
        obtain ⟨baa, bar, baan, bas⟩ := hfrb
        rw [hn2] at hbc
        injection hbc with hbe2
        subst hbe2
        have hbafree : ba.free_node = none := by
          apply opt_eq_none_of_isSome_false
          rw [bas, halloc]
          rfl
        have hblk2arena : blk2.arena = blk.arena := by rw [hblk2a]; exact baa
        have hblk2lo : blk2.range.lo = blk.range.lo := by
          rw [hblk2r]
          show ba.range.lo = blk.range.lo
          exact congrArg Range.lo bar
        have hblk2hi : blk2.range.hi = nxt.range.hi := by
          rw [hblk2r]
          show n2.range.hi = nxt.range.hi
          exact congrArg Range.hi hn2r
        have hblk2free : blk2.free_node = none := by rw [hblk2f]; exact hbafree
        have hblk2next : blk2.arena_node.next_id = nxt.arena_node.next_id := by
          rw [hblk2n, hn2an]
        rw [hblk2] at hrunC
        have hrunD : (do
            let prv2 ← h1.getBlock blk2.arena_node.prev_id
            if (prv2.free_node.isSome && prv2.can_append blk2) = true then do
              let h2 ← unregister_free_block h1 blk2.arena_node.prev_id
              let h3 ← append_block h2 blk2.arena_node.prev_id b
              register_free_block h3 blk2.arena_node.prev_id
            else
              register_free_block h1 b) = some hfin := hrunC
        have h2lt := heap_consistent_nonempty h hcons b blk hblk
        have h3lt := heap_consistent_nonempty h hcons _ nxt hnxt
        cases hblk2pd with
        | inl hcol =>
          have hnxtnext : nxt.arena_node.next_id = b := by rw [← hn2an]; exact hcol.1
          have hpn : blk.arena_node.prev_id = blk.arena_node.next_id :=
            heap_consistent_next_prev h hcons blk.arena_node.next_id nxt blk hnxt
              (by rw [hnxtnext]; exact hblk)
          have hprveq : prv = nxt := by
            rw [hpn, hnxt] at hprv
            injection hprv with he
            exact he.symm
          have hnxthine : nxt.range.hi ≠ blk.range.lo := by omega
          have hPMF : (prv.free_node.isSome && prv.can_append blk) = false := by
            rw [hprveq, can_append_hi_ne nxt blk hnxthine]
            exact Bool.and_false _
          rw [hcol.2, hblk2] at hrunD
          have hrunE : (if (blk2.free_node.isSome && blk2.can_append blk2) = true then do
              let h2 ← unregister_free_block h1 b
              let h3 ← append_block h2 b b
              register_free_block h3 b
            else
              register_free_block h1 b) = some hfin := hrunD
          have hcondF : (blk2.free_node.isSome && blk2.can_append blk2) = false := by
            rw [hblk2free]
            rfl
          rw [hcondF, if_neg Bool.false_ne_true] at hrunE
          obtain ⟨blkq, hgaq, hfreeq, ⟨bm, hbm, hbma, hbmr, hbman, hbms⟩, hreg, hRframe⟩ :=
            register_free_block_inv h1 b hfin hrunE
          rw [hblk2] at hgaq
          injection hgaq with hbe4
          subst hbe4
          have hnnone : hfin.getBlock blk.arena_node.next_id = none := by
            have hw := free_ring_agree_weak (hRframe _ hnb)
            rw [hngone] at hw
            exact weak_agree_none_right hw
          have hbmarena : bm.arena = blk.arena := by rw [hbma]; exact hblk2arena
          have hbmlo : bm.range.lo = blk.range.lo := by rw [hbmr]; exact hblk2lo
          have hbmhi : bm.range.hi = nxt.range.hi := by rw [hbmr]; exact hblk2hi
          have hselfne : bm.range.hi ≠ bm.range.lo := by
            rw [hbmhi, hbmlo]
            omega
          refine ⟨b, bm, ?_, hbm, hbms, hbmarena, ?_, ?_, ?_, ?_, ?_, ?_, ?_⟩
          · rw [hPMF]
            exact (if_neg Bool.false_ne_true).symm
          · rw [hPMF, if_neg Bool.false_ne_true]
            exact hbmlo
          · rw [if_pos rfl]
            exact hbmhi
          · rw [hbmr]
            exact hreg
          · intro hc
            exact hnnone
          · intro hc
            rw [hPMF] at hc
            exact absurd hc Bool.false_ne_true
          · intro ba2 hba2 hfree2
            have hna : bm.arena_node.next_id = b := by
              rw [hbman, hblk2next, hnxtnext]
            rw [hna, hbm] at hba2
            injection hba2 with hbe5
            subst hbe5
            exact can_append_hi_ne _ _ hselfne
          · intro bb2 hbb2 hfree2
            have hpa : bm.arena_node.prev_id = b := by
              rw [hbman]
              exact hcol.2
            rw [hpa, hbm] at hbb2
            injection hbb2 with hbe5
            subst hbe5
            exact can_append_hi_ne _ _ hselfne
        | inr hncol =>
          have hnxtnextne : nxt.arena_node.next_id ≠ b := by
            rw [← hn2an]
            exact hncol.1
          have hblk2prev : blk2.arena_node.prev_id = blk.arena_node.prev_id := by
            rw [hncol.2, baan]
          have hprvnext : prv.arena_node.next_id = b :=
            heap_consistent_prev_next h hcons b blk prv hblk hprv
          have hpn : blk.arena_node.prev_id ≠ blk.arena_node.next_id := by
            intro he
            have hpeq : prv = nxt := by
              rw [he, hnxt] at hprv
              injection hprv with h2e
              exact h2e.symm
            rw [hpeq] at hprvnext
            exact hnxtnextne hprvnext
          have hpb : blk.arena_node.prev_id ≠ b := by
            intro he
            have hprvblk : prv = blk := by
              rw [he, hblk] at hprv
              injection hprv with h2e
              exact h2e.symm
            rw [hprvblk] at hprvnext
            exact hnb hprvnext
          have hw1 : WeakAgree (h1.getBlock blk.arena_node.prev_id)
              (h.getBlock blk.arena_node.prev_id) :=
            weak_agree_trans (app_agree_weak (hAframe _ hpb hpn))
              (free_ring_agree_weak (hUframe _ hpn))
          cases hp1 : h1.getBlock blk.arena_node.prev_id with
          | none =>
            rw [hp1, hprv] at hw1
            exact hw1.elim
          | some prv2 =>
            rw [hp1, hprv] at hw1
            obtain ⟨pa2, pr2, ps2⟩ := hw1
            rw [hblk2prev, hp1] at hrunD
            have hrunE : (if (prv2.free_node.isSome && prv2.can_append blk2) = true then do
                let h2 ← unregister_free_block h1 blk.arena_node.prev_id
                let h3 ← append_block h2 blk.arena_node.prev_id b
                register_free_block h3 blk.arena_node.prev_id
              else
                register_free_block h1 b) = some hfin := hrunD
            have hcondeq : (prv2.free_node.isSome && prv2.can_append blk2) =
                (prv.free_node.isSome && prv.can_append blk) := by
              rw [ps2, can_append_congr prv2 prv blk2 blk pa2 (congrArg Range.hi pr2)
                hblk2arena hblk2lo]
            rw [hcondeq] at hrunE
            cases hPM : prv.free_node.isSome && prv.can_append blk with
            | false =>
              rw [hPM, if_neg Bool.false_ne_true] at hrunE
              obtain ⟨blkq, hgaq, hfreeq, ⟨bm, hbm, hbma, hbmr, hbman, hbms⟩, hreg, hRframe⟩ :=
                register_free_block_inv h1 b hfin hrunE
              rw [hblk2] at hgaq
              injection hgaq with hbe4
              subst hbe4
              have hnnone : hfin.getBlock blk.arena_node.next_id = none := by
                have hw := free_ring_agree_weak (hRframe _ hnb)
                rw [hngone] at hw
                exact weak_agree_none_right hw
              have hbmarena : bm.arena = blk.arena := by rw [hbma]; exact hblk2arena
              have hbmlo : bm.range.lo = blk.range.lo := by rw [hbmr]; exact hblk2lo
              have hbmhi : bm.range.hi = nxt.range.hi := by rw [hbmr]; exact hblk2hi
              refine ⟨b, bm, ?_, hbm, hbms, hbmarena, ?_, ?_, ?_, ?_, ?_, ?_, ?_⟩
              · exact (if_neg Bool.false_ne_true).symm
              · rw [if_neg Bool.false_ne_true]
                exact hbmlo
              · rw [if_pos rfl]
                exact hbmhi
              · rw [hbmr]
                exact hreg
              · intro hc
                exact hnnone
              · intro hc
                exact absurd hc Bool.false_ne_true
              · intro ba2 hba2 hfree2
                have hnaeq : bm.arena_node.next_id = nxt.arena_node.next_id := by
                  rw [hbman]
                  exact hblk2next
                rw [hnaeq] at hba2
                by_cases hnnn : nxt.arena_node.next_id = blk.arena_node.next_id
                · rw [hnnn, hnnone] at hba2
                  exact Option.noConfusion hba2
                · have hw : WeakAgree (hfin.getBlock nxt.arena_node.next_id)
                      (h.getBlock nxt.arena_node.next_id) :=
                    weak_agree_trans (free_ring_agree_weak (hRframe _ hnxtnextne))
                      (weak_agree_trans (app_agree_weak (hAframe _ hnxtnextne hnnn))
                        (free_ring_agree_weak (hUframe _ hnnn)))
                  rw [hba2] at hw
                  cases hnn2 : h.getBlock nxt.arena_node.next_id with
                  | none =>
                    rw [hnn2] at hw
                    exact hw.elim
                  | some bnn =>
                    rw [hnn2] at hw
                    obtain ⟨fa, fr, fs⟩ := hw
                    have hbnnf : bnn.free_node.isSome = true := by rw [← fs]; exact hfree2
                    have hca : nxt.can_append bnn = false :=
                      heap_consistent_no_adjacent h hcons _ _ nxt bnn hnxt hnn2 hNMs hbnnf
                    rw [can_append_congr bm nxt ba2 bnn (hbmarena.trans hNMarena) hbmhi fa
                      (congrArg Range.lo fr)]
                    exact hca
              · intro bb2 hbb2 hfree2
                have hpaeq : bm.arena_node.prev_id = blk.arena_node.prev_id := by
                  rw [hbman]
                  exact hblk2prev
                rw [hpaeq] at hbb2
                have hfr := hRframe _ hpb
                rw [hp1, hbb2] at hfr
                obtain ⟨ga, gr, gan, gs⟩ := hfr
                have hbbf : prv.free_node.isSome = true := by
                  rw [← ps2, ← gs]
                  exact hfree2
                have hca : prv.can_append blk = false := by
                  rw [hbbf, Bool.true_and] at hPM
                  exact hPM
                rw [can_append_congr bb2 prv bm blk (ga.trans pa2)
                  (congrArg Range.hi (gr.trans pr2)) hbmarena hbmlo]
                exact hca
            | true =>
              rw [hPM, if_pos rfl] at hrunE
              obtain ⟨hPMs, hPMc⟩ := (Bool.and_eq_true _ _).mp hPM
              obtain ⟨hPMarena, hPMcontig⟩ := can_append_true_elim prv blk hPMc
              cases hU2 : unregister_free_block h1 blk.arena_node.prev_id with
              | none =>
                rw [hU2] at hrunE
                exact Option.noConfusion hrunE
              | some h2 =>
                rw [hU2] at hrunE
                have hrunF : (do
                    let h3 ← append_block h2 blk.arena_node.prev_id b
                    register_free_block h3 blk.arena_node.prev_id) = some hfin := hrunE
                cases hA2 : append_block h2 blk.arena_node.prev_id b with
                | none =>
                  rw [hA2] at hrunF
                  exact Option.noConfusion hrunF
                | some h3 =>
                  rw [hA2] at hrunF
                  have hrunG : register_free_block h3 blk.arena_node.prev_id
                      = some hfin := hrunF
                  obtain ⟨blkp, ndp, hgp, hfnp, ⟨p2, hp2, hp2a, hp2r, hp2an, hp2f⟩,
                    hU2frame⟩ :=
                    unregister_free_block_inv h1 blk.arena_node.prev_id h2 hU2
                  rw [hp1] at hgp
                  injection hgp with hpe3
                  subst hpe3
                  obtain ⟨bax, bc2, hbax, hbc2, hne2x, hcont2x,
                    ⟨b3, hb3, hb3a, hb3r, hb3f, hb3n, hb3pd⟩,
                    hbgone, hA2frame, hA2fl⟩ :=
                    append_block_inv h2 blk.arena_node.prev_id b h3 hA2
                  rw [hp2] at hbax
                  injection hbax with hbe3
                  subst hbe3
                  have hfrb2 := hU2frame b (fun he => hpb he.symm)
                  rw [hbc2, hblk2] at hfrb2
                  obtain ⟨bc2a, bc2r, bc2an, bc2s⟩ := hfrb2
                  obtain ⟨blk3, hg3, hf3, ⟨bm, hbm, hbma, hbmr, hbman, hbms⟩, hreg3,
                    hR2frame⟩ :=
                    register_free_block_inv h3 blk.arena_node.prev_id hfin hrunG
                  rw [hb3] at hg3
                  injection hg3 with hbe4
                  subst hbe4
                  have hbmarena : bm.arena = blk.arena := by
                    rw [hbma, hb3a, hp2a, pa2]
                    exact hPMarena
                  have hbmap : bm.arena = prv.arena := by
                    rw [hbma, hb3a, hp2a]
                    exact pa2
                  have hbmlo : bm.range.lo = prv.range.lo := by
                    rw [hbmr, hb3r]
                    show p2.range.lo = prv.range.lo
                    rw [hp2r]
                    exact congrArg Range.lo pr2
                  have hbmhi : bm.range.hi = nxt.range.hi := by
                    rw [hbmr, hb3r]
                    show bc2.range.hi = nxt.range.hi
                    rw [bc2r]
                    exact hblk2hi
                  have hbnone : hfin.getBlock b = none := by
                    have hw := free_ring_agree_weak (hR2frame b (fun he => hpb he.symm))
                    rw [hbgone] at hw
                    exact weak_agree_none_right hw
                  have hnnone : hfin.getBlock blk.arena_node.next_id = none := by
                    have hwa : WeakAgree (hfin.getBlock blk.arena_node.next_id)
                        (h1.getBlock blk.arena_node.next_id) :=
                      weak_agree_trans
                        (free_ring_agree_weak (hR2frame _ (fun he => hpn he.symm)))
                        (weak_agree_trans
                          (app_agree_weak (hA2frame _ (fun he => hpn he.symm) hnb))
                          (free_ring_agree_weak (hU2frame _ (fun he => hpn he.symm))))
                    rw [hngone] at hwa
                    exact weak_agree_none_right hwa
                  have h1lt := heap_consistent_nonempty h hcons _ prv hprv
                  have hselfne : bm.range.hi ≠ bm.range.lo := by
                    rw [hbmhi, hbmlo]
                    omega
                  refine ⟨blk.arena_node.prev_id, bm, ?_, hbm, hbms, hbmarena,
                    ?_, ?_, ?_, ?_, ?_, ?_, ?_⟩
                  · exact (if_pos rfl).symm
                  · rw [if_pos rfl]
                    exact hbmlo
                  · rw [if_pos rfl]
                    exact hbmhi
                  · rw [hbmr]
                    exact hreg3
                  · intro hc
                    exact hnnone
                  · intro hc
                    exact hbnone
                  · intro ba2 hba2 hfree2
                    have hnaeq : bm.arena_node.next_id = nxt.arena_node.next_id := by
                      rw [hbman, hb3n, bc2an]
                      exact hblk2next
                    rw [hnaeq] at hba2
                    by_cases hnnp : nxt.arena_node.next_id = blk.arena_node.prev_id
                    · rw [hnnp, hbm] at hba2
                      injection hba2 with hbe5
                      subst hbe5
                      exact can_append_hi_ne _ _ hselfne
                    · by_cases hnnn : nxt.arena_node.next_id = blk.arena_node.next_id
                      · rw [hnnn, hnnone] at hba2
                        exact Option.noConfusion hba2
                      · have hw : WeakAgree (hfin.getBlock nxt.arena_node.next_id)
                            (h.getBlock nxt.arena_node.next_id) :=
                          weak_agree_trans (free_ring_agree_weak (hR2frame _ hnnp))
                            (weak_agree_trans (app_agree_weak (hA2frame _ hnnp hnxtnextne))
                              (weak_agree_trans (free_ring_agree_weak (hU2frame _ hnnp))
                                (weak_agree_trans (app_agree_weak (hAframe _ hnxtnextne hnnn))
                                  (free_ring_agree_weak (hUframe _ hnnn)))))
                        rw [hba2] at hw
                        cases hnn2 : h.getBlock nxt.arena_node.next_id with
                        | none =>
                          rw [hnn2] at hw
                          exact hw.elim
                        | some bnn =>
                          rw [hnn2] at hw
                          obtain ⟨fa, fr, fs⟩ := hw
                          have hbnnf : bnn.free_node.isSome = true := by
                            rw [← fs]
                            exact hfree2
                          have hca : nxt.can_append bnn = false :=
                            heap_consistent_no_adjacent h hcons _ _ nxt bnn hnxt hnn2
                              hNMs hbnnf
                          rw [can_append_congr bm nxt ba2 bnn (hbmarena.trans hNMarena)
                            hbmhi fa (congrArg Range.lo fr)]
                          exact hca
                  · intro bb2 hbb2 hfree2
                    rw [hbman] at hbb2
                    cases hb3pd with
                    | inl hcolp =>
                      rw [hcolp.2, hbm] at hbb2
                      injection hbb2 with hbe5
                      subst hbe5
                      exact can_append_hi_ne _ _ hselfne
                    | inr hprvd =>
                      rw [hprvd.2, hp2an] at hbb2
                      cases hup : hu.getBlock blk.arena_node.prev_id with
                      | none =>
                        have haf := hAframe _ hpb hpn
                        rw [hp1, hup] at haf
                        exact haf.elim
                      | some pu =>
                        have haf := hAframe _ hpb hpn
                        rw [hp1, hup] at haf
                        have huf := hUframe _ hpn
                        rw [hup, hprv] at huf
                        obtain ⟨pua, pur, puan, pus⟩ := huf
                        obtain ⟨afa, afr, aff, afn, afp⟩ := haf
                        cases afp with
                        | inr hpa_b =>
                          rw [hpa_b, hbnone] at hbb2
                          exact Option.noConfusion hbb2
                        | inl hpa_eq =>
                          rw [hpa_eq, puan] at hbb2
                          by_cases hppza : prv.arena_node.prev_id = blk.arena_node.prev_id
                          · rw [hppza, hbm] at hbb2
                            injection hbb2 with hbe5
                            subst hbe5
                            exact can_append_hi_ne _ _ hselfne
                          · by_cases hppzb : prv.arena_node.prev_id = b
                            · rw [hppzb, hbnone] at hbb2
                              exact Option.noConfusion hbb2
                            · by_cases hppzn : prv.arena_node.prev_id = blk.arena_node.next_id
                              · rw [hppzn, hnnone] at hbb2
                                exact Option.noConfusion hbb2
                              · have hw : WeakAgree (hfin.getBlock prv.arena_node.prev_id)
                                    (h.getBlock prv.arena_node.prev_id) :=
                                  weak_agree_trans (free_ring_agree_weak (hR2frame _ hppza))
                                    (weak_agree_trans
                                      (app_agree_weak (hA2frame _ hppza hppzb))
                                      (weak_agree_trans
                                        (free_ring_agree_weak (hU2frame _ hppza))
                                        (weak_agree_trans
                                          (app_agree_weak (hAframe _ hppzb hppzn))
                                          (free_ring_agree_weak (hUframe _ hppzn)))))
                                rw [hbb2] at hw
                                cases hpp : h.getBlock prv.arena_node.prev_id with
                                | none =>
                                  rw [hpp] at hw
                                  exact hw.elim
                                | some bpp =>
                                  rw [hpp] at hw
                                  obtain ⟨fa, fr, fs⟩ := hw
                                  have hbppf : bpp.free_node.isSome = true := by
                                    rw [← fs]
                                    exact hfree2
                                  have hca : bpp.can_append prv = false :=
                                    heap_consistent_no_adjacent h hcons _ _ bpp prv hpp
                                      hprv hbppf hPMs
                                  rw [can_append_congr bb2 bpp bm prv fa
                                    (congrArg Range.hi fr) hbmap hbmlo]
                                  exact hca

/-- Witness for claim C9: Heap::free applied end to end at two concrete
heaps, with every hypothesis decided.  On exH_E (allocated neighbours, a
same-size free block already heading its size class) the freed block is
registered through the ring-insert branch; on exH_A (both neighbours
free) the three blocks coalesce into one registered [0,300) block. -/
theorem c9_heap_free_coalesces_witness :
    ((HeapConsistent exH_E ∧
      exH_E.getBlock 1 = some (mkBlock (100, 200) (0, 2) none) ∧
      (mkBlock (100, 200) (0, 2) none).free_node = none ∧
      exH_E.getBlock (mkBlock (100, 200) (0, 2) none).arena_node.next_id =
        some (mkBlock (200, 300) (1, 3) none) ∧
      exH_E.getBlock (mkBlock (100, 200) (0, 2) none).arena_node.prev_id =
        some (mkBlock (0, 100) (3, 1) none) ∧
      exH_E.free 1 = some exH_E2) ∧
     (∃ m bm,
       m = (if ((mkBlock (0, 100) (3, 1) none).free_node.isSome &&
           (mkBlock (0, 100) (3, 1) none).can_append
             (mkBlock (100, 200) (0, 2) none)) = true
         then (mkBlock (100, 200) (0, 2) none).arena_node.prev_id else 1) ∧
       exH_E2.getBlock m = some bm ∧
       bm.free_node.isSome = true ∧
       bm.arena = (mkBlock (100, 200) (0, 2) none).arena ∧
       bm.range.lo = (if ((mkBlock (0, 100) (3, 1) none).free_node.isSome &&
           (mkBlock (0, 100) (3, 1) none).can_append
             (mkBlock (100, 200) (0, 2) none)) = true
         then (mkBlock (0, 100) (3, 1) none).range.lo
         else (mkBlock (100, 200) (0, 2) none).range.lo) ∧
       bm.range.hi = (if ((mkBlock (200, 300) (1, 3) none).free_node.isSome &&
           (mkBlock (100, 200) (0, 2) none).can_append
             (mkBlock (200, 300) (1, 3) none)) = true
         then (mkBlock (200, 300) (1, 3) none).range.hi
         else (mkBlock (100, 200) (0, 2) none).range.hi) ∧
       exH_E2.free_lists.get? (free_list_index bm.range.size) = some (some m) ∧
       (((mkBlock (200, 300) (1, 3) none).free_node.isSome &&
           (mkBlock (100, 200) (0, 2) none).can_append
             (mkBlock (200, 300) (1, 3) none)) = true →
         exH_E2.getBlock (mkBlock (100, 200) (0, 2) none).arena_node.next_id = none) ∧
       (((mkBlock (0, 100) (3, 1) none).free_node.isSome &&
           (mkBlock (0, 100) (3, 1) none).can_append
             (mkBlock (100, 200) (0, 2) none)) = true →
         exH_E2.getBlock 1 = none) ∧
       (∀ ba2, exH_E2.getBlock bm.arena_node.next_id = some ba2 →
         ba2.free_node.isSome = true → bm.can_append ba2 = false) ∧
       (∀ bb2, exH_E2.getBlock bm.arena_node.prev_id = some bb2 →
         bb2.free_node.isSome = true → bb2.can_append bm = false))) ∧
    ((HeapConsistent exH_A ∧ exH_A.free 1 = some exH_A2) ∧
     (∃ m bm,
       m = (if ((mkBlock (0, 100) (2, 1) (some (2, 2))).free_node.isSome &&
           (mkBlock (0, 100) (2, 1) (some (2, 2))).can_append
             (mkBlock (100, 200) (0, 2) none)) = true
         then (mkBlock (100, 200) (0, 2) none).arena_node.prev_id else 1) ∧
       exH_A2.getBlock m = some bm ∧
       bm.free_node.isSome = true ∧
       bm.arena = (mkBlock (100, 200) (0, 2) none).arena ∧
       bm.range.lo = (if ((mkBlock (0, 100) (2, 1) (some (2, 2))).free_node.isSome &&
           (mkBlock (0, 100) (2, 1) (some (2, 2))).can_append
             (mkBlock (100, 200) (0, 2) none)) = true
         then (mkBlock (0, 100) (2, 1) (some (2, 2))).range.lo
         else (mkBlock (100, 200) (0, 2) none).range.lo) ∧
       bm.range.hi = (if ((mkBlock (200, 300) (1, 0) (some (0, 0))).free_node.isSome &&
           (mkBlock (100, 200) (0, 2) none).can_append
             (mkBlock (200, 300) (1, 0) (some (0, 0)))) = true
         then (mkBlock (200, 300) (1, 0) (some (0, 0))).range.hi
         else (mkBlock (100, 200) (0, 2) none).range.hi) ∧
       exH_A2.free_lists.get? (free_list_index bm.range.size) = some (some m) ∧
       (((mkBlock (200, 300) (1, 0) (some (0, 0))).free_node.isSome &&
           (mkBlock (100, 200) (0, 2) none).can_append
             (mkBlock (200, 300) (1, 0) (some (0, 0)))) = true →
         exH_A2.getBlock (mkBlock (100, 200) (0, 2) none).arena_node.next_id = none) ∧
       (((mkBlock (0, 100) (2, 1) (some (2, 2))).free_node.isSome &&
           (mkBlock (0, 100) (2, 1) (some (2, 2))).can_append
             (mkBlock (100, 200) (0, 2) none)) = true →
         exH_A2.getBlock 1 = none) ∧
       (∀ ba2, exH_A2.getBlock bm.arena_node.next_id = some ba2 →
         ba2.free_node.isSome = true → bm.can_append ba2 = false) ∧
       (∀ bb2, exH_A2.getBlock bm.arena_node.prev_id = some bb2 →
         bb2.free_node.isSome = true → bb2.can_append bm = false))) :=
  ⟨⟨⟨by decide, by decide, by decide, by decide, by decide, by decide⟩,
    c9_heap_free_coalesces exH_E 1 (mkBlock (100, 200) (0, 2) none)
      (mkBlock (200, 300) (1, 3) none) (mkBlock (0, 100) (3, 1) none) exH_E2
      (by decide) (by decide) (by decide) (by decide) (by decide) (by decide)⟩,
   ⟨⟨by decide, by decide⟩,
    c9_heap_free_coalesces exH_A 1 (mkBlock (100, 200) (0, 2) none)
      (mkBlock (200, 300) (1, 0) (some (0, 0))) (mkBlock (0, 100) (2, 1) (some (2, 2)))
      exH_A2 (by decide) (by decide) (by decide) (by decide) (by decide) (by decide)⟩⟩

/-- Witness for claim C2: dead-code elimination on the concrete graph
exG2 (Input → Neg → Output plus a dead Literal). -/
theorem c2_eliminate_dead_code_witness :
    (isTopoOrder exG2 exOrd2 ∧ exG2.Wf) ∧
    ((∀ x nd, (eliminate_dead_code exG2 exOrd2).node x = some nd ↔
      (exG2.node x = some nd ∧ reaches_output exG2 x)) ∧
     (∀ pe : Nat × EdgeRec Shape, pe ∈ (eliminate_dead_code exG2 exOrd2).edges ↔
      (pe ∈ exG2.edges ∧ reaches_output exG2 pe.2.src ∧
        reaches_output exG2 pe.2.dst))) :=
  ⟨⟨by decide, by decide⟩, c2_eliminate_dead_code exG2 exOrd2 (by decide) (by decide)⟩

end Descent
